import Mathlib

/-!
# Vulnerability detector (`wm_vuln_detector.c`): version comparator and reporter

A shallow embedding of `wm_checks_package_vulnerability` and of
`wm_vulnerability_detector_report_agent_vulnerabilities`.

Conventions of the embedding.

* A C `char` is its unsigned value, a `Nat`; a `char *` argument is the list of
  bytes found at the pointer, of which the C string is the part before the
  first NUL (`cstrOf`).
* A local `char x[KEY_SIZE]` is a list of `KEY_SIZE` bytes. A pointer into it is
  an index. A read at an index outside the list is undefined behaviour and ends
  the run with `Outcome.undef`.
* Locals that the C code reads before writing them (the tail of `version_cl`
  and `limit_cl` after the copied string, and `int attemps`) hold an
  indeterminate value: it is a parameter of the embedding (`Frame`).
* `long` is 64 bits and `int` 32 bits (LP64); `strtol` saturates at the limits
  of `long` and the assignment to an `int` keeps the low 32 bits.
* The macros `KEY_SIZE`, `VU_MAX_VERSION_ATTEMPS` and `OS_MAXSTR` come from
  headers outside this file and are parameters (`Consts`).
-/

namespace VulnDetector

/-! ## C library pieces -/

/-- Bytes of an ASCII string literal. -/
def cstr (s : String) : List Nat := s.toList.map Char.toNat

/-- The C string found at a pointer: the bytes before the first NUL. -/
def cstrOf (s : List Nat) : List Nat := s.takeWhile (fun c => c != 0)

/-- The C function `isdigit` in the "C" locale. -/
def isdigit (c : Nat) : Bool := decide (48 ≤ c) && decide (c ≤ 57)

/-- The C function `isalpha` in the "C" locale. -/
def isalpha (c : Nat) : Bool :=
  (decide (65 ≤ c) && decide (c ≤ 90)) || (decide (97 ≤ c) && decide (c ≤ 122))

/-- The C function `isspace` in the "C" locale. -/
def isspace (c : Nat) : Bool := c == 32 || (decide (9 ≤ c) && decide (c ≤ 13))

/-- Leading white space skipped by `strtol`. -/
def skipSpace : List Nat → List Nat
  | [] => []
  | c :: cs => if isspace c then skipSpace cs else c :: cs

/-- The digits read by `strtol`, accumulated in base 10. The scan stops at the
first byte that is not a digit; `none` when the bytes end before that (the scan
would leave the array). -/
def accDigits (acc : Nat) : List Nat → Option Nat
  | [] => none
  | c :: cs => if isdigit c then accDigits (acc * 10 + (c - 48)) cs else some acc

/-- Saturation of `strtol` at `LONG_MIN` and `LONG_MAX` (64-bit `long`). -/
def clampLong (x : Int) : Int :=
  if x > 9223372036854775807 then 9223372036854775807
  else if x < -9223372036854775808 then -9223372036854775808
  else x

/-- The C call `strtol(p, NULL, 10)` on the bytes found at `p`; `none` when the
scan runs off the end of the array. -/
def strtol (s : List Nat) : Option Int :=
  match skipSpace s with
  | [] => none
  | c :: cs =>
    if c = 45 then (accDigits 0 cs).map (fun (n : Nat) => clampLong (-(n : Int)))
    else if c = 43 then (accDigits 0 cs).map (fun (n : Nat) => clampLong (n : Int))
    else (accDigits 0 (c :: cs)).map (fun (n : Nat) => clampLong (n : Int))

/-- Conversion of a `long` to `int`: the low 32 bits, two's complement. -/
def toInt (x : Int) : Int := (x + 2147483648) % 4294967296 - 2147483648

/-- The C string that starts at index `p` of a buffer. -/
def cstrAt (buf : List Nat) (p : Nat) : List Nat := cstrOf (buf.drop p)

/-- The C call `strchr(&buf[p], c)` for `c ≠ 0` on a terminated string: the index
of the first `c` before the terminator. -/
def strchr (buf : List Nat) (p c : Nat) : Option Nat :=
  let s := cstrAt buf p
  let k := s.indexOf c
  if k < s.length then some (p + k) else none

/-- The call `strtol(&buf[p], NULL, 10)` followed by the assignment to an
`int`. -/
def strtolAt (buf : List Nat) (p : Nat) : Option Int := (strtol (buf.drop p)).map toInt

/-- An array of `n` bytes holding the indeterminate bytes `junk`. -/
def fit (n : Nat) (junk : List Nat) : List Nat := (junk ++ List.replicate n 0).take n

/-- The C call `snprintf(dst, size, "%s", src)`: at most `size - 1` bytes of the
string and a terminator; the rest of `dst` keeps its bytes. -/
def snprintf_s (size : Nat) (dst src : List Nat) : List Nat :=
  if size = 0 then dst
  else
    let body := (cstrOf src).take (size - 1)
    body ++ 0 :: dst.drop (body.length + 1)

/-! ## The comparator -/

/-- Constants that the file takes from headers. -/
structure Consts where
  /-- Size of the copy buffers. -/
  KEY_SIZE : Nat
  /-- Bound of the upstream loop. -/
  VU_MAX_VERSION_ATTEMPS : Int
  /-- Size of the package list and of the alert. -/
  OS_MAXSTR : Nat
  /-- Size of the header of an alert. -/
  OS_SIZE_256 : Nat
  /-- The format `VU_ALERT_HEADER`, given by the literal texts around its `%s`
  conversions: the text before the first conversion, the texts between two
  conversions and the text after the last one. -/
  VU_ALERT_HEADER : List (List Nat)
  /-- The format `VU_ALERT_JSON`, given in the same way. -/
  VU_ALERT_JSON : List (List Nat)
deriving Repr

/-- Indeterminate values of the locals of `wm_checks_package_vulnerability` on
entry: `int attemps`, `char version_cl[KEY_SIZE]`, `char limit_cl[KEY_SIZE]`. -/
structure Frame where
  /-- Value found in `attemps` when it is read before any assignment. -/
  attemps : Int
  /-- Bytes found in `version_cl`. -/
  version_cl : List Nat
  /-- Bytes found in `limit_cl`. -/
  limit_cl : List Nat
deriving Repr

/-- How a run of the comparator ends. -/
inductive Outcome where
  /-- The function returns `n`. -/
  | ret (n : Int)
  /-- Undefined behaviour: a read outside an array or through a null pointer. -/
  | undef
  /-- The step budget of the embedding ran out. -/
  | nofuel
deriving DecidableEq, Repr

/-- Lines 135-151: cut the buffer at the first colon and read the epoch.
Gives the buffer, the index of `version_it` and `version_value`. -/
def splitEpoch (buf : List Nat) : Option (List Nat × Nat × Int) :=
  match strchr buf 0 58 with
  | some k =>
    let buf1 := buf.set k 0
    (strtolAt buf1 0).map (fun v => (buf1, k + 1, v))
  | none => some (buf, 0, 0)

/-- The first of the three `strchr` calls of lines 159-161 that succeeds: a
tilde anywhere, else a minus, else a plus. -/
def findSep (buf : List Nat) (p : Nat) : Option Nat :=
  match strchr buf p 126 with
  | some k => some k
  | none =>
    match strchr buf p 45 with
    | some k => some k
    | none => strchr buf p 43

/-- Lines 159-177: cut the buffer at the separator. Gives the buffer and
`version_it2` (`none` for `NULL`). -/
def splitRelease (buf : List Nat) (p : Nat) : Option (List Nat × Option Nat) :=
  match findSep buf p with
  | some k =>
    let buf1 := buf.set k 0
    match buf1[k + 1]? with
    | none => none
    | some c => some (buf1, if c = 0 then none else some (k + 1))
  | none => some (buf, none)

/-- Lines 181-190 (and 192-201): one side of the body of the upstream loop.
Gives the buffer, the index `i` and the flag `version_found`. -/
def upSide (buf : List Nat) (p i found : Nat) : Option (List Nat × Nat × Nat) :=
  if found ≠ 0 then some (buf, i, found)
  else
    match buf[p + i]? with
    | none => none
    | some c =>
      if c = 46 ∨ isalpha c = true then some (buf.set (p + i) 0, i, 1)
      else if c = 0 then some (buf, i, 2)
      else some (buf, i + 1, 0)

/-- How the upstream loop ends. -/
inductive UpResult where
  /-- The function returns from inside the loop. -/
  | ret (n : Int)
  /-- Undefined behaviour. -/
  | undef
  /-- The step budget of the embedding ran out. -/
  | nofuel
  /-- The loop is left, by its condition or by `break`, with these buffers and
  this value of `attemps`. -/
  | done (vbuf lbuf : List Nat) (attemps : Int)
deriving DecidableEq, Repr

/-- Lines 180-227: the upstream loop, entered at its condition. -/
def upstreamLoop (maxAtt : Int) : Nat → List Nat → List Nat → Nat → Nat → Nat → Nat →
    Int → Nat → Nat → UpResult
  | 0, _, _, _, _, _, _, _, _, _ => UpResult.nofuel
  | fuel + 1, vbuf, lbuf, vp, lp, i, j, att, vf, lf =>
    if ¬ att < maxAtt then UpResult.done vbuf lbuf att
    else
      match upSide vbuf vp i vf with
      | none => UpResult.undef
      | some (vbuf1, i1, vf1) =>
        match upSide lbuf lp j lf with
        | none => UpResult.undef
        | some (lbuf1, j1, lf1) =>
          if vf1 ≠ 0 ∧ lf1 ≠ 0 then
            match strtolAt vbuf1 vp, strtolAt lbuf1 lp with
            | some vv, some lv =>
              if vv > lv then UpResult.ret 0
              else if vv < lv then UpResult.ret 1
              else if vf1 ≠ lf1 then
                if vf1 < lf1 then UpResult.ret 0 else UpResult.ret 1
              else if vf1 > 1 then UpResult.done vbuf1 lbuf1 att
              else upstreamLoop maxAtt fuel vbuf1 lbuf1 (vp + i1 + 1) (lp + j1 + 1) 0 0
                (0 + 1) 0 0
            | _, _ => UpResult.undef
          else upstreamLoop maxAtt fuel vbuf1 lbuf1 vp lp i1 j1 (att + 1) vf1 lf1

/-- Lines 246-256 (and 258-268): one side of the body of the release loop.
Gives the buffer, the index of `version_it`, the index `i` and the flag. -/
def relSide (buf : List Nat) (p i found : Nat) : Option (List Nat × Nat × Nat × Nat) :=
  match buf[p + i]? with
  | none => none
  | some c =>
    if c ≠ 0 ∧ isdigit c = true then
      if found = 0 then some (buf, p + i, i + 1, 1) else some (buf, p, i + 1, found)
    else if found ≠ 0 then some (buf.set (p + i) 0, p, i, found)
    else some (buf, p, i + 1, found)

/-- Lines 245-288: the release loop; leaving it by `break` reaches the
`return 0` of line 290. -/
def releaseLoop : Nat → List Nat → List Nat → Nat → Nat → Nat → Nat → Nat → Nat → Outcome
  | 0, _, _, _, _, _, _, _, _ => Outcome.nofuel
  | fuel + 1, vbuf, lbuf, vp, lp, i, j, vf, lf =>
    match relSide vbuf vp i vf with
    | none => Outcome.undef
    | some (vbuf1, vp1, i1, vf1) =>
      match relSide lbuf lp j lf with
      | none => Outcome.undef
      | some (lbuf1, lp1, j1, lf1) =>
        if vf1 ≠ 0 ∧ lf1 ≠ 0 then
          match strtolAt vbuf1 vp1, strtolAt lbuf1 lp1 with
          | some vv, some lv =>
            if vv > lv then Outcome.ret 0
            else if vv < lv then Outcome.ret 1
            else
              match vbuf1[vp1 + i1 + 1]? with
              | none => Outcome.undef
              | some c =>
                if c = 0 then Outcome.ret 0
                else
                  match lbuf1[lp1 + j1 + 1]? with
                  | none => Outcome.undef
                  | some d =>
                    if d = 0 then Outcome.ret 0
                    else releaseLoop fuel vbuf1 lbuf1 (vp1 + i1 + 1) (lp1 + j1 + 1) 0 0 0 0
          | _, _ => Outcome.undef
        else releaseLoop fuel vbuf1 lbuf1 vp1 lp1 i1 j1 vf1 lf1

/-- Step budget of the upstream loop: every round of at most
`VU_MAX_VERSION_ATTEMPS` passes moves `version_it` forward. -/
def upFuel (K : Consts) : Nat := (K.KEY_SIZE + 1) * (K.VU_MAX_VERSION_ATTEMPS.toNat + 1)

/-- Step budget of the release loop: every pass moves a read position forward. -/
def relFuel (K : Consts) : Nat := 2 * K.KEY_SIZE + 2

/-- Lines 153-290: the comparison once both buffers are cut at the epoch. -/
def compareFrom (K : Consts) (att0 : Int) (vbuf lbuf : List Nat) (vp lp : Nat)
    (vval lval : Int) : Outcome :=
  if vval > lval then Outcome.ret 0
  else if vval < lval then Outcome.ret 1
  else
    match splitRelease vbuf vp with
    | none => Outcome.undef
    | some (vbuf1, v2) =>
      match splitRelease lbuf lp with
      | none => Outcome.undef
      | some (lbuf1, l2) =>
        let up :=
          if cstrAt vbuf1 vp ≠ cstrAt lbuf1 lp then
            upstreamLoop K.VU_MAX_VERSION_ATTEMPS (upFuel K) vbuf1 lbuf1 vp lp 0 0 0 0 0
          else UpResult.done vbuf1 lbuf1 att0
        match up with
        | UpResult.ret n => Outcome.ret n
        | UpResult.undef => Outcome.undef
        | UpResult.nofuel => Outcome.nofuel
        | UpResult.done vbuf2 lbuf2 att =>
          if att = K.VU_MAX_VERSION_ATTEMPS then Outcome.ret 0
          else
            match v2, l2 with
            | some a, some b => releaseLoop (relFuel K) vbuf2 lbuf2 a b 0 0 0 0
            | _, _ => Outcome.ret 0

/-- The function `wm_checks_package_vulnerability` (lines 120-293). `package`
is only logged. `operation` and `operation_value` are `none` for `NULL`; `version`
is a string. -/
def wm_checks_package_vulnerability (K : Consts) (fr : Frame) (_package : List Nat)
    (version : List Nat) (operation : Option (List Nat))
    (operation_value : Option (List Nat)) : Outcome :=
  match operation_value with
  | none => Outcome.ret 2
  | some opv =>
    match operation with
    | none => Outcome.undef
    | some op =>
      if cstrOf op ≠ cstr "less than" then Outcome.ret 0
      else
        let version_cl := snprintf_s K.KEY_SIZE (fit K.KEY_SIZE fr.version_cl) version
        let limit_cl := snprintf_s K.KEY_SIZE (fit K.KEY_SIZE fr.limit_cl) opv
        match splitEpoch version_cl with
        | none => Outcome.undef
        | some (vbuf, vp, vval) =>
          match splitEpoch limit_cl with
          | none => Outcome.undef
          | some (lbuf, lp, lval) => compareFrom K fr.attemps vbuf lbuf vp lp vval lval

/-! ## The reporter -/

/-- One row of the cursor over `VU_JOIN_QUERY`, by column number. A column read
with `sqlite3_column_text` that may be SQL NULL is an `Option`. -/
structure Row where
  /-- Column 0. -/
  cve_id : List Nat
  /-- Column 1. -/
  package : List Nat
  /-- Column 2. -/
  title : List Nat
  /-- Column 3. -/
  severity : List Nat
  /-- Column 4. -/
  published : List Nat
  /-- Column 5. -/
  updated : List Nat
  /-- Column 6. -/
  reference : List Nat
  /-- Column 7. -/
  description : List Nat
  /-- Column 8. -/
  version : List Nat
  /-- Column 9. -/
  operation : Option (List Nat)
  /-- Column 10. -/
  operation_value : Option (List Nat)
deriving DecidableEq, Repr

/-- The fields of `agent_software` that the reporter reads. -/
structure Agent where
  /-- Field `agent_id`. -/
  agent_id : List Nat
  /-- Field `agent_name`. -/
  agent_name : List Nat
  /-- Field `agent_ip`. -/
  agent_ip : List Nat
  /-- Field `OS`. -/
  OS : List Nat
deriving DecidableEq, Repr

/-- One call of `SendMSG`: the texts `header` and `alert` that it is given,
and the arguments from which lines 334-335 (and 375-376) format them. -/
structure Alert where
  /-- Header argument. -/
  agent_id : List Nat
  /-- Header argument. -/
  agent_name : List Nat
  /-- Header argument. -/
  agent_ip : List Nat
  /-- Local array `cve`. -/
  cve : List Nat
  /-- Local array `title`. -/
  title : List Nat
  /-- Local array `severity`. -/
  severity : List Nat
  /-- Local array `published`. -/
  published : List Nat
  /-- Local array `updated`. -/
  updated : List Nat
  /-- Local array `reference`. -/
  reference : List Nat
  /-- Local array `rationale`. -/
  rationale : List Nat
  /-- Local array `package_list`. -/
  package_list : List Nat
  /-- The string in `header` after the `snprintf` of line 334. -/
  header : List Nat
  /-- The string in `alert` after the `snprintf` of line 335: the message that
  is sent. -/
  alert : List Nat
deriving DecidableEq, Repr

/-- The locals of the reporter that live across rows. Each array is given by
the string it holds; `off` is `pl_it - package_list`. -/
structure Acc where
  /-- Local array `cve`. -/
  cve : List Nat
  /-- Local array `title`. -/
  title : List Nat
  /-- Local array `severity`. -/
  severity : List Nat
  /-- Local array `published`. -/
  published : List Nat
  /-- Local array `updated`. -/
  updated : List Nat
  /-- Local array `reference`. -/
  reference : List Nat
  /-- Local array `rationale`. -/
  rationale : List Nat
  /-- Local array `package_list`. -/
  package_list : List Nat
  /-- Local `size`. -/
  size : Int
  /-- Offset of `pl_it` in `package_list`. -/
  off : Nat
deriving DecidableEq, Repr

/-- How the walk over the rows of one agent ends. -/
inductive RunStatus where
  /-- The cursor was exhausted. -/
  | completed
  /-- The `break` of line 364 was taken: the three dots are written at
  `pl_it[OS_MAXSTR - 1 .. OS_MAXSTR - 3]`, outside `package_list` unless `pl_it`
  is still at its start, where they replace the terminator. -/
  | overflow
  /-- A call of the comparator met undefined behaviour. -/
  | undef
  /-- A call of the comparator exhausted the step budget of the embedding. -/
  | nofuel
deriving DecidableEq, Repr

/-- What the reporter did for one agent. -/
structure Report where
  /-- The calls of `SendMSG`, in order. -/
  sent : List Alert
  /-- How the walk over the rows ended. -/
  status : RunStatus
  /-- The locals after the last row. -/
  acc : Acc
deriving DecidableEq, Repr

/-- The string left in a `char x[KEY_SIZE]` by `snprintf(x, KEY_SIZE, "%s", s)`. -/
def copyKey (K : Consts) (old s : List Nat) : List Nat :=
  if K.KEY_SIZE = 0 then old else (cstrOf s).take (K.KEY_SIZE - 1)

/-- The text that `snprintf` formats from a format with `%s` conversions only:
the literal texts of the format with the string arguments in between. The
arguments beyond the last conversion are not read; a format with more
conversions than the call has arguments is outside this embedding (the
behaviour of C is undefined there) and is read up to the first conversion
without an argument. -/
def fillFormat : List (List Nat) → List (List Nat) → List Nat
  | [], _ => []
  | lit :: _, [] => lit
  | lit :: lits, arg :: args => lit ++ arg ++ fillFormat lits args

/-- The string left in an array of `size` bytes, `size` positive, by
`snprintf(array, size, ...)` of a text: at most `size - 1` bytes of it. -/
def cutTo (size : Nat) (text : List Nat) : List Nat := text.take (size - 1)

/-- The text of `VU_ALERT_JSON` filled with the eight arguments of line 335. -/
def alertText (K : Consts) (cve title severity published updated reference rationale
    package_list : List Nat) : List Nat :=
  fillFormat K.VU_ALERT_JSON
    [cve, title, severity, published, updated, reference, rationale, package_list]

/-- Lines 333-341 (and 374-382): the alert built from the locals. The header
is formatted into `header[OS_SIZE_256]` and the alert into `alert[OS_MAXSTR]`,
each cut to the size of its array. -/
def mkAlert (K : Consts) (ag : Agent) (a : Acc) : Alert :=
  { agent_id := ag.agent_id, agent_name := ag.agent_name, agent_ip := ag.agent_ip,
    cve := a.cve, title := a.title, severity := a.severity, published := a.published,
    updated := a.updated, reference := a.reference, rationale := a.rationale,
    package_list := a.package_list,
    header := cutTo K.OS_SIZE_256 (fillFormat K.VU_ALERT_HEADER
      [cstrOf ag.agent_id, cstrOf ag.agent_name, cstrOf ag.agent_ip]),
    alert := cutTo K.OS_MAXSTR (alertText K a.cve a.title a.severity a.published a.updated
      a.reference a.rationale a.package_list) }

/-- Lines 330-353: on a row whose `cve_id` differs from `cve`, report the
pending list when it is not empty, then load the locals from the row. -/
def onBoundary (K : Consts) (ag : Agent) (a : Acc) (sent : List Alert) (r : Row) :
    Acc × List Alert :=
  if cstrOf r.cve_id ≠ a.cve then
    ({ cve := copyKey K a.cve r.cve_id,
       title := copyKey K a.title r.title,
       severity := copyKey K a.severity r.severity,
       published := copyKey K a.published r.published,
       updated := copyKey K a.updated r.updated,
       reference := copyKey K a.reference r.reference,
       rationale := copyKey K a.rationale r.description,
       package_list := [],
       size := (K.OS_MAXSTR : Int),
       off := 0 },
     if a.package_list ≠ [] then sent ++ [mkAlert K ag a] else sent)
  else (a, sent)

/-- The text formatted by line 361 for a row whose comparator result is
`v ≠ 0`. -/
def entryText (a : Acc) (r : Row) (v : Int) : List Nat :=
  (if a.package_list ≠ [] then cstr ", " else []) ++ cstrOf r.package ++ cstr " " ++
    (if v ≠ 2 then cstr "(fixable)" else cstr "(unfixed)")

/-- The string in `package_list` after `snprintf(pl_it, size, ...)` of the text
`e`: nothing is written when `size` is 0, else at most `size - 1` bytes. -/
def writeEntry (a : Acc) (e : List Nat) : List Nat :=
  if a.size > 0 then a.package_list.take a.off ++ e.take (a.size.toNat - 1)
  else a.package_list

/-- Lines 322-370: the walk over the rows. Each row comes with the frame that
its call of the comparator finds. -/
def walkRows (K : Consts) (ag : Agent) : List (Frame × Row) → Acc → List Alert →
    Acc × List Alert × RunStatus
  | [], a, sent => (a, sent, RunStatus.completed)
  | (fr, r) :: rest, a, sent =>
    match onBoundary K ag a sent r with
    | (a1, sent1) =>
      match wm_checks_package_vulnerability K fr r.package r.version r.operation
          r.operation_value with
      | Outcome.undef => (a1, sent1, RunStatus.undef)
      | Outcome.nofuel => (a1, sent1, RunStatus.nofuel)
      | Outcome.ret v =>
        if v ≠ 0 then
          let e := entryText a1 r v
          let a2 := { a1 with package_list := writeEntry a1 e,
                              size := a1.size - (e.length : Int) }
          if a2.size < 0 then (a2, sent1, RunStatus.overflow)
          else walkRows K ag rest { a2 with off := a1.off + e.length } sent1
        else walkRows K ag rest a1 sent1

/-- Lines 318-321: the locals when the walk starts; `junk` holds what the
arrays `title` to `rationale` contain on entry. -/
def startAcc (K : Consts) (junk : Acc) : Acc :=
  { junk with cve := [], package_list := [], size := (K.OS_MAXSTR : Int), off := 0 }

/-- Lines 318-383: the report of one agent. `junk` holds what the arrays
`title` to `rationale` contain on entry; `cve` and `package_list` are emptied
by lines 318-321. After undefined behaviour in the comparator nothing more is
recorded. -/
def report_agent (K : Consts) (ag : Agent) (junk : Acc) (rows : List (Frame × Row)) :
    Report :=
  match walkRows K ag rows (startAcc K junk) [] with
  | (a, sent, st) =>
    if st = RunStatus.undef ∨ st = RunStatus.nofuel then
      { sent := sent, status := st, acc := a }
    else if a.cve ≠ cstr " " then
      { sent := sent ++ [mkAlert K ag a], status := st, acc := a }
    else { sent := sent, status := st, acc := a }

/-- The function `wm_vulnerability_detector_report_agent_vulnerabilities`
(lines 295-389) on the chain of agents reached through `prev`, each with the
rows of its cursor (`none` when `sqlite3_prepare_v2` fails, which ends the
function). Gives the calls of `SendMSG`, in order. -/
def wm_vulnerability_detector_report_agent_vulnerabilities (K : Consts) :
    List (Agent × Option (List (Frame × Row))) → Acc → List Alert
  | [], _ => []
  | (_, none) :: _, _ => []
  | (ag, some rows) :: rest, junk =>
    let rep := report_agent K ag junk rows
    if rep.status = RunStatus.undef ∨ rep.status = RunStatus.nofuel then rep.sent
    else rep.sent ++ wm_vulnerability_detector_report_agent_vulnerabilities K rest rep.acc

/-! ## Definitions used to state the properties -/

/-- The value `strtol` gives for a terminated string, kept to an `int`. -/
def strtolStr (p : List Nat) : Int := ((strtol (p ++ [0])).map toInt).getD 0

/-- The bytes of a string that `snprintf` copies into a `KEY_SIZE` array. -/
def copied (K : Consts) (v : List Nat) : List Nat := (cstrOf v).take (K.KEY_SIZE - 1)

/-- The epoch of a version as lines 135-151 read it: `strtol` of the text before
the first colon of the copy, kept to an `int`; 0 when the copy has no colon. -/
def epochOf (K : Consts) (v : List Nat) : Int :=
  if 58 ∈ copied K v then strtolStr ((copied K v).takeWhile (fun c => c != 58)) else 0

/-- The number written by a string of decimal digits. -/
def decimal (p : List Nat) : Nat := p.foldl (fun acc c => acc * 10 + (c - 48)) 0

/-- The text before the first colon of a version, empty when it has none: the
epoch as the version string writes it. -/
def epochText (v : List Nat) : List Nat :=
  if 58 ∈ cstrOf v then (cstrOf v).takeWhile (fun c => c != 58) else []

/-- Sample values of the header constants, used for concrete runs. -/
def sampleConsts : Consts :=
  { KEY_SIZE := 64, VU_MAX_VERSION_ATTEMPS := 15, OS_MAXSTR := 128, OS_SIZE_256 := 256,
    VU_ALERT_HEADER := [cstr "[", cstr "] (", cstr ") ", []],
    VU_ALERT_JSON := [cstr "cve=", cstr ";title=", cstr ";severity=", cstr ";published=",
                      cstr ";updated=", cstr ";reference=", cstr ";rationale=",
                      cstr ";packages=", []] }

/-- A frame whose arrays hold only zero bytes and whose `attemps` is 0. -/
def zeroFrame : Frame := { attemps := 0, version_cl := [], limit_cl := [] }

/-- The operation string "less than". -/
def lessThan : Option (List Nat) := some (cstr "less than")

/-- A frame whose arrays still hold the text of an earlier pair of versions,
"2.6-10.3" and "2.6-10.4". -/
def staleFrame : Frame :=
  { attemps := 0, version_cl := cstr "2.6-10.3", limit_cl := cstr "2.6-10.4" }

/-- A frame in which `attemps` still holds the bound that an earlier run of the
upstream loop reached. -/
def boundFrame : Frame := { attemps := 15, version_cl := [], limit_cl := [] }

/-- The comparator on two version texts under "less than", with the sample
constants. -/
def lessThanOn (fr : Frame) (installed operand : String) : Outcome :=
  wm_checks_package_vulnerability sampleConsts fr (cstr "pkg") (cstr installed) lessThan
    (some (cstr operand))

/-- A sample agent. -/
def sampleAgent : Agent :=
  { agent_id := cstr "001", agent_name := cstr "host", agent_ip := cstr "10.0.0.1",
    OS := cstr "XENIAL" }

/-- Locals of the reporter holding empty strings. -/
def emptyAcc : Acc :=
  { cve := [], title := [], severity := [], published := [], updated := [], reference := [],
    rationale := [], package_list := [], size := 0, off := 0 }

/-- A row of the join for the sample runs: only the columns that the reporter
branches on are filled. -/
def sampleRow (cve pkg installed operand : String) : Frame × Row :=
  (zeroFrame,
   { cve_id := cstr cve, package := cstr pkg, title := [], severity := [], published := [],
     updated := [], reference := [], description := [], version := cstr installed,
     operation := lessThan, operation_value := some (cstr operand) })

/-- The result of the comparator on a row. -/
def rowResult (K : Consts) (x : Frame × Row) : Outcome :=
  wm_checks_package_vulnerability K x.1 x.2.package x.2.version x.2.operation
    x.2.operation_value

/-- A row whose operand is SQL NULL. -/
def nullOperandRow (cve pkg installed : String) : Frame × Row :=
  (zeroFrame,
   { cve_id := cstr cve, package := cstr pkg, title := [], severity := [], published := [],
     updated := [], reference := [], description := [], version := cstr installed,
     operation := none, operation_value := none })

/-- Scenario 6 of the specification: one CVE, packages foo and bar, both
vulnerable. -/
def twoPackages : List (Frame × Row) :=
  [sampleRow "CVE-2018-1" "foo" "1.0" "2.0", sampleRow "CVE-2018-1" "bar" "1.0-1" "1.0-2"]

/-- The text of a version after its epoch: what follows the first colon, or
the whole version when it has no colon (`version_it` after lines 135-142). -/
def afterEpoch (v : List Nat) : List Nat :=
  if 58 ∈ v then v.drop (v.indexOf 58 + 1) else v

/-- The three characters at which the release is split off, in the order in
which lines 159-161 look for them: tilde, minus, plus. -/
def isSep (c : Nat) : Bool := c == 126 || c == 45 || c == 43

/-- Lexicographic order on sequences of numbers, a proper initial part counting
as smaller. -/
def lexLt : List Nat → List Nat → Bool
  | [], [] => false
  | [], _ :: _ => true
  | _ :: _, [] => false
  | a :: as, b :: bs => decide (a < b) || (a == b && lexLt as bs)

/-- The text of an upstream part made of the given tokens, separated by
dots. -/
def dotted : List (List Nat) → List Nat
  | [] => []
  | [t] => t
  | t :: t2 :: ts => t ++ 46 :: dotted (t2 :: ts)

/-- Buffer of one side of the upstream loop after `k` passes over a token `tok`
that is followed by the byte `d`: the byte is replaced by a terminator once the
scan has reached it. -/
def scanBuf (pre tok rest : List Nat) (d k : Nat) : List Nat :=
  if k ≤ tok.length then pre ++ tok ++ d :: rest else pre ++ tok ++ 0 :: rest

/-- Index `i` of one side of the upstream loop after `k` passes. -/
def scanIdx (tok : List Nat) (k : Nat) : Nat := min k tok.length

/-- Flag `version_found` of one side of the upstream loop after `k` passes. -/
def scanFlag (tok : List Nat) (kind k : Nat) : Nat := if k ≤ tok.length then 0 else kind

/-- Lines 203-226 once both tokens are found: the tokens read `a` and `b`, the
flags are `kv` and `kl` (1 at a dot, 2 at the terminator). -/
def tokenVerdict (maxAtt : Int) (fuel : Nat) (cutv cutl : List Nat) (pv pl a b kv kl : Nat)
    (att : Int) : UpResult :=
  if (a : Int) > (b : Int) then UpResult.ret 0
  else if (a : Int) < (b : Int) then UpResult.ret 1
  else if kv ≠ kl then (if kv < kl then UpResult.ret 0 else UpResult.ret 1)
  else if kv > 1 then UpResult.done cutv cutl att
  else upstreamLoop maxAtt fuel cutv cutl pv pl 0 0 (0 + 1) 0 0

/-! ## The parsed feed and the catalog -/

/-- A node of the list `parsed_oval->vulnerabilities`; a `char *` field is
`none` for `NULL`. -/
structure Vulnerability where
  /-- Field `cve_id`. -/
  cve_id : Option (List Nat)
  /-- Field `state_id`. -/
  state_id : Option (List Nat)
  /-- Field `package_name`. -/
  package_name : Option (List Nat)
  /-- Field `pending`. -/
  pending : Int
deriving DecidableEq, Repr

/-- A node of the list `parsed_oval->info_tests`. -/
structure InfoTest where
  /-- Field `id`. -/
  id : Option (List Nat)
  /-- Field `state`. -/
  state : Option (List Nat)
deriving DecidableEq, Repr

/-- A node of the list `parsed_oval->info_states`. -/
structure InfoState where
  /-- Field `id`. -/
  id : Option (List Nat)
  /-- Field `operation`. -/
  operation : Option (List Nat)
  /-- Field `operation_value`. -/
  operation_value : Option (List Nat)
deriving DecidableEq, Repr

/-- A node of the list `parsed_oval->info_cves`. -/
structure InfoCve where
  /-- Field `cveid`. -/
  cveid : Option (List Nat)
  /-- Field `title`. -/
  title : Option (List Nat)
  /-- Field `severity`. -/
  severity : Option (List Nat)
  /-- Field `published`. -/
  published : Option (List Nat)
  /-- Field `updated`. -/
  updated : Option (List Nat)
  /-- Field `reference`. -/
  reference : Option (List Nat)
  /-- Field `description`. -/
  description : Option (List Nat)
deriving DecidableEq, Repr

/-- The structure `oval_metadata`. -/
structure OvalMetadata where
  /-- Field `product_name`. -/
  product_name : Option (List Nat)
  /-- Field `product_version`. -/
  product_version : Option (List Nat)
  /-- Field `schema_version`. -/
  schema_version : Option (List Nat)
  /-- Field `timestamp`. -/
  timestamp : Option (List Nat)
deriving DecidableEq, Repr

/-- The structure `wm_vulnerability_detector_db`. Each list is given in the
order in which the `prev` pointers walk it, starting from the node the
structure points to. -/
structure ParsedOval where
  /-- Field `OS`. -/
  OS : List Nat
  /-- Field `metadata`. -/
  metadata : OvalMetadata
  /-- Field `vulnerabilities`. -/
  vulnerabilities : List Vulnerability
  /-- Field `info_tests`. -/
  info_tests : List InfoTest
  /-- Field `info_states`. -/
  info_states : List InfoState
  /-- Field `info_cves`. -/
  info_cves : List InfoCve
deriving DecidableEq, Repr

/-- Modelled from the spec: a row of the table `vulnerabilities`; the schema
(`schema_vuln_detector_sql`) is not in this file. The six columns are the six
values bound by lines 520-525; the fifth is the overloaded `state_id` column,
which holds in turn the test reference, the state reference and the operation;
the sixth holds the operand. -/
structure VulnRow where
  /-- First column. -/
  cve_id : Option (List Nat)
  /-- Second column. -/
  os : List Nat
  /-- Third column. -/
  package_name : Option (List Nat)
  /-- Fourth column. -/
  pending : Int
  /-- Fifth column. -/
  state_id : Option (List Nat)
  /-- Sixth column. -/
  operation_value : Option (List Nat)
deriving DecidableEq, Repr

/-- Modelled from the spec: a row of the table `cve_info`, the eight values
bound by lines 632-639. -/
structure InfoRow where
  /-- First column. -/
  cve_id : Option (List Nat)
  /-- Second column. -/
  title : Option (List Nat)
  /-- Third column. -/
  severity : Option (List Nat)
  /-- Fourth column. -/
  published : Option (List Nat)
  /-- Fifth column. -/
  updated : Option (List Nat)
  /-- Sixth column. -/
  reference : Option (List Nat)
  /-- Seventh column. -/
  os : List Nat
  /-- Eighth column. -/
  description : Option (List Nat)
deriving DecidableEq, Repr

/-- Modelled from the spec: a row of the table `metadata`, the five values
bound by lines 661-665. -/
structure MetaRow where
  /-- First column. -/
  os : List Nat
  /-- Second column. -/
  product_name : Option (List Nat)
  /-- Third column. -/
  product_version : Option (List Nat)
  /-- Fourth column. -/
  schema_version : Option (List Nat)
  /-- Fifth column. -/
  timestamp : Option (List Nat)
deriving DecidableEq, Repr

/-- Modelled from the spec: a row of the table `agents`, the four values bound
by the inventory loader. -/
structure AgentRow where
  /-- First column. -/
  agent_id : Option (List Nat)
  /-- Second column. -/
  package_name : Option (List Nat)
  /-- Third column. -/
  version : Option (List Nat)
  /-- Fourth column. -/
  arch : Option (List Nat)
deriving DecidableEq, Repr

/-- The committed content of the catalog file. -/
structure Catalog where
  /-- Table `vulnerabilities`. -/
  vulnerabilities : List VulnRow
  /-- Table `cve_info`. -/
  cve_info : List InfoRow
  /-- Table `metadata`. -/
  metadata : List MetaRow
  /-- Table `agents`. -/
  agents : List AgentRow
deriving DecidableEq, Repr

/-- The statements that `wm_vulnerability_detector_insert` runs inside its
transaction, with the values it binds. -/
inductive Stmt where
  /-- `VU_INSERT_CVE` (lines 516-530). -/
  | insertVuln (r : VulnRow)
  /-- `VU_UPDATE_CVE` (lines 543-560): new value, then the value looked for. -/
  | updateState (state : Option (List Nat)) (id : Option (List Nat))
  /-- `VU_UPDATE_CVE2` (lines 598-606): operation, operand, then the value
  looked for. -/
  | updateOperation (operation operation_value id : Option (List Nat))
  /-- `VU_INSERT_CVE_INFO` (lines 625-642). -/
  | insertInfo (r : InfoRow)
  /-- `VU_INSERT_METADATA` (lines 658-668). -/
  | insertMeta (r : MetaRow)
deriving DecidableEq, Repr

/-- Modelled from the spec: the comparison `state_id = ?` of the two UPDATE
statements; as in SQL, a null on either side matches nothing. -/
def matchesId (col id : Option (List Nat)) : Bool :=
  match col, id with
  | some a, some b => decide (a = b)
  | _, _ => false

/-- Modelled from the spec: `VU_UPDATE_CVE` on one row ("UPDATE all
`vulnerabilities.state_id` rows equal to `test.id`, replacing with
`test.state`"); the statement binds two values and names no OS. -/
def rewriteState (state id : Option (List Nat)) (r : VulnRow) : VulnRow :=
  if matchesId r.state_id id = true then { r with state_id := state } else r

/-- Modelled from the spec: `VU_UPDATE_CVE2` on one row ("UPDATE all
`vulnerabilities` rows whose `state_id` equals `state.id`, recording
`state.operation` and `state.operation_value`"); the statement binds three
values and names no OS. -/
def rewriteOperation (operation operation_value id : Option (List Nat)) (r : VulnRow) :
    VulnRow :=
  if matchesId r.state_id id = true then
    { r with state_id := operation, operation_value := operation_value }
  else r

/-- The effect of one statement of the transaction on the tables. -/
def exec (c : Catalog) : Stmt → Catalog
  | Stmt.insertVuln r => { c with vulnerabilities := c.vulnerabilities ++ [r] }
  | Stmt.updateState state id =>
    { c with vulnerabilities := c.vulnerabilities.map (rewriteState state id) }
  | Stmt.updateOperation op opv id =>
    { c with vulnerabilities := c.vulnerabilities.map (rewriteOperation op opv id) }
  | Stmt.insertInfo r => { c with cve_info := c.cve_info ++ [r] }
  | Stmt.insertMeta r => { c with metadata := c.metadata ++ [r] }

/-- Modelled from the spec: `DELETE_QUERY` on the table `vulnerabilities` with
the condition `OS='<os>'` built by `wm_vulnerability_detector_remove_OS_table`. -/
def deleteVulnOS (os : List Nat) (c : Catalog) : Catalog :=
  { c with vulnerabilities := c.vulnerabilities.filter (fun r => decide (r.os ≠ os)) }

/-- Modelled from the spec: `DELETE_QUERY` on the table `metadata`. -/
def deleteMetaOS (os : List Nat) (c : Catalog) : Catalog :=
  { c with metadata := c.metadata.filter (fun r => decide (r.os ≠ os)) }

/-- Modelled from the spec: `DELETE_QUERY` on the table `cve_info`. -/
def deleteInfoOS (os : List Nat) (c : Catalog) : Catalog :=
  { c with cve_info := c.cve_info.filter (fun r => decide (r.os ≠ os)) }

/-- Lines 513-539: the rows bound to `VU_INSERT_CVE`, one for each vulnerability
that has a `state_id`, in list order; the sixth value is bound to NULL. -/
def newVulnRows (p : ParsedOval) : List VulnRow :=
  p.vulnerabilities.filterMap (fun v =>
    match v.state_id with
    | some s =>
      some { cve_id := v.cve_id, os := p.OS, package_name := v.package_name,
             pending := v.pending, state_id := some s, operation_value := none }
    | none => none)

/-- Lines 513-539: one INSERT for each vulnerability that has a `state_id`. -/
def vulnStmts (p : ParsedOval) : List Stmt :=
  (newVulnRows p).map Stmt.insertVuln

/-- Lines 542-556: the first value bound to `VU_UPDATE_CVE`, the state of the
test or the text "exists". -/
def testState (t : InfoTest) : Option (List Nat) :=
  match t.state with
  | some s => some s
  | none => some (cstr "exists")

/-- Lines 541-567: one UPDATE for each test, with its state or with "exists".
The second copy of the loop (lines 569-595) starts with `test_it` null and runs
no statement. -/
def testStmts (p : ParsedOval) : List Stmt :=
  p.info_tests.map (fun t => Stmt.updateState (testState t) t.id)

/-- Lines 597-614: one UPDATE for each state. -/
def stateStmts (p : ParsedOval) : List Stmt :=
  p.info_states.map (fun s => Stmt.updateOperation s.operation s.operation_value s.id)

/-- Lines 616-639: the rows bound to `VU_INSERT_CVE_INFO`, one for each CVE;
`updated` defaults to `published`. -/
def newInfoRows (p : ParsedOval) : List InfoRow :=
  p.info_cves.map (fun i =>
    { cve_id := i.cveid, title := i.title, severity := i.severity, published := i.published,
      updated := (match i.updated with
        | some u => some u
        | none => i.published),
      reference := i.reference, os := p.OS, description := i.description })

/-- Lines 616-656: one INSERT for each CVE. -/
def infoStmts (p : ParsedOval) : List Stmt :=
  (newInfoRows p).map Stmt.insertInfo

/-- Lines 661-665: the row bound to `VU_INSERT_METADATA`. -/
def newMetaRow (p : ParsedOval) : MetaRow :=
  { os := p.OS, product_name := p.metadata.product_name,
    product_version := p.metadata.product_version,
    schema_version := p.metadata.schema_version, timestamp := p.metadata.timestamp }

/-- Lines 658-668: the INSERT of the metadata row. -/
def metaStmt (p : ParsedOval) : Stmt :=
  Stmt.insertMeta (newMetaRow p)

/-- The statements between `BEGIN_T` and `END_T`, in order. -/
def transactionStmts (p : ParsedOval) : List Stmt :=
  vulnStmts p ++ testStmts p ++ stateStmts p ++ infoStmts p ++ [metaStmt p]

/-- The statements from number `n` on, run on the working copy of the
transaction; `ok k` tells whether statement number `k` of the call succeeds
(prepare and step). `none` when one fails: the function returns at once and
the transaction is never committed. -/
def runStmts (ok : Nat → Bool) : Nat → List Stmt → Catalog → Option Catalog
  | _, [], c => some c
  | n, s :: ss, c => if ok n = true then runStmts ok (n + 1) ss (exec c s) else none

/-- The value `OS_INVALID`. -/
def OS_INVALID : Int := -1

/-- The function `wm_vulnerability_detector_insert` (lines 492-677) on the
committed content of the catalog. `openOk` tells whether `sqlite3_open_v2`
succeeds, `ok k` whether statement number `k` does; the three DELETE statements
are numbers 0 to 2 and run before `BEGIN_T`, each committed on its own. The
results of `BEGIN_T` and `END_T` are not checked by the code; both are taken to
succeed. Gives the return value and the committed content. -/
def wm_vulnerability_detector_insert (openOk : Bool) (ok : Nat → Bool) (cat : Catalog)
    (p : ParsedOval) : Int × Catalog :=
  if openOk = false then (OS_INVALID, cat)
  else if ok 0 = false then (OS_INVALID, cat)
  else if ok 1 = false then (OS_INVALID, deleteVulnOS p.OS cat)
  else if ok 2 = false then (OS_INVALID, deleteMetaOS p.OS (deleteVulnOS p.OS cat))
  else
    match runStmts ok 3 (transactionStmts p)
        (deleteInfoOS p.OS (deleteMetaOS p.OS (deleteVulnOS p.OS cat))) with
    | none => (OS_INVALID, deleteInfoOS p.OS (deleteMetaOS p.OS (deleteVulnOS p.OS cat)))
    | some c => (0, c)

/-- What the UPDATE statements of the tests (lines 541-567) make of a row. -/
def testRewrite (tests : List InfoTest) (r : VulnRow) : VulnRow :=
  tests.foldl (fun r t => rewriteState (testState t) t.id r) r

/-- What the UPDATE statements of the states (lines 597-614) make of a row. -/
def stateRewrite (states : List InfoState) (r : VulnRow) : VulnRow :=
  states.foldl (fun r s => rewriteOperation s.operation s.operation_value s.id r) r

/-- The content of the tables after all statements of the transaction. -/
def afterTransaction (p : ParsedOval) (c : Catalog) : Catalog :=
  { vulnerabilities := (c.vulnerabilities ++ newVulnRows p).map
      (fun r => stateRewrite p.info_states (testRewrite p.info_tests r)),
    cve_info := c.cve_info ++ newInfoRows p,
    metadata := c.metadata ++ [newMetaRow p],
    agents := c.agents }

/-- The content of the tables after the three DELETE statements. -/
def afterDeletes (p : ParsedOval) (c : Catalog) : Catalog :=
  deleteInfoOS p.OS (deleteMetaOS p.OS (deleteVulnOS p.OS c))

/-- The values of a vulnerability that no UPDATE statement rewrites. -/
def vulnKey (r : VulnRow) : Option (List Nat) × Option (List Nat) × Int :=
  (r.cve_id, r.package_name, r.pending)

/-- A feed of Ubuntu Xenial with one vulnerability, its test and its state, one
discarded vulnerability and one CVE description. -/
def xenialFeed : ParsedOval :=
  { OS := cstr "XENIAL",
    metadata := { product_name := some (cstr "Canonical CVE OVAL Generator"),
                  product_version := some (cstr "1.1"),
                  schema_version := some (cstr "5.11.1"),
                  timestamp := some (cstr "2018-01-09T00:00:00") },
    vulnerabilities :=
      [{ cve_id := some (cstr "CVE-2017-1000"), state_id := some (cstr "tst:10"),
         package_name := some (cstr "bash"), pending := 0 },
       { cve_id := some (cstr "CVE-2017-2000"), state_id := none,
         package_name := some (cstr "curl"), pending := 0 }],
    info_tests := [{ id := some (cstr "tst:10"), state := some (cstr "ste:10") }],
    info_states := [{ id := some (cstr "ste:10"), operation := some (cstr "less than"),
                      operation_value := some (cstr "4.3-14ubuntu1.2") }],
    info_cves := [{ cveid := some (cstr "CVE-2017-1000"), title := some (cstr "bash flaw"),
                    severity := some (cstr "High"), published := some (cstr "2017-05-01"),
                    updated := none, reference := some (cstr "https://cve.example/1000"),
                    description := some (cstr "a flaw in bash") }] }

/-- A catalog filled by an earlier refresh of Ubuntu Xenial and of Red Hat 7. -/
def filledCatalog : Catalog :=
  { vulnerabilities :=
      [{ cve_id := some (cstr "CVE-2016-0001"), os := cstr "XENIAL",
         package_name := some (cstr "bash"), pending := 0,
         state_id := some (cstr "less than"), operation_value := some (cstr "4.3-10") },
       { cve_id := some (cstr "CVE-2016-0002"), os := cstr "RHEL7",
         package_name := some (cstr "openssl"), pending := 0,
         state_id := some (cstr "less than"), operation_value := some (cstr "1.0.1e-60") }],
    cve_info :=
      [{ cve_id := some (cstr "CVE-2016-0001"), title := some (cstr "old flaw"),
         severity := some (cstr "Low"), published := some (cstr "2016-01-01"),
         updated := some (cstr "2016-01-01"), reference := none, os := cstr "XENIAL",
         description := none }],
    metadata :=
      [{ os := cstr "XENIAL", product_name := some (cstr "Canonical CVE OVAL Generator"),
         product_version := some (cstr "1.1"), schema_version := some (cstr "5.11.1"),
         timestamp := some (cstr "2017-12-01T00:00:00") },
       { os := cstr "RHEL7", product_name := some (cstr "Red Hat Errata System"),
         product_version := none, schema_version := some (cstr "5.10"),
         timestamp := some (cstr "2017-12-02T00:00:00") }],
    agents := [] }

/-- A row holds no identifier of the feed: its fifth value equals the id of no
test and of no state of the feed. -/
def foreignTo (p : ParsedOval) (r : VulnRow) : Prop :=
  (∀ t ∈ p.info_tests, matchesId r.state_id t.id = false) ∧
  (∀ s ∈ p.info_states, matchesId r.state_id s.id = false)

/-- A catalog in which a row of Red Hat 7 holds the identifier of a test of
`xenialFeed`. -/
def clashCatalog : Catalog :=
  { vulnerabilities :=
      [{ cve_id := some (cstr "CVE-2016-0002"), os := cstr "RHEL7",
         package_name := some (cstr "openssl"), pending := 0,
         state_id := some (cstr "tst:10"), operation_value := some (cstr "1.0.1e-60") }],
    cve_info := [], metadata := [], agents := [] }

/-- A feed whose second test is named like the state of its first one would
be; the list is in the order in which the insert walks it. -/
def chainFeed : ParsedOval :=
  { OS := cstr "XENIAL",
    metadata := { product_name := none, product_version := none, schema_version := none,
                  timestamp := some (cstr "2018-01-09T00:00:00") },
    vulnerabilities := [],
    info_tests := [{ id := some (cstr "tst:20"), state := some (cstr "ste:20") },
                   { id := some (cstr "tst:10"), state := some (cstr "tst:20") }],
    info_states := [],
    info_cves := [] }



/-! ## The refresh of one feed -/

/-- The enumeration `cve_db` as far as this file uses it: the two families and
the six versions. -/
inductive cve_db where
  | UBUNTU | REDHAT | PRECISE | TRUSTY | XENIAL | RHEL5 | RHEL6 | RHEL7
deriving DecidableEq, Repr

/-- The OS tags `VU_PRECISE` to `VU_RHEL7`, which the file takes from a
header. -/
structure OsTags where
  VU_PRECISE : List Nat
  VU_TRUSTY : List Nat
  VU_XENIAL : List Nat
  VU_RHEL5 : List Nat
  VU_RHEL6 : List Nat
  VU_RHEL7 : List Nat
deriving Repr

/-- The `switch (version)` of lines 1123-1153: the OS tag and the family of a
version, `none` in the default case. -/
def versionTag (T : OsTags) : cve_db → Option (List Nat × cve_db)
  | cve_db.PRECISE => some (T.VU_PRECISE, cve_db.UBUNTU)
  | cve_db.TRUSTY => some (T.VU_TRUSTY, cve_db.UBUNTU)
  | cve_db.XENIAL => some (T.VU_XENIAL, cve_db.UBUNTU)
  | cve_db.RHEL5 => some (T.VU_RHEL5, cve_db.REDHAT)
  | cve_db.RHEL6 => some (T.VU_RHEL6, cve_db.REDHAT)
  | cve_db.RHEL7 => some (T.VU_RHEL7, cve_db.REDHAT)
  | _ => none

/-- What the callees of `wm_vulnerability_update_oval` answer in one call, in
the order of the calls. -/
structure FeedSteps where
  /-- Whether `wm_vulnerability_detector_preparser` gives a file name. -/
  preparsed : Bool
  /-- Whether `OS_ReadXML` gives a value that is not negative. -/
  readXML : Bool
  /-- Whether the first `OS_GetElementsbyNode` gives a node. -/
  root : Bool
  /-- Whether the second `OS_GetElementsbyNode` gives a node. -/
  children : Bool
  /-- The container as `wm_vulnerability_detector_parser` leaves it when it
  returns 0, `none` when it returns an error. -/
  parsed : Option ParsedOval
  /-- Whether `wm_vulnerability_detector_check_db` returns 0. Its schema
  statements are not in the file; by the specification they create what is
  missing and leave the rows alone. -/
  checkDb : Bool
  /-- Whether `sqlite3_open_v2` succeeds in the insert. -/
  openOk : Bool
  /-- Whether statement number `k` of the insert succeeds. -/
  ok : Nat → Bool

/-- The function `wm_vulnerability_update_oval` (lines 1115-1196) on the
committed content of the catalog: the return value and the content left. The
container handed to the insert carries the OS tag of the version (line 1172). -/
def wm_vulnerability_update_oval (T : OsTags) (version : cve_db) (env : FeedSteps)
    (cat : Catalog) : Int × Catalog :=
  match versionTag T version with
  | none => (OS_INVALID, cat)
  | some (tag, _) =>
    if env.preparsed = false then (OS_INVALID, cat)
    else if env.readXML = false then (OS_INVALID, cat)
    else if env.root = false then (OS_INVALID, cat)
    else if env.children = false then (OS_INVALID, cat)
    else
      match env.parsed with
      | none => (OS_INVALID, cat)
      | some p =>
        if env.checkDb = false then (OS_INVALID, cat)
        else
          let r := wm_vulnerability_detector_insert env.openOk env.ok cat { p with OS := tag }
          if r.1 ≠ 0 then (OS_INVALID, r.2) else (0, r.2)

/-- Sample values of the OS tags. -/
def sampleTags : OsTags :=
  { VU_PRECISE := cstr "PRECISE", VU_TRUSTY := cstr "TRUSTY", VU_XENIAL := cstr "XENIAL",
    VU_RHEL5 := cstr "RHEL5", VU_RHEL6 := cstr "RHEL6", VU_RHEL7 := cstr "RHEL7" }

/-- A call in which every callee succeeds and the parser gives `p`. -/
def goodSteps (p : ParsedOval) : FeedSteps :=
  { preparsed := true, readXML := true, root := true, children := true, parsed := some p,
    checkDb := true, openOk := true, ok := fun _ => true }

/-- A call in which the parser rejects the document. -/
def rejectedSteps : FeedSteps :=
  { preparsed := true, readXML := true, root := true, children := true, parsed := none,
    checkDb := true, openOk := true, ok := fun _ => true }

/-! ## The fetcher -/

/-- The header constants of the fetcher, which are not in the file. -/
structure FetchConsts where
  /-- Size of the read buffer. -/
  VU_SSL_BUFFER : Nat
  /-- Number of chunks in which the timestamp tag has to show up. -/
  VU_MAX_TIMESTAMP_ATTEMPS : Int
deriving Repr

/-- The first index at or after `i` at which `needle` starts in `hay`. -/
def findSub (needle : List Nat) : List Nat → Nat → Option Nat
  | [], i => if needle = [] then some i else none
  | c :: cs, i => if needle.isPrefixOf (c :: cs) = true then some i else findSub needle cs (i + 1)

/-- The C function `strstr` on the string at the start of `hay`: the offset of
the first occurrence of `needle`, `none` for a null result. -/
def strstr (hay needle : List Nat) : Option Nat := findSub needle (cstrOf hay) 0

/-- The four characters that the loop of lines 1375-1386 skips: minus, space,
colon and the letter T. -/
def isTimeSep (c : Nat) : Bool := c == 45 || c == 32 || c == 58 || c == 84

/-- The value of a byte read through a `char`, which is signed on the Linux
targets of the module. -/
def charVal (c : Nat) : Int := if c % 256 < 128 then (c % 256 : Nat) else ((c % 256 : Nat) : Int) - 256

/-- The loop of lines 1375-1386 from index `i` on, over the rest of
`stored_timestamp`; `timst` holds the bytes from the pointer `timst` to the end
of the buffer. Gives the value of `update`, `none` when `timst[i]` lies outside
the buffer. -/
def timestampLoop (timst : List Nat) : List Nat → Nat → Option Bool
  | [], _ => some true
  | c :: cs, i =>
    if isTimeSep c = true then timestampLoop timst cs (i + 1)
    else
      match timst.get? i with
      | none => none
      | some d => if charVal c < charVal d then some false else timestampLoop timst cs (i + 1)

/-- The array `buffer` after `bzero` and an `SSL_read` that delivers `chunk`:
at most `VU_SSL_BUFFER - 1` bytes of it, then zero bytes. -/
def readBuffer (B : FetchConsts) (chunk : List Nat) : List Nat :=
  fit B.VU_SSL_BUFFER (chunk.take (B.VU_SSL_BUFFER - 1))

/-- Lines 1369-1371: the bytes from `timst` on, after `timst = strstr(timst, ">")`
and `timst++`, and the offset of the closing `<` in them; `tag` is the offset
of "timestamp>" in the buffer. -/
def timestampText (buf : List Nat) (tag : Nat) : List Nat × Option Nat :=
  match strstr (buf.drop tag) [62] with
  | none => ([], none)
  | some g => ((buf.drop tag).drop (g + 1), strstr ((buf.drop tag).drop (g + 1)) [60])

/-- Modelled from the spec: the answer of `SELECT_QUERY` for the column
TIMESTAMP of the table `metadata` with `OS = tag` ("the stored
`metadata.timestamp` for this OS"): the timestamp of the first such row. -/
def storedTimestamp (cat : Catalog) (tag : List Nat) : Option (Option (List Nat)) :=
  ((cat.metadata.filter (fun r => decide (r.os = tag))).head?).map (fun r => r.timestamp)

/-- What the callees of `wm_vulnerability_fetch_oval` answer in one call. -/
structure FetchSteps where
  /-- Whether the socket and the SSL calls of lines 1306-1337 all succeed. -/
  connected : Bool
  /-- What the calls of `SSL_read` deliver, one after the other, until one
  gives 0; every chunk has at least one byte. -/
  chunks : List (List Nat)
  /-- Whether `sqlite3_open_v2` of line 1354 succeeds. -/
  dbOpen : Bool
  /-- Whether `wm_vulnerability_detector_sql_prepare` of line 1363 returns 0. -/
  prepared : Bool
deriving Repr

/-- How a call of `wm_vulnerability_fetch_oval` ends. -/
inductive Fetched where
  /-- The function returns `code` and leaves `need` in `*need_update`. -/
  | ret (code : Int) (need : Int)
  /-- Undefined behaviour: a read outside the buffer or of a null text. -/
  | undef
deriving DecidableEq, Repr

/-- How the block of lines 1346-1399 ends for a chunk that holds the tag. -/
inductive Checked where
  /-- The block is left with this value of `update`. -/
  | update (u : Bool)
  /-- The `return OS_INVALID` of line 1364. -/
  | failed
  /-- Undefined behaviour. -/
  | undef
deriving DecidableEq, Repr

/-- Lines 1346-1399 for a buffer in which "timestamp>" starts at `tag`. -/
def checkTimestamp (K : Consts) (env : FetchSteps) (cat : Catalog) (os : List Nat)
    (buf : List Nat) (tag : Nat) : Checked :=
  if env.dbOpen = false then Checked.update false
  else if env.prepared = false then Checked.failed
  else
    match storedTimestamp cat os with
    | none => Checked.update false
    | some text =>
      match timestampText buf tag with
      | (_, none) => Checked.update false
      | (timst, some close) =>
        match text with
        | none => Checked.undef
        | some stored =>
          match timestampLoop (timst.set close 0) (copied K stored) 0 with
          | none => Checked.undef
          | some u => Checked.update u

/-- The loop of lines 1343-1418 over the chunks still to come, with the values of
`timestamp_found` and `attemps`. The bytes written to the temporary file are
left out, and `attemps` is counted without overflow. -/
def fetchLoop (K : Consts) (B : FetchConsts) (env : FetchSteps) (cat : Catalog)
    (os : List Nat) : List (List Nat) → Bool → Int → Fetched
  | [], _, _ => Fetched.ret 0 1
  | chunk :: rest, found, attemps =>
    if found = true then fetchLoop K B env cat os rest found attemps
    else
      match strstr (readBuffer B chunk) (cstr "timestamp>") with
      | some tag =>
        match checkTimestamp K env cat os (readBuffer B chunk) tag with
        | Checked.undef => Fetched.undef
        | Checked.failed => Fetched.ret OS_INVALID 1
        | Checked.update true => Fetched.ret 0 0
        | Checked.update false =>
          if attemps + 1 = B.VU_MAX_TIMESTAMP_ATTEMPS then Fetched.ret OS_INVALID 1
          else fetchLoop K B env cat os rest true (attemps + 1)
      | none =>
        if attemps + 1 = B.VU_MAX_TIMESTAMP_ATTEMPS then Fetched.ret OS_INVALID 1
        else fetchLoop K B env cat os rest false (attemps + 1)

/-- The function `wm_vulnerability_fetch_oval` (lines 1254-1427): the return
value and the value left in `*need_update`. -/
def wm_vulnerability_fetch_oval (K : Consts) (B : FetchConsts) (T : OsTags) (version : cve_db)
    (env : FetchSteps) (cat : Catalog) : Fetched :=
  match versionTag T version with
  | none => Fetched.ret OS_INVALID 1
  | some (os, _) =>
    if env.connected = false then Fetched.ret OS_INVALID 1
    else fetchLoop K B env cat os env.chunks false 0

/-- The condition tested six times in lines 1437-1482,
`wm_vulnerability_fetch_oval(v, &need_update) || (need_update &&
wm_vulnerability_update_oval(v))`: whether it holds, and the catalog left;
`none` for undefined behaviour. -/
def refreshFails (K : Consts) (B : FetchConsts) (T : OsTags) (version : cve_db)
    (fe : FetchSteps) (ue : FeedSteps) (cat : Catalog) : Option (Bool × Catalog) :=
  match wm_vulnerability_fetch_oval K B T version fe cat with
  | Fetched.undef => none
  | Fetched.ret code need =>
    if code ≠ 0 then some (true, cat)
    else if need ≠ 0 then
      some (decide ((wm_vulnerability_update_oval T version ue cat).1 ≠ 0),
            (wm_vulnerability_update_oval T version ue cat).2)
    else some (false, cat)

/-- Sample values of the constants of the fetcher. -/
def sampleFetchConsts : FetchConsts := { VU_SSL_BUFFER := 96, VU_MAX_TIMESTAMP_ATTEMPS := 4 }

/-- The text of a timestamp without the characters the loop skips. -/
def stripTimeSep (s : List Nat) : List Nat := s.filter (fun c => !isTimeSep c)

/-- The comparison as the specification words it: the stored timestamp is
strictly older than that of the feed when, separators ignored, it comes first
in the lexicographic order of the characters. -/
def strictlyOlder (stored feed : List Nat) : Bool :=
  lexLt (stripTimeSep stored) (stripTimeSep feed)

/-- Two timestamps of the same layout that are equal up to the separators:
position by position, the two characters are equal or both are
separators. -/
def sameUpToSep : List Nat → List Nat → Bool
  | [], [] => true
  | a :: as, b :: bs => ((isTimeSep a && isTimeSep b) || a == b) && sameUpToSep as bs
  | _, _ => false

/-- A catalog whose metadata row of Xenial holds the given timestamp. -/
def stampedCatalog (stamp : List Nat) : Catalog :=
  { vulnerabilities :=
      [{ cve_id := some (cstr "CVE-2016-0001"), os := cstr "XENIAL",
         package_name := some (cstr "bash"), pending := 0,
         state_id := some (cstr "less than"), operation_value := some (cstr "4.3-10") }],
    cve_info := [],
    metadata :=
      [{ os := cstr "XENIAL", product_name := none, product_version := none,
         schema_version := none, timestamp := some stamp }],
    agents := [] }

/-- A call of the fetcher in which every callee succeeds. -/
def goodFetch (chunks : List (List Nat)) : FetchSteps :=
  { connected := true, chunks := chunks, dbOpen := true, prepared := true }

/-! ## The preparser -/

/-- The values of `parser_state` that the file uses. -/
inductive parser_state where
  | V_OVALDEFINITIONS | V_DEFINITIONS | V_TESTS | V_OBJECTS | V_HEADER | V_DESCRIPTION
  | V_SIGNED_TEST | V_STATES
deriving DecidableEq, Repr

/-- Whether `strstr(buffer, text)` finds the text in a line. -/
def found (buffer : List Nat) (text : String) : Bool := (strstr buffer (cstr text)).isSome

/-- Whether `(found = strstr(buffer, first)) && strstr(found + skip, second)`
holds: the second text occurs at or after offset `skip` of the first
occurrence of the first text. -/
def foundAfter (buffer : List Nat) (first : String) (skip : Nat) (second : String) : Bool :=
  match strstr buffer (cstr first) with
  | none => false
  | some k => (strstr ((cstrOf buffer).drop (k + skip)) (cstr second)).isSome

/-- Lines 718-746: what the Ubuntu branch does with one line in a state: the
next state and whether the line reaches the `fwrite` of line 811. -/
def ubuntuStep (state : parser_state) (buffer : List Nat) : parser_state × Bool :=
  match state with
  | parser_state.V_OBJECTS =>
    if found buffer "</objects>" = true then (parser_state.V_OVALDEFINITIONS, false)
    else (parser_state.V_OBJECTS, false)
  | parser_state.V_DEFINITIONS =>
    if (found buffer "is not affected" && foundAfter buffer "negate" 0 "true") = true then
      (parser_state.V_DEFINITIONS, false)
    else if found buffer "a decision has been made to ignore it" = true then
      (parser_state.V_DEFINITIONS, false)
    else if found buffer "</definitions>" = true then (parser_state.V_OVALDEFINITIONS, true)
    else (parser_state.V_DEFINITIONS, true)
  | s =>
    if found buffer "<objects>" = true then (parser_state.V_OBJECTS, false)
    else if found buffer "<definitions>" = true then (parser_state.V_DEFINITIONS, true)
    else (s, true)

/-- Lines 747-805: what the Red Hat branch does with one line in a state. -/
def redhatStep (state : parser_state) (buffer : List Nat) : parser_state × Bool :=
  match state with
  | parser_state.V_OVALDEFINITIONS =>
    if found buffer "200 OK" = true then (parser_state.V_HEADER, false)
    else (parser_state.V_OVALDEFINITIONS, true)
  | parser_state.V_HEADER =>
    if found buffer "?>" = true then (parser_state.V_STATES, false)
    else (parser_state.V_HEADER, false)
  | parser_state.V_OBJECTS =>
    if found buffer "</objects>" = true then (parser_state.V_STATES, false)
    else (parser_state.V_OBJECTS, false)
  | parser_state.V_DEFINITIONS =>
    if foundAfter buffer "Red Hat Enterprise Linux" 1 "is installed" = true then
      (parser_state.V_DEFINITIONS, false)
    else if found buffer "is signed with" = true then (parser_state.V_DEFINITIONS, false)
    else if found buffer "</definitions>" = true then (parser_state.V_STATES, true)
    else (parser_state.V_DEFINITIONS, true)
  | parser_state.V_DESCRIPTION =>
    if found buffer "</description>" = true then (parser_state.V_DEFINITIONS, false)
    else (parser_state.V_DESCRIPTION, false)
  | parser_state.V_TESTS =>
    if found buffer "is signed with" = true then (parser_state.V_SIGNED_TEST, false)
    else if found buffer "</tests>" = true then (parser_state.V_STATES, true)
    else (parser_state.V_TESTS, true)
  | parser_state.V_SIGNED_TEST =>
    if found buffer "</red-def:rpminfo_test>" = true then (parser_state.V_TESTS, false)
    else (parser_state.V_SIGNED_TEST, false)
  | s =>
    if found buffer "<objects>" = true then (parser_state.V_OBJECTS, false)
    else if found buffer "<definitions>" = true then (parser_state.V_DEFINITIONS, true)
    else if found buffer "<tests>" = true then (parser_state.V_TESTS, true)
    else (s, true)

/-- The loop of lines 717-815 for one family: the lines written, in order, and the
state after the last line. -/
def filterLines (step : parser_state → List Nat → parser_state × Bool) :
    parser_state → List (List Nat) → List (List Nat) × parser_state
  | state, [] => ([], state)
  | state, buffer :: rest =>
    if (step state buffer).2 = true then
      (buffer :: (filterLines step (step state buffer).1 rest).1,
       (filterLines step (step state buffer).1 rest).2)
    else filterLines step (step state buffer).1 rest

/-- How a call of `wm_vulnerability_detector_preparser` ends. -/
inductive Prepared where
  /-- The function returns the name of the reduced file, which holds these
  lines. -/
  | file (output : List (List Nat))
  /-- The function returns `NULL`. -/
  | null
  /-- Undefined behaviour: `fclose` of a stream that was never opened. -/
  | undef
deriving DecidableEq, Repr

/-- The function `wm_vulnerability_detector_preparser` (lines 686-822). `input`
holds the lines of the temporary file as `getline` gives them, each with its
line end and shorter than 2^31 bytes, `none` when the file cannot be opened;
`outputOk` tells whether the reduced file can be opened. When one of the two
cannot be opened, the function goes on to `fclose` both streams. -/
def wm_vulnerability_detector_preparser (dist : cve_db) (input : Option (List (List Nat)))
    (outputOk : Bool) : Prepared :=
  match input with
  | none => Prepared.undef
  | some lines =>
    if outputOk = false then Prepared.undef
    else if dist = cve_db.UBUNTU then
      Prepared.file (filterLines ubuntuStep parser_state.V_OVALDEFINITIONS lines).1
    else if dist = cve_db.REDHAT then
      Prepared.file (filterLines redhatStep parser_state.V_OVALDEFINITIONS lines).1
    else
      match lines with
      | [] => Prepared.file []
      | _ :: _ => Prepared.null

/-- The character at which lines 159-161 cut a text that holds a separator:
the tilde when the text has one, else the minus when it has one, else the
plus. -/
def splitChar (s : List Nat) : Nat := if 126 ∈ s then 126 else if 45 ∈ s then 45 else 43

/-- The upstream part of a version text (after its epoch) as lines 159-177
leave it: the text before the first `splitChar`, the whole text when it holds
no separator. -/
def upstreamOf (s : List Nat) : List Nat :=
  if s.any isSep = true then s.take (s.indexOf (splitChar s)) else s

/-- The release of a version text as lines 159-177 leave it: the text after
the first `splitChar`, empty when the text holds no separator (`version_it2`
is `NULL` exactly when this is empty). -/
def releaseOf (s : List Nat) : List Nat :=
  if s.any isSep = true then s.drop (s.indexOf (splitChar s) + 1) else []

/-- The maximal runs of digits of a text, read as decimal numbers; `cur` is the
run being read. -/
def digitRunsFrom : List Nat → Option Nat → List Nat
  | [], none => []
  | [], some n => [n]
  | c :: cs, cur =>
    if isdigit c = true then digitRunsFrom cs (some (cur.getD 0 * 10 + (c - 48)))
    else
      match cur with
      | none => digitRunsFrom cs none
      | some n => n :: digitRunsFrom cs none

/-- The sequence of maximal digit runs of a text, read as integers, non-digits
skipped. -/
def digitRuns (s : String) : List Nat := digitRunsFrom (cstr s) none

/-- One side of the upstream loop can be read: its token is already found, or a
terminator lies at or after the index. -/
def Terminated (buf : List Nat) (p i found : Nat) : Prop :=
  found ≠ 0 ∨ ∃ m, i ≤ m ∧ buf[p + m]? = some 0

/-- A package name of sixty equal letters. -/
def longName (c : Nat) : String := String.mk (List.replicate 60 (Char.ofNat c))

/-- Rows of two CVEs, all vulnerable: the two entries of the first CVE do not
fit the package list of the sample constants (128 bytes). -/
def overflowRows : List (Frame × Row) :=
  [sampleRow "CVE-2018-1" (longName 97) "1.0" "2.0",
   sampleRow "CVE-2018-1" (longName 98) "1.0" "2.0",
   sampleRow "CVE-2018-2" "qux" "1.0" "2.0"]

/-! ## The timers -/

/-- The fields of `time_intervals`, in seconds. The header that declares the
structure is not in the file; the fields are taken to hold values that the
casts to `time_t` of lines 1557-1569 and 1638-1641 keep. -/
structure time_intervals where
  /-- Field `detect`. -/
  detect : Nat
  /-- Field `ubuntu`. -/
  ubuntu : Nat
  /-- Field `redhat`. -/
  redhat : Nat
deriving DecidableEq, Repr

/-- The fields of `update_flags` that the file reads; a flag is true when its
value is not 0. -/
structure update_flags where
  /-- Field `update`. -/
  update : Bool
  /-- Field `update_ubuntu`. -/
  update_ubuntu : Bool
  /-- Field `update_redhat`. -/
  update_redhat : Bool
  /-- Field `xenial`. -/
  xenial : Bool
  /-- Field `trusty`. -/
  trusty : Bool
  /-- Field `precise`. -/
  precise : Bool
  /-- Field `rh5`. -/
  rh5 : Bool
  /-- Field `rh6`. -/
  rh6 : Bool
  /-- Field `rh7`. -/
  rh7 : Bool
deriving DecidableEq, Repr

/-- Lines 1557-1561 for one timer: `if ((time_t)timer > time_sleep) timer -=
time_sleep; else timer = 0;`. -/
def countDown (timer : Nat) (time_sleep : Int) : Nat :=
  if (timer : Int) > time_sleep then Int.toNat ((timer : Int) - time_sleep) else 0

/-- The function `wm_vulnerability_update_intervals` (lines 1556-1574). -/
def wm_vulnerability_update_intervals (remaining : time_intervals) (time_sleep : Int) :
    time_intervals :=
  { detect := countDown remaining.detect time_sleep,
    redhat := countDown remaining.redhat time_sleep,
    ubuntu := countDown remaining.ubuntu time_sleep }

/-- Lines 1637-1643 of `wm_vulnerability_detector_main`: the value of
`time_sleep` before the call of `sleep`. -/
def sleepTime (flags : update_flags) (remaining : time_intervals) : Int :=
  let t0 : Int := (remaining.detect : Int)
  let t1 : Int := if flags.update_ubuntu = true ∧ t0 > (remaining.ubuntu : Int) then
    (remaining.ubuntu : Int) else t0
  if flags.update_redhat = true ∧ t1 > (remaining.redhat : Int) then (remaining.redhat : Int)
  else t1

/-- Line 1645, `sleep(time_sleep)`: the seconds asked of `sleep`, whose
parameter is an `unsigned int`. -/
def sleepSeconds (flags : update_flags) (remaining : time_intervals) : Nat :=
  Int.toNat (sleepTime flags remaining % 4294967296)

/-- The minimum of the detect timer and the timers of the enabled families. -/
def enabledMin (flags : update_flags) (remaining : time_intervals) : Nat :=
  ((if flags.update_ubuntu = true then [remaining.ubuntu] else []) ++
    (if flags.update_redhat = true then [remaining.redhat] else [])).foldl min remaining.detect

/-- What the callees of `wm_vulnerability_detector_updatedb` answer in one
call. -/
structure UpdateSteps where
  /-- The answers to `wm_vulnerability_fetch_oval` for a version. -/
  fetch : cve_db → FetchSteps
  /-- The answers to `wm_vulnerability_update_oval` for a version. -/
  feed : cve_db → FeedSteps
  /-- The value of `time(NULL) - time_start` at line 1459. -/
  elapsedUbuntu : Int
  /-- The value of `time(NULL) - time_start` at line 1488. -/
  elapsedRedhat : Int

/-- The versions of one family in the order of lines 1435-1458 (and
1464-1487): each is refreshed when its flag is set; whether one failed, and
the catalog left; `none` for undefined behaviour. -/
def refreshAll (K : Consts) (B : FetchConsts) (T : OsTags) (env : UpdateSteps) :
    List (Bool × cve_db) → Catalog → Option (Bool × Catalog)
  | [], cat => some (false, cat)
  | (flag, version) :: rest, cat =>
    if flag = true then
      match refreshFails K B T version (env.fetch version) (env.feed version) cat with
      | none => none
      | some (true, c) => some (true, c)
      | some (false, c) => refreshAll K B T env rest c
    else refreshAll K B T env rest cat

/-- The function `wm_vulnerability_detector_updatedb` (lines 1429-1492): the
return value, the timers and the catalog left; `none` for undefined
behaviour. -/
def wm_vulnerability_detector_updatedb (K : Consts) (B : FetchConsts) (T : OsTags)
    (flags : update_flags) (max remaining : time_intervals) (env : UpdateSteps)
    (cat : Catalog) : Option (Int × time_intervals × Catalog) :=
  let ubuntu : Option (Bool × time_intervals × Catalog) :=
    if flags.update_ubuntu = true ∧ remaining.ubuntu = 0 then
      match refreshAll K B T env [(flags.xenial, cve_db.XENIAL), (flags.trusty, cve_db.TRUSTY),
          (flags.precise, cve_db.PRECISE)] cat with
      | none => none
      | some (true, c) => some (true, remaining, c)
      | some (false, c) =>
        some (false, { wm_vulnerability_update_intervals remaining env.elapsedUbuntu with
          ubuntu := max.ubuntu }, c)
    else some (false, remaining, cat)
  match ubuntu with
  | none => none
  | some (true, r, c) => some (OS_INVALID, r, c)
  | some (false, r, c) =>
    if flags.update_redhat = true ∧ r.redhat = 0 then
      match refreshAll K B T env [(flags.rh5, cve_db.RHEL5), (flags.rh6, cve_db.RHEL6),
          (flags.rh7, cve_db.RHEL7)] c with
      | none => none
      | some (true, c2) => some (OS_INVALID, r, c2)
      | some (false, c2) =>
        some (0, { wm_vulnerability_update_intervals r env.elapsedRedhat with
          redhat := max.redhat }, c2)
    else some (0, r, c)

/-! ## The scan of the agents -/

/-- A node of the list of `agent_software`: the fields the reporter reads and
the two links, each the address of a node or `none` for `NULL`. -/
structure AgentNode where
  /-- The fields `agent_id`, `agent_name`, `agent_ip` and `OS`. -/
  agent : Agent
  /-- Field `next`. -/
  next : Option Nat
  /-- Field `prev`. -/
  prev : Option Nat
deriving DecidableEq, Repr

/-- How a call of `wm_vulnerability_detector_get_software_info` ends. -/
inductive Loaded where
  /-- The function returns 0: the inventory of the agent is in the table
  `agents`. -/
  | ok
  /-- The function returns `OS_INVALID`. -/
  | invalid
  /-- Undefined behaviour: `getline` on the stream that `fopen` did not
  open. -/
  | undef
deriving DecidableEq, Repr

/-- What the callees of `wm_vulnerability_detector_check_agent_vulnerabilities`
answer in one call. -/
structure ScanSteps where
  /-- Whether `wm_vulnerability_detector_check_db` returns 0. -/
  checkDb : Bool
  /-- Whether `sqlite3_open_v2` succeeds. -/
  openOk : Bool
  /-- How `wm_vulnerability_detector_get_software_info` ends for the agent at
  an address. -/
  info : Nat → Loaded
  /-- The cursor of the join for the agent at an address, `none` when
  `sqlite3_prepare_v2` fails. -/
  rows : Nat → Option (List (Frame × Row))
  /-- What the arrays of the reporter hold on entry. -/
  junk : Acc

/-- The addresses visited by `for (it = start; it; it = it->link)`: `none` when a
link leads outside the nodes or the walk takes more steps than `fuel`, which
with more fuel than nodes means that it never ends. -/
def follow (heap : List AgentNode) (link : AgentNode → Option Nat) :
    Nat → Option Nat → Option (List Nat)
  | _, none => some []
  | 0, some _ => none
  | fuel + 1, some a =>
    match heap.get? a with
    | none => none
    | some node => (follow heap link fuel (link node)).map (fun rest => a :: rest)

/-- How a call of `wm_vulnerability_detector_check_agent_vulnerabilities`
ends. -/
inductive Scan where
  /-- The function returns `code`; `loaded` holds the addresses of the agents
  whose inventory was loaded, `reported` those for which the reporter ran its
  query, and `alerts` the calls of `SendMSG`, each in order. -/
  | ret (code : Int) (loaded reported : List Nat) (alerts : List Alert)
  /-- Undefined behaviour, or a walk that never ends. -/
  | undef
deriving DecidableEq, Repr

/-- Lines 409-421 over the addresses reached through `next`: the agents loaded,
and how the loop ended (`limit` is 0, so the report of line 416 never
runs). -/
def loadAgents (env : ScanSteps) : List Nat → List Nat × Loaded
  | [] => ([], Loaded.ok)
  | a :: rest =>
    match env.info a with
    | Loaded.ok => ((a :: (loadAgents env rest).1), (loadAgents env rest).2)
    | Loaded.invalid => ([], Loaded.invalid)
    | Loaded.undef => ([], Loaded.undef)

/-- The agents for which the loop of line 311 runs its query: those reached
through `prev` before the first one whose `sqlite3_prepare_v2` fails. -/
def reportedAgents (env : ScanSteps) (chain : List Nat) : List Nat :=
  chain.takeWhile (fun a => (env.rows a).isSome)

/-- The function `wm_vulnerability_detector_check_agent_vulnerabilities`
(lines 392-428) on the nodes `heap`, entered with the address `agents`. -/
def wm_vulnerability_detector_check_agent_vulnerabilities (K : Consts)
    (heap : List AgentNode) (agents : Option Nat) (env : ScanSteps) : Scan :=
  match agents with
  | none => Scan.ret OS_INVALID [] [] []
  | some start =>
    if env.checkDb = false then Scan.ret OS_INVALID [] [] []
    else if env.openOk = false then Scan.ret OS_INVALID [] [] []
    else
      match follow heap (fun n => n.next) (heap.length + 1) (some start) with
      | none => Scan.undef
      | some forward =>
        match loadAgents env forward with
        | (_, Loaded.undef) => Scan.undef
        | (loaded, Loaded.invalid) => Scan.ret OS_INVALID loaded [] []
        | (loaded, Loaded.ok) =>
          match follow heap (fun n => n.prev) (heap.length + 1) (some start) with
          | none => Scan.undef
          | some backward =>
            Scan.ret 0 loaded (reportedAgents env backward)
              (wm_vulnerability_detector_report_agent_vulnerabilities K
                (backward.filterMap (fun a =>
                  (heap.get? a).map (fun node => (node.agent, env.rows a)))) env.junk)

/-- Two agents linked in both directions, the first being the head. -/
def twoAgents : List AgentNode :=
  [{ agent := sampleAgent, next := some 1, prev := none },
   { agent := { agent_id := cstr "002", agent_name := cstr "host2", agent_ip := cstr "10.0.0.2",
                OS := cstr "XENIAL" },
     next := none, prev := some 0 }]

/-- A scan in which every callee succeeds and every agent has the rows
`twoPackages`. -/
def goodScan : ScanSteps :=
  { checkDb := true, openOk := true, info := fun _ => Loaded.ok,
    rows := fun _ => some twoPackages, junk := emptyAcc }

/-! ## The parser -/

/-- A node of the tree read by `OS_ReadXML`, as `OS_GetElementsbyNode` hands
it out: `element`, `content`, the attributes (names paired with their
`values`; `none` when the pointer `attributes` is `NULL`) and the children
(the empty list when `OS_GetElementsbyNode` gives `NULL`). A string is given
by its bytes before the terminator, `none` standing for `NULL`. -/
inductive XmlNode where
  | mk (element : Option (List Nat)) (content : Option (List Nat))
      (attributes : Option (List (List Nat × List Nat))) (children : List XmlNode)

/-- How a call of `wm_vulnerability_detector_parser` ends. -/
inductive Parsed where
  /-- The function returns 0 and leaves the container in this state. -/
  | ok (p : ParsedOval)
  /-- The function returns `OS_INVALID`. -/
  | invalid
  /-- Undefined behaviour: a null pointer is read or written through, or a
  byte before the start of a string is read. -/
  | undef
  /-- The tree is deeper than the budget of the embedding. -/
  | nofuel
deriving DecidableEq, Repr

/-- A loop `for (j = 0; node[i]->attributes[j]; j++)` whose body may return. -/
def attrLoop (body : ParsedOval → List Nat → List Nat → Parsed) :
    List (List Nat × List Nat) → ParsedOval → Parsed
  | [], p => Parsed.ok p
  | (name, value) :: rest, p =>
    match body p name value with
    | Parsed.ok p1 => attrLoop body rest p1
    | e => e

/-- A write through `parsed_oval->info_cves`. -/
def onCve (p : ParsedOval) (f : InfoCve → InfoCve) : Parsed :=
  match p.info_cves with
  | [] => Parsed.undef
  | c :: cs => Parsed.ok { p with info_cves := f c :: cs }

/-- Lines 1055-1067: the package name taken from the comment of a criterion.
`none` when the function returns `OS_INVALID`, `some none` when nothing is
stored (Ubuntu, one quote only). -/
def packageName (dist : cve_db) (value : List Nat) : Option (Option (List Nat)) :=
  if dist = cve_db.UBUNTU ∧ 39 ∈ value then
    if 39 ∈ (value.dropWhile (fun c => c != 39)).drop 1 then
      some (some (((value.dropWhile (fun c => c != 39)).drop 1).takeWhile (fun c => c != 39)))
    else some none
  else if dist = cve_db.REDHAT ∧ 32 ∈ value then
    some (some (value.takeWhile (fun c => c != 32)))
  else none

/-- Lines 1030-1034 and 1037-1041: the value of `pending` for a test reference. -/
def pendingOf (value : List Nat) : Int := if found value "tst:10" = true then 1 else 0

/-- Lines 1019-1069: the body of the loop over the attributes of a
`criterion`. -/
def criterionAttr (dist : cve_db) (p : ParsedOval) (name value : List Nat) : Parsed :=
  if name = cstr "test_ref" then
    match p.vulnerabilities with
    | [] => Parsed.undef
    | v :: vs =>
      match v.state_id with
      | some _ =>
        match v.cve_id with
        | none => Parsed.undef
        | some c =>
          Parsed.ok { p with vulnerabilities :=
            { cve_id := some c, state_id := some value, package_name := none,
              pending := pendingOf value } :: v :: vs }
      | none =>
        Parsed.ok { p with vulnerabilities :=
          { v with pending := pendingOf value, state_id := some value } :: vs }
  else if name = cstr "comment" then
    match p.vulnerabilities with
    | [] => Parsed.undef
    | v :: vs =>
      match v.package_name, v.cve_id with
      | some _, none => Parsed.undef
      | some _, some c =>
        match packageName dist value with
        | none => Parsed.invalid
        | some pkg =>
          Parsed.ok { p with vulnerabilities :=
            { cve_id := some c, state_id := none, package_name := pkg, pending := 0 } ::
              v :: vs }
      | none, _ =>
        match packageName dist value with
        | none => Parsed.invalid
        | some none => Parsed.ok p
        | some (some name) =>
          Parsed.ok { p with vulnerabilities := { v with package_name := some name } :: vs }
  else Parsed.ok p

/-- Lines 979-992: the element `title`. -/
def titleStep (p : ParsedOval) (content : Option (List Nat)) : Parsed :=
  match p.info_cves, content with
  | [], _ => Parsed.undef
  | _ :: _, none => Parsed.undef
  | c :: cs, some text =>
    if 32 ∈ text then
      if text.indexOf 32 = 0 then Parsed.undef
      else
        match p.vulnerabilities with
        | [] => Parsed.undef
        | v :: vs =>
          let id : List Nat :=
            if text.get? (text.indexOf 32 - 1) = some 58 then text.take (text.indexOf 32 - 1)
            else text.take (text.indexOf 32)
          Parsed.ok { p with
            vulnerabilities := { v with cve_id := some id } :: vs,
            info_cves := { c with title := some text, cveid := some id } :: cs }
    else Parsed.invalid

/-- A leaf whose content is copied into a field of the head of
`parsed_oval->info_cves`. -/
def cveField (p : ParsedOval) (content : Option (List Nat))
    (set : InfoCve → List Nat → InfoCve) : Parsed :=
  match content with
  | none => Parsed.undef
  | some text => onCve p (fun c => set c text)

/-- A leaf whose content is copied into a field of `parsed_oval->metadata`. -/
def metaField (p : ParsedOval) (content : Option (List Nat))
    (set : OvalMetadata → List Nat → OvalMetadata) : Parsed :=
  match content with
  | none => Parsed.undef
  | some text => Parsed.ok { p with metadata := set p.metadata text }

/-- Lines 1076-1080: the timestamp with its first letter T replaced by a
space. -/
def spaceForT (text : List Nat) : List Nat :=
  if 84 ∈ text then text.set (text.indexOf 84) 32 else text

/-- Lines 940-958: the nodes that a definition of class
vulnerability or patch puts in front of the two lists. -/
def pushDefinition (p : ParsedOval) : ParsedOval :=
  { p with
    vulnerabilities :=
      { cve_id := none, state_id := none, package_name := none, pending := 0 } ::
        p.vulnerabilities,
    info_cves :=
      { cveid := none, title := none, severity := none, published := none, updated := none,
        reference := none, description := none } :: p.info_cves }

/-- The body of the loop of line 872 for one node; `rec` is the recursive
call of the parser on the children of a node. -/
def stepNode (dist : cve_db) (rec : List XmlNode → ParsedOval → Parsed) (n : XmlNode)
    (p : ParsedOval) : Parsed :=
  match n with
  | XmlNode.mk none _ _ _ => Parsed.invalid
  | XmlNode.mk (some el) content attributes children =>
    if (dist = cve_db.UBUNTU ∧ el = cstr "linux-def:dpkginfo_state") ∨
        (dist = cve_db.REDHAT ∧ el = cstr "red-def:rpminfo_state") then
      if children.isEmpty = true then Parsed.invalid
      else
        match attributes with
        | none => Parsed.undef
        | some attrs =>
          attrLoop (fun q name value =>
            if name = cstr "id" then
              rec children { q with info_states :=
                { id := some value, operation := none, operation_value := none } ::
                  q.info_states }
            else Parsed.ok q) attrs p
    else if (dist = cve_db.UBUNTU ∧ el = cstr "linux-def:dpkginfo_test") ∨
        (dist = cve_db.REDHAT ∧ el = cstr "red-def:rpminfo_test") then
      if children.isEmpty = true then Parsed.invalid
      else
        match attributes with
        | none => Parsed.undef
        | some attrs =>
          match attrLoop (fun q name value =>
              if name = cstr "id" then
                match q.info_tests with
                | [] => Parsed.undef
                | t :: ts => Parsed.ok { q with info_tests := { t with id := some value } :: ts }
              else Parsed.ok q) attrs
              { p with info_tests := { id := none, state := none } :: p.info_tests } with
          | Parsed.ok q => rec children q
          | e => e
    else if (dist = cve_db.UBUNTU ∧ el = cstr "linux-def:evr") ∨
        (dist = cve_db.REDHAT ∧ (el = cstr "red-def:evr" ∨ el = cstr "red-def:version" ∨
          el = cstr "red-def:signature_keyid")) then
      match attributes with
      | none => Parsed.undef
      | some attrs =>
        attrLoop (fun q name value =>
          if name = cstr "operation" then
            match q.info_states, content with
            | [], _ => Parsed.undef
            | _ :: _, none => Parsed.undef
            | s :: ss, some text =>
              Parsed.ok { q with info_states :=
                { s with operation := some value, operation_value := some text } :: ss }
          else Parsed.ok q) attrs p
    else if (dist = cve_db.UBUNTU ∧ el = cstr "linux-def:state") ∨
        (dist = cve_db.REDHAT ∧ el = cstr "red-def:state") then
      match attributes with
      | none => Parsed.undef
      | some attrs =>
        attrLoop (fun q name value =>
          if name = cstr "state_ref" then
            match q.info_tests with
            | [] => Parsed.undef
            | t :: ts => Parsed.ok { q with info_tests := { t with state := some value } :: ts }
          else Parsed.ok q) attrs p
    else if el = cstr "definition" then
      if children.isEmpty = true then Parsed.invalid
      else
        match attributes with
        | none => Parsed.undef
        | some attrs =>
          attrLoop (fun q name value =>
            if name = cstr "class" ∧ (value = cstr "vulnerability" ∨ value = cstr "patch") then
              rec children (pushDefinition q)
            else Parsed.ok q) attrs p
    else if el = cstr "metadata" then
      if children.isEmpty = true then Parsed.invalid else rec children p
    else if el = cstr "reference" then
      match attributes with
      | none => Parsed.undef
      | some attrs =>
        attrLoop (fun q name value =>
          match q.info_cves with
          | [] => Parsed.undef
          | c :: cs =>
            if c.reference = none ∧ name = cstr "ref_url" then
              Parsed.ok { q with info_cves := { c with reference := some value } :: cs }
            else Parsed.ok q) attrs p
    else if el = cstr "title" then titleStep p content
    else if el = cstr "criteria" then
      match attributes with
      | none => if children.isEmpty = true then Parsed.invalid else rec children p
      | some attrs =>
        attrLoop (fun q name value =>
          if name = cstr "operator" then
            if value = cstr "OR" ∨ value = cstr "AND" then
              if children.isEmpty = true then Parsed.ok q else rec children q
            else Parsed.invalid
          else Parsed.ok q) attrs p
    else if el = cstr "criterion" then
      match attributes with
      | none => Parsed.undef
      | some attrs => attrLoop (criterionAttr dist) attrs p
    else if el = cstr "description" then
      cveField p content (fun c text => { c with description := some text })
    else if el = cstr "oval:product_version" then
      metaField p content (fun m text => { m with product_version := some text })
    else if el = cstr "oval:product_name" then
      metaField p content (fun m text => { m with product_name := some text })
    else if el = cstr "oval:timestamp" then
      metaField p content (fun m text => { m with timestamp := some (spaceForT text) })
    else if el = cstr "oval:schema_version" then
      metaField p content (fun m text => { m with schema_version := some text })
    else if el = cstr "severity" then
      cveField p content (fun c text =>
        { c with severity := some (if text ≠ [] then text else cstr "Unknow") })
    else if el = cstr "updated" then
      cveField p content (fun c text => { c with updated := some text })
    else if (dist = cve_db.UBUNTU ∧ el = cstr "public_date") ∨
        (dist = cve_db.REDHAT ∧ el = cstr "issued") then
      cveField p content (fun c text => { c with published := some text })
    else if el = cstr "oval_definitions" ∨ el = cstr "definitions" ∨ el = cstr "tests" ∨
        el = cstr "states" ∨ el = cstr "advisory" ∨ el = cstr "generator" then
      if children.isEmpty = true then Parsed.invalid else rec children p
    else Parsed.ok p

/-- The loop of line 872 over the nodes of one level. -/
def parseList (step : XmlNode → ParsedOval → Parsed) : List XmlNode → ParsedOval → Parsed
  | [], p => Parsed.ok p
  | n :: rest, p =>
    match step n p with
    | Parsed.ok p1 => parseList step rest p1
    | e => e

/-- The function `wm_vulnerability_detector_parser` (lines 824-1113), one run
of it on the nodes of one level; `depth` bounds the depth of the tree below them. The
parameter `version` is only handed on and is left out. -/
def wm_vulnerability_detector_parser_run (dist : cve_db) : Nat → List XmlNode → ParsedOval → Parsed
  | 0, _, _ => Parsed.nofuel
  | depth + 1, nodes, p =>
    parseList (stepNode dist (wm_vulnerability_detector_parser_run dist depth)) nodes p

/-- The container as `wm_vulnerability_update_oval` hands it to the parser
(lines 1168-1172): four empty lists and the OS tag; the fields of `metadata`
are not assigned there and are taken as null. -/
def emptyOval (os : List Nat) : ParsedOval :=
  { OS := os,
    metadata := { product_name := none, product_version := none, schema_version := none,
                  timestamp := none },
    vulnerabilities := [], info_tests := [], info_states := [], info_cves := [] }

/-- A leaf element with a content. -/
def leaf (el content : String) : XmlNode :=
  XmlNode.mk (some (cstr el)) (some (cstr content)) none []

/-- An element with attributes and children and an empty content. -/
def branch (el : String) (attrs : List (String × String)) (children : List XmlNode) : XmlNode :=
  XmlNode.mk (some (cstr el)) (some [])
    (if attrs.isEmpty = true then none
     else some (attrs.map (fun a => (cstr a.1, cstr a.2)))) children

/-- The attributes of a criterion that its loop acts on. -/
def isCriterionAttr (a : List Nat × List Nat) : Bool :=
  a.1 == cstr "test_ref" || a.1 == cstr "comment"

/-- The criteria of the nodes of one level. -/
def criteriaOfList (f : XmlNode → Option (List (List Nat × List Nat))) :
    List XmlNode → Option (List (List Nat × List Nat))
  | [] => some []
  | n :: rest =>
    match f n, criteriaOfList f rest with
    | some a, some b => some (a ++ b)
    | _, _ => none

/-- Flags with the Ubuntu family enabled and the Red Hat family disabled. -/
def ubuntuOnly : update_flags :=
  { update := true, update_ubuntu := true, update_redhat := false, xenial := true,
    trusty := false, precise := false, rh5 := false, rh6 := false, rh7 := false }

/-- A scan in which every callee succeeds but the inventory loader of the
agent at address `k`, which returns `OS_INVALID`. -/
def badInventory (k : Nat) : ScanSteps :=
  { checkDb := true, openOk := true,
    info := fun a => if a = k then Loaded.invalid else Loaded.ok,
    rows := fun _ => some twoPackages, junk := emptyAcc }

/-- A feed whose vulnerability refers to a test without a state. -/
def sentinelFeed : ParsedOval :=
  { OS := cstr "XENIAL",
    metadata := { product_name := none, product_version := none, schema_version := none,
                  timestamp := some (cstr "2018-01-09T00:00:00") },
    vulnerabilities :=
      [{ cve_id := some (cstr "CVE-2017-3000"), state_id := some (cstr "tst:30"),
         package_name := some (cstr "vim"), pending := 0 }],
    info_tests := [{ id := some (cstr "tst:30"), state := none }],
    info_states := [],
    info_cves := [] }

/-- The feed `sentinelFeed` with one more test, named "exists", that the
insert walks after the first one, and the state this test refers to. -/
def sentinelClashFeed : ParsedOval :=
  { sentinelFeed with
    info_tests := [{ id := some (cstr "tst:30"), state := none },
                   { id := some (cstr "exists"), state := some (cstr "ste:1") }],
    info_states := [{ id := some (cstr "ste:1"), operation := some (cstr "less than"),
                      operation_value := some (cstr "1.0") }] }

/-- A catalog without rows. -/
def emptyCatalog : Catalog :=
  { vulnerabilities := [], cve_info := [], metadata := [], agents := [] }

/-- The text occurs in the line read as a C string, that is before the first
null byte of the line if it has one. -/
def Contains (line : List Nat) (text : String) : Prop := cstr text <:+: cstrOf line

/-- The text `second` occurs in the line after an occurrence of the text
`first`. -/
def Later (line : List Nat) (first second : String) : Prop :=
  ∃ a b, cstrOf line = a ++ cstr first ++ b ∧ cstr second <:+: b

/-- The state in which the Ubuntu branch of the preparser reads the line that
follows the lines `pre`. -/
def ubuntuState (pre : List (List Nat)) : parser_state :=
  (filterLines ubuntuStep parser_state.V_OVALDEFINITIONS pre).2

/-- The state in which the Red Hat branch of the preparser reads the line that
follows the lines `pre`. -/
def redhatState (pre : List (List Nat)) : parser_state :=
  (filterLines redhatStep parser_state.V_OVALDEFINITIONS pre).2

/-- The drop rule of the Ubuntu definitions section in the words of the
specification: the line contains "is not affected" together with "negate"
followed later by "true", or it contains "a decision has been made to ignore
it". -/
def UbuntuDropRule (line : List Nat) : Prop :=
  (Contains line "is not affected" ∧ Later line "negate" "true") ∨
    Contains line "a decision has been made to ignore it"

/-- The drop rule of the Red Hat definitions section in the words of the
specification: the line states that a Red Hat Enterprise Linux is installed, or
it contains "is signed with". -/
def RedhatDropRule (line : List Nat) : Prop :=
  Later line "Red Hat Enterprise Linux" "is installed" ∨ Contains line "is signed with"


/-- An objects block is open after the lines `pre`, as the Ubuntu branch sees
it: a line with the opening tag was read outside the definitions section and
outside an open block, and no line after it held the closing tag. A closing
tag on the line of the opening tag does not count. -/
def ObjectsOpen (pre : List (List Nat)) : Prop :=
  ∃ a o m, pre = a ++ o :: m ∧ ubuntuState a ≠ parser_state.V_OBJECTS ∧
    ubuntuState a ≠ parser_state.V_DEFINITIONS ∧ Contains o "<objects>" ∧
    ∀ x ∈ m, ¬ Contains x "</objects>"

/-- The elements that the parser recurses into whatever their attributes are:
the state and the test of the family, `definition`, `metadata` and the six
containers (lines 879-900, 933-936, 966-968 and 1094-1101). -/
def needsChildren (dist : cve_db) (el : List Nat) : Bool :=
  decide ((dist = cve_db.UBUNTU ∧ el = cstr "linux-def:dpkginfo_state") ∨
    (dist = cve_db.REDHAT ∧ el = cstr "red-def:rpminfo_state")) ||
  decide ((dist = cve_db.UBUNTU ∧ el = cstr "linux-def:dpkginfo_test") ∨
    (dist = cve_db.REDHAT ∧ el = cstr "red-def:rpminfo_test")) ||
  decide (el = cstr "definition") || decide (el = cstr "metadata") ||
  decide (el = cstr "oval_definitions" ∨ el = cstr "definitions" ∨ el = cstr "tests" ∨
    el = cstr "states" ∨ el = cstr "advisory" ∨ el = cstr "generator")

/-- A definition of a Red Hat feed whose title starts with a space. -/
def spaceTitleDefinition : XmlNode :=
  branch "definition" [("class", "patch")]
    [branch "metadata" [] [leaf "title" " kernel security update"]]

/-- A definition of an Ubuntu feed whose criterion has a comment with one
quote only. -/
def oneQuoteDefinition : XmlNode :=
  branch "definition" [("class", "vulnerability")]
    [branch "metadata" [] [leaf "title" "CVE-2017-1000 on Ubuntu 16.04 LTS (xenial) - medium."],
     branch "criteria" []
       [branch "criterion" [("test_ref", "oval:tst:20"),
          ("comment", "The 'bash package in xenial is affected.")] []]]

/-- A definition of an Ubuntu feed whose severity element is empty. -/
def emptySeverityDefinition : XmlNode :=
  branch "definition" [("class", "vulnerability")]
    [branch "metadata" []
       [leaf "title" "CVE-2017-1000 on Ubuntu 16.04 LTS (xenial) - medium.",
        branch "advisory" [] [leaf "severity" ""]]]

/-- The attributes of a `criteria` that its loop acts on. -/
def isOperatorAttr (a : List Nat × List Nat) : Bool := a.1 == cstr "operator"

/-- A feed whose vulnerability refers to a test and a state, the state being
one that the parser left without an operation (a state element without an
`evr` child, lines 886-891). -/
def nullOperationFeed : ParsedOval :=
  { OS := cstr "XENIAL",
    metadata := { product_name := none, product_version := none, schema_version := none,
                  timestamp := some (cstr "2018-01-09T00:00:00") },
    vulnerabilities :=
      [{ cve_id := some (cstr "CVE-2017-4000"), state_id := some (cstr "tst:40"),
         package_name := some (cstr "nano"), pending := 0 }],
    info_tests := [{ id := some (cstr "tst:40"), state := some (cstr "ste:40") }],
    info_states := [{ id := some (cstr "ste:40"), operation := none, operation_value := none }],
    info_cves := [] }

/-- The run of the loop of lines 180-227 inside a call of the comparator with
the operation "less than": `none` when the call does not reach the loop (the
epochs differ, the upstream texts are the same, or the behaviour is undefined
before). -/
def upstreamRun (K : Consts) (fr : Frame) (version operation_value : List Nat) :
    Option UpResult :=
  match splitEpoch (snprintf_s K.KEY_SIZE (fit K.KEY_SIZE fr.version_cl) version) with
  | none => none
  | some (vbuf, vp, vval) =>
    match splitEpoch (snprintf_s K.KEY_SIZE (fit K.KEY_SIZE fr.limit_cl) operation_value) with
    | none => none
    | some (lbuf, lp, lval) =>
      if vval ≠ lval then none
      else
        match splitRelease vbuf vp with
        | none => none
        | some (vbuf1, _) =>
          match splitRelease lbuf lp with
          | none => none
          | some (lbuf1, _) =>
            if cstrAt vbuf1 vp ≠ cstrAt lbuf1 lp then
              some (upstreamLoop K.VU_MAX_VERSION_ATTEMPS (upFuel K) vbuf1 lbuf1 vp lp 0 0 0 0 0)
            else none

/-- The value of `attemps` with which the loop of lines 180-227 is left, inside
a call of the comparator with the operation "less than"; `none` when the loop
is not reached or is left by a `return`. -/
def attempsAfterLoop (K : Consts) (fr : Frame) (version operation_value : List Nat) :
    Option Int :=
  match upstreamRun K fr version operation_value with
  | some (UpResult.done _ _ attemps) => some attemps
  | _ => none

/-- Lines 1045-1063: the container after a name (or none) was taken from a
comment. When the head of the list of vulnerabilities has a package name, a
new entry with the `cve_id` of the head is put in front of it and gets the
name; else the name is stored in the head itself, which stays as it is when
there is no name. -/
def withPackageName (q : ParsedOval) (name : Option (List Nat)) : ParsedOval :=
  match q.vulnerabilities with
  | [] => q
  | v :: vs =>
    match v.package_name, name with
    | some _, _ =>
      { q with vulnerabilities :=
          { cve_id := v.cve_id, state_id := none, package_name := name, pending := 0 } ::
            v :: vs }
    | none, some n => { q with vulnerabilities := { v with package_name := some n } :: vs }
    | none, none => q

/-- The container after the title of a definition of Ubuntu was read. -/
def titledOval : ParsedOval :=
  { emptyOval (cstr "XENIAL") with
    vulnerabilities := [{ cve_id := some (cstr "CVE-2017-1000"), state_id := none,
                          package_name := none, pending := 0 }],
    info_cves := [{ cveid := some (cstr "CVE-2017-1000"),
                    title := some (cstr "CVE-2017-1000 on Ubuntu 16.04 LTS (xenial) - medium."),
                    severity := none, published := none, updated := none, reference := none,
                    description := none }] }

theorem cstrOf_ne_zero (s : List Nat) : ∀ c ∈ cstrOf s, c ≠ 0 := by
  intro c hc
  have := List.mem_takeWhile_imp hc
  simpa using this

theorem cstrOf_append_zero (b t : List Nat) (hb : ∀ c ∈ b, c ≠ 0) :
    cstrOf (b ++ 0 :: t) = b := by
  induction b with
  | nil => simp [cstrOf]
  | cons x xs ih =>
    have hx : x ≠ 0 := hb x (by simp)
    have := ih (fun c hc => hb c (by simp [hc]))
    simp [cstrOf, List.takeWhile_cons, hx] at this ⊢
    exact this

theorem skipSpace_append_zero (p t : List Nat) :
    ∃ q, skipSpace (p ++ 0 :: t) = q ++ 0 :: t ∧ skipSpace (p ++ [0]) = q ++ [0] := by
  induction p with
  | nil => exact ⟨[], by simp [skipSpace, isspace], by simp [skipSpace, isspace]⟩
  | cons x xs ih =>
    by_cases hx : isspace x = true
    · obtain ⟨q, h1, h2⟩ := ih
      exact ⟨q, by simp [skipSpace, hx, h1], by simp [skipSpace, hx, h2]⟩
    · exact ⟨x :: xs, by simp [skipSpace, hx], by simp [skipSpace, hx]⟩

theorem accDigits_append_zero (p t : List Nat) (acc : Nat) :
    accDigits acc (p ++ 0 :: t) = accDigits acc (p ++ [0]) := by
  induction p generalizing acc with
  | nil => simp [accDigits, isdigit]
  | cons x xs ih =>
    by_cases hx : isdigit x = true
    · simp [accDigits, hx, ih]
    · simp [accDigits, hx]

/-- `strtol` does not look beyond the terminator. -/
theorem strtol_append_zero (p t : List Nat) : strtol (p ++ 0 :: t) = strtol (p ++ [0]) := by
  obtain ⟨q, h1, h2⟩ := skipSpace_append_zero p t
  unfold strtol
  rw [h1, h2]
  cases q with
  | nil => simp [accDigits, isdigit]
  | cons c cs =>
    simp only [List.cons_append]
    have e1 := accDigits_append_zero cs t 0
    have e2 := accDigits_append_zero (c :: cs) t 0
    simp only [List.cons_append] at e2
    rw [e1, e2]


theorem accDigits_isSome (p : List Nat) (acc : Nat) : ∃ n, accDigits acc (p ++ [0]) = some n := by
  induction p generalizing acc with
  | nil => exact ⟨acc, by simp [accDigits, isdigit]⟩
  | cons x xs ih =>
    by_cases hx : isdigit x = true
    · obtain ⟨n, hn⟩ := ih (acc * 10 + (x - 48))
      exact ⟨n, by simp [accDigits, hx, hn]⟩
    · exact ⟨acc, by simp [accDigits, hx]⟩

theorem strtol_isSome (p : List Nat) : ∃ n, strtol (p ++ [0]) = some n := by
  obtain ⟨q, _, h2⟩ := skipSpace_append_zero p []
  unfold strtol
  rw [h2]
  cases q with
  | nil => exact ⟨_, by simp [accDigits, isdigit]; rfl⟩
  | cons c cs =>
    simp only [List.cons_append]
    obtain ⟨n1, h1⟩ := accDigits_isSome cs 0
    obtain ⟨n2, h2⟩ := accDigits_isSome (c :: cs) 0
    simp only [List.cons_append] at h2
    rw [h1, h2]
    by_cases hc : c = 45
    · exact ⟨_, by simp [hc]; rfl⟩
    · by_cases hc2 : c = 43
      · exact ⟨_, by simp [hc2]; rfl⟩
      · exact ⟨_, by simp [hc, hc2]; rfl⟩

/-- On a terminated string `strtolAt` gives `strtolStr`, whatever follows the
terminator. -/
theorem strtolAt_terminated (pre p t : List Nat) :
    strtolAt (pre ++ p ++ 0 :: t) pre.length = some (strtolStr p) := by
  unfold strtolAt strtolStr
  rw [List.append_assoc, List.drop_left, strtol_append_zero]
  obtain ⟨n, hn⟩ := strtol_isSome p
  simp [hn]

theorem take_indexOf (a : Nat) (l : List Nat) :
    l.take (l.indexOf a) = l.takeWhile (fun c => c != a) := by
  induction l with
  | nil => simp
  | cons x xs ih =>
    by_cases hx : x = a
    · simp [hx, List.indexOf_cons, List.takeWhile_cons]
    · have : (x == a) = false := by simp [hx]
      simp [List.indexOf_cons, this, List.takeWhile_cons, hx, ih]

theorem snprintf_s_shape (K : Consts) (junk v : List Nat) (hK : K.KEY_SIZE ≠ 0) :
    snprintf_s K.KEY_SIZE (fit K.KEY_SIZE junk) v =
      copied K v ++ 0 :: (fit K.KEY_SIZE junk).drop ((copied K v).length + 1) := by
  simp [snprintf_s, hK, copied]

theorem copied_ne_zero (K : Consts) (v : List Nat) : ∀ c ∈ copied K v, c ≠ 0 := by
  intro c hc
  exact cstrOf_ne_zero v c (List.mem_of_mem_take hc)

/-- Shape of `splitEpoch` on a buffer holding a terminated string. -/
theorem splitEpoch_shape (s t : List Nat) (hs : ∀ c ∈ s, c ≠ 0) :
    splitEpoch (s ++ 0 :: t) =
      if 58 ∈ s then
        some ((s ++ 0 :: t).set (s.indexOf 58) 0, s.indexOf 58 + 1,
          strtolStr (s.takeWhile (fun c => c != 58)))
      else some (s ++ 0 :: t, 0, 0) := by
  unfold splitEpoch strchr cstrAt
  simp only [List.drop_zero, cstrOf_append_zero s t hs, Nat.zero_add]
  by_cases h : 58 ∈ s
  · have hlt : s.indexOf 58 < s.length := List.indexOf_lt_length.mpr h
    simp only [hlt, if_true, h]
    have hset : (s ++ 0 :: t).set (s.indexOf 58) 0 =
        [] ++ s.take (s.indexOf 58) ++ 0 :: (s.drop (s.indexOf 58 + 1) ++ 0 :: t) := by
      rw [List.set_append_left _ _ hlt, List.set_eq_take_append_cons_drop]
      simp [hlt]
    have := strtolAt_terminated [] (s.take (s.indexOf 58)) (s.drop (s.indexOf 58 + 1) ++ 0 :: t)
    rw [← hset] at this
    simp only [List.length_nil] at this
    rw [this, take_indexOf]
    simp
  · have hlt : ¬ s.indexOf 58 < s.length := by
      rw [List.indexOf_lt_length]; exact h
    simp [hlt, h]

theorem splitEpoch_copy (K : Consts) (junk v : List Nat) :
    ∃ b p, splitEpoch (snprintf_s K.KEY_SIZE (fit K.KEY_SIZE junk) v) = some (b, p, epochOf K v) := by
  by_cases hK : K.KEY_SIZE = 0
  · refine ⟨[], 0, ?_⟩
    simp [snprintf_s, hK, fit, splitEpoch, strchr, cstrAt, cstrOf, epochOf, copied]
  · rw [snprintf_s_shape K junk v hK, splitEpoch_shape _ _ (copied_ne_zero K v)]
    unfold epochOf
    by_cases h : 58 ∈ copied K v
    · simp only [h, if_true]
      exact ⟨_, _, rfl⟩
    · simp only [h, if_false]
      exact ⟨_, _, rfl⟩

/-- C1: outside the version comparison the comparator returns 2 when the
operand `operation_value` is null, whatever the package, the installed version
and the operation are, and 0 when the operand is not null and the operation is
a string other than "less than". -/
theorem checks_outside_version_comparison (K : Consts) (fr : Frame)
    (package version : List Nat) (operation : Option (List Nat)) :
    wm_checks_package_vulnerability K fr package version operation none = Outcome.ret 2 ∧
    ∀ op opv : List Nat, cstrOf op ≠ cstr "less than" →
      wm_checks_package_vulnerability K fr package version (some op) (some opv) =
        Outcome.ret 0 := by
  refine ⟨rfl, ?_⟩
  intro op opv h
  simp [wm_checks_package_vulnerability, h]

/-- C2 (as amended): for operation "less than" and every pair of versions whose
epochs, read as the code reads them (`epochOf`), differ, the comparator returns
1 when the installed epoch is the smaller one and 0 when it is the larger one,
whatever the upstream and release parts and the stale bytes of the frame are. -/
theorem epoch_decides (K : Consts) (fr : Frame) (package version limit : List Nat)
    (h : epochOf K version ≠ epochOf K limit) :
    wm_checks_package_vulnerability K fr package version (some (cstr "less than"))
        (some limit) =
      Outcome.ret (if epochOf K version < epochOf K limit then 1 else 0) := by
  obtain ⟨vb, vp, hv⟩ := splitEpoch_copy K fr.version_cl version
  obtain ⟨lb, lp, hl⟩ := splitEpoch_copy K fr.limit_cl limit
  have hc : cstrOf (cstr "less than") = cstr "less than" := by decide
  simp only [wm_checks_package_vulnerability, hc, ne_eq, not_true_eq_false, if_false, hv, hl,
    compareFrom]
  rcases lt_or_gt_of_ne h with h1 | h1
  · have h2 : ¬ epochOf K version > epochOf K limit := not_lt.mpr (le_of_lt h1)
    simp [h1, h2]
  · have h2 : ¬ epochOf K version < epochOf K limit := not_lt.mpr (le_of_lt h1)
    simp [h1, h2]

/-- C2, the scenario of the specification: installed "1:0.1-1" against
operand "0:99.9-1" is not vulnerable, the epochs 1 and 0 deciding. -/
theorem epoch_decides_witness :
    epochOf sampleConsts (cstr "1:0.1-1") ≠ epochOf sampleConsts (cstr "0:99.9-1") ∧
    wm_checks_package_vulnerability sampleConsts zeroFrame (cstr "pkg") (cstr "1:0.1-1")
      (some (cstr "less than")) (some (cstr "0:99.9-1")) = Outcome.ret 0 :=
  ⟨by decide,
   (epoch_decides sampleConsts zeroFrame (cstr "pkg") (cstr "1:0.1-1") (cstr "0:99.9-1")
      (by decide)).trans (by decide)⟩

/-- C2 as stated fails once an epoch leaves the range of `int`: the epochs
written "1" and "4294967297" differ as integers, the installed one being the
smaller, yet both are read as 1 and the comparator returns 0. -/
theorem epoch_beyond_int_not_decided :
    decimal (epochText (cstr "1:1")) < decimal (epochText (cstr "4294967297:1")) ∧
    epochOf sampleConsts (cstr "1:1") = 1 ∧
    epochOf sampleConsts (cstr "4294967297:1") = 1 ∧
    wm_checks_package_vulnerability sampleConsts zeroFrame (cstr "pkg") (cstr "1:1")
      (some (cstr "less than")) (some (cstr "4294967297:1")) = Outcome.ret 0 := by
  decide

/-- C5, runs that break irreflexivity. A version compared with itself: with
"1.0-1" the release loop steps over the terminator and compares the stale
bytes that follow, returning 1; with "1.0-a" it finds no digit and reads on
until it leaves the array. -/
theorem self_comparison_reads_past_terminator :
    lessThanOn staleFrame "1.0-1" "1.0-1" = Outcome.ret 1 ∧
    lessThanOn zeroFrame "1.0-a" "1.0-a" = Outcome.undef := by
  decide

/-- C6, a run that breaks antisymmetry: "1.0-1" and "1.0+1" have the same
upstream and release, the release loop goes on into the stale bytes, and each
compares as less than the other. -/
theorem stale_bytes_break_antisymmetry :
    lessThanOn staleFrame "1.0-1" "1.0+1" = Outcome.ret 1 ∧
    lessThanOn staleFrame "1.0+1" "1.0-1" = Outcome.ret 1 := by
  decide

/-- C7, a run that breaks transitivity: "1.0-1" is below "1.00-2" and "1.00-2"
below "1.0-3", but for "1.0-1" against "1.0-3" the upstream texts are identical,
the loop that sets `attemps` is skipped, and the stale value of `attemps` is
taken for an exhausted bound: the result is 0. -/
theorem stale_attemps_breaks_transitivity :
    lessThanOn boundFrame "1.0-1" "1.00-2" = Outcome.ret 1 ∧
    lessThanOn boundFrame "1.00-2" "1.0-3" = Outcome.ret 1 ∧
    lessThanOn boundFrame "1.0-1" "1.0-3" = Outcome.ret 0 := by
  decide

/-- C9, runs in which an alert with an empty package list is sent: for an agent
without rows (one alert, with an empty `cve`), and for a last CVE whose only
row is not vulnerable. -/
theorem final_flush_sends_empty_list (K : Consts) (ag : Agent) (junk : Acc) :
    (∃ a, (report_agent K ag junk []).sent = [a] ∧ a.cve = [] ∧ a.package_list = []) ∧
    (report_agent sampleConsts sampleAgent emptyAcc
        [sampleRow "CVE-1" "foo" "3.0" "2.0"]).sent.map (fun a => (a.cve, a.package_list)) =
      [(cstr "CVE-1", [])] := by
  refine ⟨⟨mkAlert K ag (startAcc K junk), ?_, rfl, rfl⟩, by decide⟩
  simp [report_agent, walkRows, startAcc, cstr]

theorem isdigit_iff (c : Nat) : isdigit c = true ↔ 48 ≤ c ∧ c ≤ 57 := by
  simp [isdigit]

theorem accDigits_digits (p rest : List Nat) (acc : Nat) (hp : ∀ c ∈ p, isdigit c = true) :
    accDigits acc (p ++ rest) = accDigits (p.foldl (fun a c => a * 10 + (c - 48)) acc) rest := by
  induction p generalizing acc with
  | nil => simp
  | cons x xs ih =>
    have hx : isdigit x = true := hp x (by simp)
    simp only [List.cons_append, accDigits, hx, if_true, List.foldl_cons]
    exact ih _ (fun c hc => hp c (by simp [hc]))

theorem toInt_small (n : Nat) (h : n < 2147483648) : toInt (n : Int) = (n : Int) := by
  unfold toInt
  omega

/-- On a string of digits whose number fits an `int`, `strtol` reads that
number. -/
theorem strtolStr_digits (p : List Nat) (hp : ∀ c ∈ p, isdigit c = true)
    (hv : decimal p < 2147483648) : strtolStr p = (decimal p : Int) := by
  have hacc : accDigits 0 (p ++ [0]) = some (decimal p) := by
    rw [accDigits_digits p [0] 0 hp]
    simp [accDigits, isdigit, decimal]
  have hclamp : clampLong (decimal p : Int) = (decimal p : Int) := by
    unfold clampLong
    have h1 : ¬ ((decimal p : Int) > 9223372036854775807) := by omega
    have h2 : ¬ ((decimal p : Int) < -9223372036854775808) := by omega
    simp only [h1, h2, if_false]
  unfold strtolStr
  cases p with
  | nil => simp [strtol, skipSpace, isspace, accDigits, isdigit, clampLong, toInt, decimal]
  | cons c cs =>
    have hc := (isdigit_iff c).mp (hp c (by simp))
    have hsp : isspace c = false := by
      simp only [isspace, Bool.or_eq_false_iff, beq_eq_false_iff_ne, ne_eq,
        Bool.and_eq_false_iff, decide_eq_false_iff_not]
      omega
    have h45 : c ≠ 45 := by omega
    have h43 : c ≠ 43 := by omega
    have hskip : skipSpace (c :: (cs ++ [0])) = c :: (cs ++ [0]) := by
      simp [skipSpace, hsp]
    have hst : strtol (c :: cs ++ [0]) = some (clampLong (decimal (c :: cs) : Int)) := by
      unfold strtol
      rw [List.cons_append, hskip]
      simp only [h45, h43, if_false]
      rw [← List.cons_append, hacc]
      simp only [Option.map_some']
    rw [hst]
    simp only [Option.map_some', Option.getD_some]
    rw [hclamp]
    exact toInt_small (decimal (c :: cs)) hv

theorem cstrAt_shape (pre s t : List Nat) (hs : ∀ c ∈ s, c ≠ 0) :
    cstrAt (pre ++ s ++ 0 :: t) pre.length = s := by
  unfold cstrAt
  rw [List.append_assoc, List.drop_left]
  exact cstrOf_append_zero s t hs

theorem strchr_absent (pre s t : List Nat) (c : Nat) (hs : ∀ c ∈ s, c ≠ 0) (hc : c ∉ s) :
    strchr (pre ++ s ++ 0 :: t) pre.length c = none := by
  unfold strchr
  simp only [cstrAt_shape pre s t hs]
  have : ¬ s.indexOf c < s.length := by
    rw [List.indexOf_lt_length]; exact hc
  simp [this]

theorem strchr_first (pre u rel t : List Nat) (c : Nat) (hu : ∀ d ∈ u, d ≠ 0)
    (hrel : ∀ d ∈ rel, d ≠ 0) (hc0 : c ≠ 0) (hc : c ∉ u) :
    strchr (pre ++ (u ++ c :: rel) ++ 0 :: t) pre.length c = some (pre.length + u.length) := by
  unfold strchr
  have hs : ∀ d ∈ u ++ c :: rel, d ≠ 0 := by
    intro d hd
    rcases List.mem_append.mp hd with h | h
    · exact hu d h
    · rcases List.mem_cons.mp h with h | h
      · exact h ▸ hc0
      · exact hrel d h
  simp only [cstrAt_shape pre _ t hs]
  have hidx : (u ++ c :: rel).indexOf c = u.length := by
    rw [List.indexOf_append_of_not_mem hc]
    simp
  simp [hidx]

theorem copied_fit (K : Consts) (v : List Nat) (hv : ∀ c ∈ v, c ≠ 0)
    (hlen : v.length < K.KEY_SIZE) : copied K v = v := by
  unfold copied cstrOf
  have h1 : v.takeWhile (fun c => c != 0) = v := by
    rw [List.takeWhile_eq_self_iff]
    intro c hc
    simpa using hv c hc
  rw [h1]
  exact List.take_of_length_le (by omega)

theorem epochOf_fit (K : Consts) (v : List Nat) (hv : ∀ c ∈ v, c ≠ 0)
    (hlen : v.length < K.KEY_SIZE) :
    epochOf K v = if 58 ∈ v then strtolStr (v.takeWhile (fun c => c != 58)) else 0 := by
  unfold epochOf
  rw [copied_fit K v hv hlen]

/-- After the copy and lines 135-151 the buffer holds, from `version_it` on, the
text after the epoch and its terminator. -/
theorem splitEpoch_fit (K : Consts) (junk v : List Nat) (hv : ∀ c ∈ v, c ≠ 0)
    (hlen : v.length < K.KEY_SIZE) :
    ∃ pre t, splitEpoch (snprintf_s K.KEY_SIZE (fit K.KEY_SIZE junk) v) =
      some (pre ++ afterEpoch v ++ 0 :: t, pre.length, epochOf K v) := by
  have hK : K.KEY_SIZE ≠ 0 := by omega
  rw [snprintf_s_shape K junk v hK, splitEpoch_shape _ _ (copied_ne_zero K v),
    epochOf_fit K v hv hlen, copied_fit K v hv hlen]
  unfold afterEpoch
  by_cases h : 58 ∈ v
  · have hlt : v.indexOf 58 < v.length := List.indexOf_lt_length.mpr h
    simp only [h, if_true]
    refine ⟨v.take (v.indexOf 58) ++ [0], (fit K.KEY_SIZE junk).drop (v.length + 1), ?_⟩
    have hset : (v ++ 0 :: List.drop (v.length + 1) (fit K.KEY_SIZE junk)).set
        (v.indexOf 58) 0 = v.take (v.indexOf 58) ++ [0] ++ v.drop (v.indexOf 58 + 1) ++
          0 :: List.drop (v.length + 1) (fit K.KEY_SIZE junk) := by
      rw [List.set_append_left _ _ hlt, List.set_eq_take_append_cons_drop]
      simp [hlt]
    rw [hset]
    simp [List.length_take, Nat.min_eq_left (le_of_lt hlt)]
  · simp only [h, if_false]
    exact ⟨[], (fit K.KEY_SIZE junk).drop (v.length + 1), by simp⟩

theorem findSep_absent (pre s t : List Nat) (hs : ∀ c ∈ s, c ≠ 0)
    (hsep : ∀ c ∈ s, isSep c = false) : findSep (pre ++ s ++ 0 :: t) pre.length = none := by
  have h : ∀ c, isSep c = true → c ∉ s := by
    intro c hc hmem
    rw [hsep c hmem] at hc
    exact Bool.false_ne_true hc
  unfold findSep
  rw [strchr_absent pre s t 126 hs (h 126 (by decide)),
    strchr_absent pre s t 45 hs (h 45 (by decide)),
    strchr_absent pre s t 43 hs (h 43 (by decide))]

theorem findSep_first (pre u rel t : List Nat) (sep : Nat) (hsep : isSep sep = true)
    (hu : ∀ c ∈ u, c ≠ 0 ∧ isSep c = false) (hrel : ∀ c ∈ rel, c ≠ 0 ∧ isSep c = false) :
    findSep (pre ++ (u ++ sep :: rel) ++ 0 :: t) pre.length = some (pre.length + u.length) := by
  have hu0 : ∀ c ∈ u, c ≠ 0 := fun c hc => (hu c hc).1
  have hrel0 : ∀ c ∈ rel, c ≠ 0 := fun c hc => (hrel c hc).1
  have hnotin : ∀ c, isSep c = true → c ∉ u := by
    intro c hc hmem
    rw [(hu c hmem).2] at hc
    exact Bool.false_ne_true hc
  have hs0 : ∀ c ∈ u ++ sep :: rel, c ≠ 0 := by
    intro c hc
    rcases List.mem_append.mp hc with h | h
    · exact hu0 c h
    · rcases List.mem_cons.mp h with h | h
      · subst h; intro h0; subst h0; simp [isSep] at hsep
      · exact hrel0 c h
  have habs : ∀ c, isSep c = true → c ≠ sep → c ∉ u ++ sep :: rel := by
    intro c hc hne hmem
    rcases List.mem_append.mp hmem with h | h
    · exact hnotin c hc h
    · rcases List.mem_cons.mp h with h | h
      · exact hne h
      · rw [(hrel c h).2] at hc
        exact Bool.false_ne_true hc
  have hsep0 : sep ≠ 0 := by intro h0; subst h0; simp [isSep] at hsep
  have hcases : sep = 126 ∨ sep = 45 ∨ sep = 43 := by
    have := hsep
    simp only [isSep, Bool.or_eq_true, beq_iff_eq] at this
    tauto
  unfold findSep
  rcases hcases with h | h | h
  · subst h
    rw [strchr_first pre u rel t 126 hu0 hrel0 (by decide) (hnotin 126 (by decide))]
  · subst h
    rw [strchr_absent pre _ t 126 hs0 (habs 126 (by decide) (by decide)),
      strchr_first pre u rel t 45 hu0 hrel0 (by decide) (hnotin 45 (by decide))]
  · subst h
    rw [strchr_absent pre _ t 126 hs0 (habs 126 (by decide) (by decide)),
      strchr_absent pre _ t 45 hs0 (habs 45 (by decide) (by decide)),
      strchr_first pre u rel t 43 hu0 hrel0 (by decide) (hnotin 43 (by decide))]

/-- Lines 159-177 on a text without separator: nothing is cut. -/
theorem splitRelease_absent (pre s t : List Nat) (hs : ∀ c ∈ s, c ≠ 0)
    (hsep : ∀ c ∈ s, isSep c = false) :
    splitRelease (pre ++ s ++ 0 :: t) pre.length = some (pre ++ s ++ 0 :: t, none) := by
  unfold splitRelease
  rw [findSep_absent pre s t hs hsep]

/-- Lines 159-177 on a text with one separator followed by a non-empty
release. -/
theorem splitRelease_first (pre u rel t : List Nat) (sep : Nat) (hsep : isSep sep = true)
    (hu : ∀ c ∈ u, c ≠ 0 ∧ isSep c = false) (hrel : ∀ c ∈ rel, c ≠ 0 ∧ isSep c = false)
    (hne : rel ≠ []) :
    splitRelease (pre ++ (u ++ sep :: rel) ++ 0 :: t) pre.length =
      some (pre ++ u ++ 0 :: (rel ++ 0 :: t), some (pre.length + u.length + 1)) := by
  unfold splitRelease
  rw [findSep_first pre u rel t sep hsep hu hrel]
  have hset : (pre ++ (u ++ sep :: rel) ++ 0 :: t).set (pre.length + u.length) 0 =
      pre ++ u ++ 0 :: (rel ++ 0 :: t) := by
    have h1 : pre ++ (u ++ sep :: rel) ++ 0 :: t = (pre ++ u) ++ sep :: (rel ++ 0 :: t) := by
      simp
    rw [h1, ← List.length_append, List.set_append_right _ _ (le_refl _)]
    simp
  simp only [hset]
  obtain ⟨r0, rs, hr⟩ := List.exists_cons_of_ne_nil hne
  have hr0 : r0 ≠ 0 := (hrel r0 (by rw [hr]; simp)).1
  have hget : (pre ++ u ++ 0 :: (rel ++ 0 :: t))[pre.length + u.length + 1]? = some r0 := by
    rw [hr, ← List.length_append]
    rw [List.getElem?_append_right (by omega)]
    simp
  rw [hget]
  simp [hr0]

theorem relSide_digit (pre r t : List Nat) (hr : r ≠ []) (hd : ∀ c ∈ r, isdigit c = true) :
    relSide (pre ++ r ++ 0 :: t) pre.length 0 0 =
      some (pre ++ r ++ 0 :: t, pre.length, 1, 1) := by
  obtain ⟨r0, rs, hrs⟩ := List.exists_cons_of_ne_nil hr
  have hd0 : isdigit r0 = true := hd r0 (by rw [hrs]; simp)
  have hne0 : r0 ≠ 0 := by
    have := (isdigit_iff r0).mp hd0
    omega
  have hget : (pre ++ r ++ 0 :: t)[pre.length + 0]? = some r0 := by
    rw [hrs, List.append_assoc, Nat.add_zero, List.getElem?_append_right (le_refl _)]
    simp
  unfold relSide
  rw [hget]
  simp [hne0, hd0]

/-- The first pass of the release loop on two releases that are decimal
numbers with different values. -/
theorem releaseLoop_digits (fuel : Nat) (hf : fuel ≠ 0) (pv rv tv pl rl tl : List Nat)
    (hrv : rv ≠ []) (hdv : ∀ c ∈ rv, isdigit c = true) (hrl : rl ≠ [])
    (hdl : ∀ c ∈ rl, isdigit c = true) (hvv : decimal rv < 2147483648)
    (hlv : decimal rl < 2147483648) (hne : decimal rv ≠ decimal rl) :
    releaseLoop fuel (pv ++ rv ++ 0 :: tv) (pl ++ rl ++ 0 :: tl) pv.length pl.length 0 0 0 0 =
      Outcome.ret (if decimal rv < decimal rl then 1 else 0) := by
  obtain ⟨k, hk⟩ := Nat.exists_eq_succ_of_ne_zero hf
  subst hk
  unfold releaseLoop
  rw [relSide_digit pv rv tv hrv hdv, relSide_digit pl rl tl hrl hdl]
  simp only [ne_eq, one_ne_zero, not_false_eq_true, and_self, if_true]
  rw [strtolAt_terminated pv rv tv, strtolAt_terminated pl rl tl,
    strtolStr_digits rv hdv hvv, strtolStr_digits rl hdl hlv]
  simp only
  rcases Nat.lt_or_gt_of_ne hne with h | h
  · have h1 : ¬ ((decimal rv : Int) > (decimal rl : Int)) := by omega
    have h2 : (decimal rv : Int) < (decimal rl : Int) := by omega
    simp only [h1, h2, h, if_true, if_false]
  · have h1 : (decimal rv : Int) > (decimal rl : Int) := by omega
    have h2 : ¬ decimal rv < decimal rl := by omega
    simp only [h1, h2, if_true, if_false]

theorem digit_not_sep (c : Nat) (h : isdigit c = true) : c ≠ 0 ∧ isSep c = false := by
  have := (isdigit_iff c).mp h
  refine ⟨by omega, ?_⟩
  simp only [isSep, Bool.or_eq_false_iff, beq_eq_false_iff_ne, ne_eq]
  omega

theorem afterEpoch_ne_zero (v : List Nat) (hv : ∀ c ∈ v, c ≠ 0) :
    ∀ c ∈ afterEpoch v, c ≠ 0 := by
  intro c hc
  unfold afterEpoch at hc
  split at hc
  · exact hv c (List.mem_of_mem_drop hc)
  · exact hv c hc

/-- Lines 153-290 on two buffers whose texts after the epoch have the same
upstream and decimal releases of different values, the epochs being equal and
the stale `attemps` not being the bound. -/
theorem compareFrom_release (K : Consts) (att0 : Int) (pv pl tv tl up rv rl : List Nat)
    (sv sl : Nat) (e : Int) (hatt : att0 ≠ K.VU_MAX_VERSION_ATTEMPS)
    (hup : ∀ c ∈ up, c ≠ 0 ∧ isSep c = false) (hsv : isSep sv = true) (hsl : isSep sl = true)
    (hrv : rv ≠ []) (hdv : ∀ c ∈ rv, isdigit c = true) (hrl : rl ≠ [])
    (hdl : ∀ c ∈ rl, isdigit c = true) (hvv : decimal rv < 2147483648)
    (hlv : decimal rl < 2147483648) (hne : decimal rv ≠ decimal rl) :
    compareFrom K att0 (pv ++ (up ++ sv :: rv) ++ 0 :: tv) (pl ++ (up ++ sl :: rl) ++ 0 :: tl)
        pv.length pl.length e e =
      Outcome.ret (if decimal rv < decimal rl then 1 else 0) := by
  unfold compareFrom
  have hup0 : ∀ c ∈ up, c ≠ 0 := fun c hc => (hup c hc).1
  rw [splitRelease_first pv up rv tv sv hsv hup (fun c hc => digit_not_sep c (hdv c hc)) hrv,
    splitRelease_first pl up rl tl sl hsl hup (fun c hc => digit_not_sep c (hdl c hc)) hrl]
  simp only [gt_iff_lt, lt_self_iff_false, if_false]
  rw [cstrAt_shape pv up (rv ++ 0 :: tv) hup0, cstrAt_shape pl up (rl ++ 0 :: tl) hup0]
  simp only [ne_eq, not_true_eq_false, if_false, hatt]
  have hbv : pv ++ up ++ 0 :: (rv ++ 0 :: tv) = (pv ++ up ++ [0]) ++ rv ++ 0 :: tv := by simp
  have hbl : pl ++ up ++ 0 :: (rl ++ 0 :: tl) = (pl ++ up ++ [0]) ++ rl ++ 0 :: tl := by simp
  have hiv : pv.length + up.length + 1 = (pv ++ up ++ [0]).length := by
    simp only [List.length_append, List.length_singleton]
  have hil : pl.length + up.length + 1 = (pl ++ up ++ [0]).length := by
    simp only [List.length_append, List.length_singleton]
  rw [hbv, hbl, hiv, hil]
  exact releaseLoop_digits (relFuel K) (by unfold relFuel; omega) _ rv tv _ rl tl hrv hdv hrl
    hdl hvv hlv hne

/-- C4 (as amended): for operation "less than" and every pair of versions that
fit the copy buffers, with equal epochs and identical upstream parts, whose
release suffixes are each a single non-empty decimal number below 2^31, the two
numbers being different, and when the value found in the uninitialised
`attemps` is not `VU_MAX_VERSION_ATTEMPS`, the comparator returns 1 when the
installed release number is the smaller one and 0 when it is the larger one. -/
theorem release_decides (K : Consts) (fr : Frame) (package v l up rv rl : List Nat)
    (sv sl : Nat)
    (hv0 : ∀ c ∈ v, c ≠ 0) (hl0 : ∀ c ∈ l, c ≠ 0)
    (hvlen : v.length < K.KEY_SIZE) (hllen : l.length < K.KEY_SIZE)
    (hepoch : epochOf K v = epochOf K l)
    (hv : afterEpoch v = up ++ sv :: rv) (hl : afterEpoch l = up ++ sl :: rl)
    (hup : ∀ c ∈ up, isSep c = false)
    (hsv : isSep sv = true) (hsl : isSep sl = true)
    (hrv : rv ≠ []) (hdv : ∀ c ∈ rv, isdigit c = true)
    (hrl : rl ≠ []) (hdl : ∀ c ∈ rl, isdigit c = true)
    (hvv : decimal rv < 2147483648) (hlv : decimal rl < 2147483648)
    (hatt : fr.attemps ≠ K.VU_MAX_VERSION_ATTEMPS)
    (hne : decimal rv ≠ decimal rl) :
    wm_checks_package_vulnerability K fr package v (some (cstr "less than")) (some l) =
      Outcome.ret (if decimal rv < decimal rl then 1 else 0) := by
  obtain ⟨pv, tv, hsv2⟩ := splitEpoch_fit K fr.version_cl v hv0 hvlen
  obtain ⟨pl, tl, hsl2⟩ := splitEpoch_fit K fr.limit_cl l hl0 hllen
  have hc : cstrOf (cstr "less than") = cstr "less than" := by decide
  have hup2 : ∀ c ∈ up, c ≠ 0 ∧ isSep c = false := by
    intro c hc
    refine ⟨?_, hup c hc⟩
    exact afterEpoch_ne_zero v hv0 c (by rw [hv]; simp [hc])
  simp only [wm_checks_package_vulnerability, hc, ne_eq, not_true_eq_false, if_false, hsv2,
    hsl2, hepoch, hv, hl]
  exact compareFrom_release K fr.attemps pv pl tv tl up rv rl sv sl (epochOf K l) hatt hup2
    hsv hsl hrv hdv hrl hdl hvv hlv hne

/-- C4, scenario 3 of the specification: installed "1.0-2" against operand
"1.0-10" is vulnerable, when the stale `attemps` is not the bound. -/
theorem release_decides_witness :
    wm_checks_package_vulnerability sampleConsts zeroFrame (cstr "pkg") (cstr "1.0-2")
      (some (cstr "less than")) (some (cstr "1.0-10")) = Outcome.ret 1 :=
  (release_decides sampleConsts zeroFrame (cstr "pkg") (cstr "1.0-2") (cstr "1.0-10")
    (cstr "1.0") (cstr "2") (cstr "10") 45 45 (by decide) (by decide) (by decide) (by decide)
    (by decide) (by decide) (by decide) (by decide) (by decide) (by decide) (by decide)
    (by decide) (by decide) (by decide) (by decide) (by decide) (by decide)
    (by decide)).trans (by decide)

/-- C4 as stated fails in three ways. Scenario 3 itself returns 0 when the
uninitialised `attemps` holds the bound. Release numbers beyond the range of
`int` are compared by their low 32 bits: release 4294967296 compares as less
than release 1. Equal release numbers send the loop past the terminator, where
stale bytes decide: "1.0-7" against "1.0-7" returns 1. -/
theorem release_order_fails :
    lessThanOn boundFrame "1.0-2" "1.0-10" = Outcome.ret 0 ∧
    lessThanOn zeroFrame "1.0-4294967296" "1.0-1" = Outcome.ret 1 ∧
    lessThanOn staleFrame "1.0-7" "1.0-7" = Outcome.ret 1 := by
  decide

/-! ## The upstream loop on dotted decimal numbers -/

theorem digit_not_boundary (c : Nat) (h : isdigit c = true) :
    ¬ (c = 46 ∨ isalpha c = true) ∧ c ≠ 0 := by
  have := (isdigit_iff c).mp h
  refine ⟨?_, by omega⟩
  intro hc
  rcases hc with hc | hc
  · omega
  · simp only [isalpha, Bool.or_eq_true, Bool.and_eq_true, decide_eq_true_eq] at hc
    omega

theorem upSide_scan (pre tok rest : List Nat) (d kind k : Nat)
    (hd : ∀ c ∈ tok, isdigit c = true) (hdk : (d = 46 ∧ kind = 1) ∨ (d = 0 ∧ kind = 2)) :
    upSide (scanBuf pre tok rest d k) pre.length (scanIdx tok k) (scanFlag tok kind k) =
      some (scanBuf pre tok rest d (k + 1), scanIdx tok (k + 1), scanFlag tok kind (k + 1)) := by
  have hkind : kind ≠ 0 := by rcases hdk with h | h <;> omega
  unfold upSide scanBuf scanIdx scanFlag
  rcases Nat.lt_trichotomy k tok.length with hk | hk | hk
  · have h1 : k ≤ tok.length := le_of_lt hk
    have h2 : k + 1 ≤ tok.length := hk
    have hget : (pre ++ tok ++ d :: rest)[pre.length + k]? = some tok[k] := by
      rw [List.append_assoc, List.getElem?_append_right (by omega)]
      simp only [Nat.add_sub_cancel_left]
      rw [List.getElem?_append_left hk, List.getElem?_eq_getElem hk]
    have hdig := digit_not_boundary tok[k] (hd _ (List.getElem_mem hk))
    simp only [h1, h2, if_true, ne_eq, not_true_eq_false, if_false,
      Nat.min_eq_left h1, Nat.min_eq_left h2]
    rw [hget]
    simp only [hdig.1, hdig.2, if_false]
  · have h1 : k ≤ tok.length := le_of_eq hk
    have h2 : ¬ k + 1 ≤ tok.length := by omega
    have hget : (pre ++ tok ++ d :: rest)[pre.length + tok.length]? = some d := by
      rw [← List.length_append, List.getElem?_append_right (le_refl _)]
      simp
    have hmin : min (k + 1) tok.length = tok.length := by omega
    simp only [h1, h2, if_true, ne_eq, not_true_eq_false, if_false, hmin,
      Nat.min_eq_left h1]
    rw [hk, hget]
    rcases hdk with ⟨hd46, hk1⟩ | ⟨hd0, hk2⟩
    · subst hd46
      have hset : (pre ++ tok ++ 46 :: rest).set (pre.length + tok.length) 0 =
          pre ++ tok ++ 0 :: rest := by
        rw [← List.length_append, List.set_append_right _ _ (le_refl _)]
        simp
      simp only [true_or, if_true, hset, hk1]
    · subst hd0
      have hna : ¬ ((0 : Nat) = 46 ∨ isalpha 0 = true) := by decide
      simp only [hna, if_false, if_true, hk2]
  · have h1 : ¬ k ≤ tok.length := by omega
    have h2 : ¬ k + 1 ≤ tok.length := by omega
    have hmin1 : min k tok.length = tok.length := by omega
    have hmin2 : min (k + 1) tok.length = tok.length := by omega
    simp only [h1, h2, if_false, ne_eq, hkind, not_false_eq_true, if_true, hmin1, hmin2]

/-- The passes of the upstream loop over one pair of tokens: after
`max(length) + 1` passes both tokens are found and compared. -/
theorem upstreamLoop_scan (maxAtt : Int) (pv tv rv pl tl rl : List Nat) (dv kv dl kl : Nat)
    (hdv : ∀ c ∈ tv, isdigit c = true) (hdl : ∀ c ∈ tl, isdigit c = true)
    (hkv : (dv = 46 ∧ kv = 1) ∨ (dv = 0 ∧ kv = 2))
    (hkl : (dl = 46 ∧ kl = 1) ∨ (dl = 0 ∧ kl = 2))
    (hvv : decimal tv < 2147483648) (hlv : decimal tl < 2147483648) :
    ∀ (j k : Nat) (att : Int) (fuel : Nat), k + j = max tv.length tl.length →
      att + (j : Int) < maxAtt →
      upstreamLoop maxAtt (fuel + j + 1) (scanBuf pv tv rv dv k) (scanBuf pl tl rl dl k)
          pv.length pl.length (scanIdx tv k) (scanIdx tl k) att (scanFlag tv kv k)
          (scanFlag tl kl k) =
        tokenVerdict maxAtt fuel (pv ++ tv ++ 0 :: rv) (pl ++ tl ++ 0 :: rl)
          (pv.length + tv.length + 1) (pl.length + tl.length + 1) (decimal tv) (decimal tl)
          kv kl (att + (j : Int)) := by
  have hkv0 : kv ≠ 0 := by rcases hkv with h | h <;> omega
  have hkl0 : kl ≠ 0 := by rcases hkl with h | h <;> omega
  intro j
  induction j with
  | zero =>
    intro k att fuel hk hatt
    simp only [Nat.add_zero] at hk
    simp only [Nat.cast_zero, add_zero] at hatt ⊢
    have h1 : ¬ k + 1 ≤ tv.length := by omega
    have h2 : ¬ k + 1 ≤ tl.length := by omega
    have hbv : scanBuf pv tv rv dv (k + 1) = pv ++ tv ++ 0 :: rv := by simp [scanBuf, h1]
    have hbl : scanBuf pl tl rl dl (k + 1) = pl ++ tl ++ 0 :: rl := by simp [scanBuf, h2]
    have hiv : scanIdx tv (k + 1) = tv.length := by unfold scanIdx; omega
    have hil : scanIdx tl (k + 1) = tl.length := by unfold scanIdx; omega
    have hfv : scanFlag tv kv (k + 1) = kv := by simp [scanFlag, h1]
    have hfl : scanFlag tl kl (k + 1) = kl := by simp [scanFlag, h2]
    rw [upstreamLoop]
    simp only [hatt, not_true_eq_false, if_false, upSide_scan pv tv rv dv kv k hdv hkv,
      upSide_scan pl tl rl dl kl k hdl hkl, hbv, hbl, hiv, hil, hfv, hfl, ne_eq, hkv0, hkl0,
      not_false_eq_true, and_self, if_true, strtolAt_terminated pv tv rv,
      strtolAt_terminated pl tl rl, strtolStr_digits tv hdv hvv, strtolStr_digits tl hdl hlv]
    rfl
  | succ j ih =>
    intro k att fuel hk hatt
    have hatt0 : att < maxAtt := by
      have : (0 : Int) ≤ ((j + 1 : Nat) : Int) := Int.natCast_nonneg _
      omega
    have hnot : ¬ (scanFlag tv kv (k + 1) ≠ 0 ∧ scanFlag tl kl (k + 1) ≠ 0) := by
      intro h
      unfold scanFlag at h
      by_cases hc : k + 1 ≤ tv.length
      · simp [hc] at h
      · have hc2 : k + 1 ≤ tl.length := by omega
        simp [hc2] at h
    have hfuel : fuel + (j + 1) + 1 = (fuel + j + 1) + 1 := by omega
    rw [hfuel, upstreamLoop]
    simp only [hatt0, not_true_eq_false, if_false, upSide_scan pv tv rv dv kv k hdv hkv,
      upSide_scan pl tl rl dl kl k hdl hkl, hnot]
    rw [ih (k + 1) (att + 1) fuel (by omega) (by push_cast at hatt ⊢; omega)]
    congr 1
    push_cast
    ring

theorem dotted_shape (t j : List Nat) (tss : List (List Nat)) :
    (tss = [] ∧ dotted (t :: tss) ++ 0 :: j = t ++ 0 :: j) ∨
    (tss ≠ [] ∧ dotted (t :: tss) ++ 0 :: j = t ++ 46 :: (dotted tss ++ 0 :: j)) := by
  cases tss with
  | nil => left; simp [dotted]
  | cons t2 ts2 => right; simp [dotted]

/-- The upstream loop on two dotted sequences of decimal numbers gives the
lexicographic order of the numbers, or leaves the loop before the bound when
the sequences are equal. -/
theorem upstreamLoop_dotted (maxAtt : Int) :
    ∀ (tvs tls : List (List Nat)) (pv pl jv jl : List Nat) (att : Int) (fuel : Nat),
      tvs ≠ [] → tls ≠ [] →
      (∀ t ∈ tvs, (∀ c ∈ t, isdigit c = true) ∧ (t.length : Int) + 2 ≤ maxAtt ∧
        decimal t < 2147483648) →
      (∀ t ∈ tls, (∀ c ∈ t, isdigit c = true) ∧ (t.length : Int) + 2 ≤ maxAtt ∧
        decimal t < 2147483648) →
      (att = 0 ∨ att = 1) → tvs.length * maxAtt.toNat ≤ fuel →
      (lexLt (tvs.map decimal) (tls.map decimal) = true →
        upstreamLoop maxAtt fuel (pv ++ dotted tvs ++ 0 :: jv) (pl ++ dotted tls ++ 0 :: jl)
          pv.length pl.length 0 0 att 0 0 = UpResult.ret 1) ∧
      (lexLt (tvs.map decimal) (tls.map decimal) = false →
        upstreamLoop maxAtt fuel (pv ++ dotted tvs ++ 0 :: jv) (pl ++ dotted tls ++ 0 :: jl)
          pv.length pl.length 0 0 att 0 0 = UpResult.ret 0 ∨
        ∃ b1 b2 a, upstreamLoop maxAtt fuel (pv ++ dotted tvs ++ 0 :: jv)
          (pl ++ dotted tls ++ 0 :: jl) pv.length pl.length 0 0 att 0 0 = UpResult.done b1 b2 a ∧
          a < maxAtt) := by
  intro tvs
  induction tvs with
  | nil => intro tls pv pl jv jl att fuel h; exact absurd rfl h
  | cons t ts ih =>
    intro tls pv pl jv jl att fuel _ htls htv htl hatt hfuel
    obtain ⟨u, us, rfl⟩ := List.exists_cons_of_ne_nil htls
    obtain ⟨hdt, hlt, hvt⟩ := htv t (by simp)
    obtain ⟨hdu, hlu, hvu⟩ := htl u (by simp)
    -- the shape of both buffers at the current pair of tokens
    have hshape : ∀ (p x j : List Nat) (xs : List (List Nat)),
        ∃ d k rest, p ++ dotted (x :: xs) ++ 0 :: j = p ++ x ++ d :: rest ∧
          ((d = 46 ∧ k = 1) ∨ (d = 0 ∧ k = 2)) ∧
          (xs = [] → k = 2) ∧
          (xs ≠ [] → k = 1 ∧ p ++ x ++ 0 :: rest = (p ++ x ++ [0]) ++ dotted xs ++ 0 :: j) := by
      intro p x j xs
      rcases dotted_shape x j xs with ⟨h1, h2⟩ | ⟨h1, h2⟩
      · refine ⟨0, 2, j, ?_, Or.inr ⟨rfl, rfl⟩, fun _ => rfl, fun h => absurd h1 h⟩
        rw [List.append_assoc, h2, List.append_assoc]
      · refine ⟨46, 1, dotted xs ++ 0 :: j, ?_, Or.inl ⟨rfl, rfl⟩, fun h => absurd h h1,
          fun _ => ⟨rfl, by simp⟩⟩
        rw [List.append_assoc, h2, List.append_assoc]
    obtain ⟨dv, kv, rv, hbv, hkv, hkv2, hkv1⟩ := hshape pv t jv ts
    obtain ⟨dl, kl, rl, hbl, hkl, hkl2, hkl1⟩ := hshape pl u jl us
    -- the passes over this pair of tokens
    have hMn : max t.length u.length + 2 ≤ maxAtt.toNat := by
      rcases Nat.le_total t.length u.length with h | h
      · rw [Nat.max_eq_right h]; omega
      · rw [Nat.max_eq_left h]; omega
    have hM : ((max t.length u.length : Nat) : Int) + 2 ≤ maxAtt := by omega
    have hfuel2 : (ts.length + 1) * maxAtt.toNat ≤ fuel := by simpa using hfuel
    have hfuel3 : ts.length * maxAtt.toNat + (max t.length u.length + 1) ≤ fuel := by
      have : (ts.length + 1) * maxAtt.toNat = ts.length * maxAtt.toNat + maxAtt.toNat := by
        ring
      omega
    obtain ⟨fuel', hfuel'⟩ : ∃ f, fuel = f + max t.length u.length + 1 :=
      ⟨fuel - (max t.length u.length + 1), by omega⟩
    have hscan := upstreamLoop_scan maxAtt pv t rv pl u rl dv kv dl kl hdt hdu hkv hkl hvt hvu
      (max t.length u.length) 0 att fuel' (by simp) (by rcases hatt with h | h <;> omega)
    have hs0v : scanBuf pv t rv dv 0 = pv ++ t ++ dv :: rv := by simp [scanBuf]
    have hs0l : scanBuf pl u rl dl 0 = pl ++ u ++ dl :: rl := by simp [scanBuf]
    have hi0v : scanIdx t 0 = 0 := by simp [scanIdx]
    have hi0l : scanIdx u 0 = 0 := by simp [scanIdx]
    have hf0v : scanFlag t kv 0 = 0 := by simp [scanFlag]
    have hf0l : scanFlag u kl 0 = 0 := by simp [scanFlag]
    rw [hs0v, hs0l, hi0v, hi0l, hf0v, hf0l, ← hfuel', ← hbv, ← hbl] at hscan
    rw [hscan]
    simp only [List.map_cons, lexLt]
    unfold tokenVerdict
    rcases Nat.lt_trichotomy (decimal t) (decimal u) with hlt' | heq | hgt
    · have h1 : ¬ ((decimal t : Int) > (decimal u : Int)) := by omega
      have h2 : (decimal t : Int) < (decimal u : Int) := by omega
      simp [h1, h2, hlt']
    · have h1 : ¬ ((decimal t : Int) > (decimal u : Int)) := by omega
      have h2 : ¬ ((decimal t : Int) < (decimal u : Int)) := by omega
      have h3 : ¬ decimal t < decimal u := by omega
      simp only [h1, h2, if_false, h3, decide_False, Bool.false_or, heq, beq_self_eq_true,
        Bool.true_and]
      by_cases hts : ts = []
      · have hkv' := hkv2 hts
        by_cases hus : us = []
        · have hkl' := hkl2 hus
          subst hts hus
          simp only [hkv', hkl', ne_eq, not_true_eq_false, if_false, List.map_nil, lexLt]
          constructor
          · intro h
            simp at h
          · intro _
            right
            have hlt2 : att + ((max t.length u.length : Nat) : Int) < maxAtt := by
              rcases hatt with h | h <;> omega
            exact ⟨pv ++ t ++ 0 :: rv, pl ++ u ++ 0 :: rl,
              att + ((max t.length u.length : Nat) : Int), by simp, hlt2⟩
        · obtain ⟨hkl', _⟩ := hkl1 hus
          obtain ⟨u2, us2, rfl⟩ := List.exists_cons_of_ne_nil hus
          subst hts
          simp [hkv', hkl', lexLt]
      · obtain ⟨hkv', hcutv⟩ := hkv1 hts
        by_cases hus : us = []
        · have hkl' := hkl2 hus
          obtain ⟨t2, ts2, rfl⟩ := List.exists_cons_of_ne_nil hts
          subst hus
          simp [hkv', hkl', lexLt]
        · obtain ⟨hkl', hcutl⟩ := hkl1 hus
          simp only [hkv', hkl', ne_eq, not_true_eq_false, if_false, gt_iff_lt,
            lt_self_iff_false]
          rw [hcutv, hcutl]
          have hlv : pv.length + t.length + 1 = (pv ++ t ++ [0]).length := by
            simp only [List.length_append, List.length_singleton]
          have hll : pl.length + u.length + 1 = (pl ++ u ++ [0]).length := by
            simp only [List.length_append, List.length_singleton]
          rw [hlv, hll]
          have hih := ih us (pv ++ t ++ [0]) (pl ++ u ++ [0]) jv jl (0 + 1) fuel' hts hus
            (fun x hx => htv x (by simp [hx])) (fun x hx => htl x (by simp [hx]))
            (Or.inr (by norm_num)) (by omega)
          exact hih
    · have h1 : (decimal t : Int) > (decimal u : Int) := by omega
      have h3 : ¬ decimal t < decimal u := by omega
      have h4 : (decimal t == decimal u) = false := by
        simp only [beq_eq_false_iff_ne, ne_eq]; omega
      simp [h1, h3, h4]

theorem dotted_cons (t : List Nat) (ts : List (List Nat)) :
    dotted (t :: ts) = if ts = [] then t else t ++ 46 :: dotted ts := by
  cases ts with
  | nil => simp [dotted]
  | cons t2 ts2 => simp [dotted]

theorem mem_dotted (ts : List (List Nat)) (c : Nat) (h : c ∈ dotted ts) :
    (∃ t ∈ ts, c ∈ t) ∨ c = 46 := by
  induction ts with
  | nil => simp [dotted] at h
  | cons t ts ih =>
    rw [dotted_cons] at h
    by_cases hts : ts = []
    · simp only [hts, if_true] at h
      exact Or.inl ⟨t, by simp, h⟩
    · simp only [hts, if_false, List.mem_append, List.mem_cons] at h
      rcases h with h | h | h
      · exact Or.inl ⟨t, by simp, h⟩
      · exact Or.inr h
      · rcases ih h with ⟨t2, ht2, hc⟩ | hc
        · exact Or.inl ⟨t2, by simp [ht2], hc⟩
        · exact Or.inr hc

theorem dotted_chars (ts : List (List Nat)) (hd : ∀ t ∈ ts, ∀ c ∈ t, isdigit c = true) :
    ∀ c ∈ dotted ts, c ≠ 0 ∧ c ≠ 58 ∧ isSep c = false := by
  intro c hc
  rcases mem_dotted ts c hc with ⟨t, ht, hct⟩ | h46
  · have := (isdigit_iff c).mp (hd t ht c hct)
    refine ⟨by omega, by omega, ?_⟩
    simp only [isSep, Bool.or_eq_false_iff, beq_eq_false_iff_ne, ne_eq]
    omega
  · subst h46
    decide

theorem length_le_dotted (ts : List (List Nat)) : ts.length ≤ (dotted ts).length + 1 := by
  induction ts with
  | nil => simp
  | cons t ts ih =>
    rw [dotted_cons]
    by_cases hts : ts = []
    · simp [hts]
    · simp only [hts, if_false, List.length_cons, List.length_append]
      omega

theorem digits_split_unique (t u x y : List Nat) (ht : ∀ c ∈ t, isdigit c = true)
    (hu : ∀ c ∈ u, isdigit c = true) (hx : x = [] ∨ ∃ r, x = 46 :: r)
    (hy : y = [] ∨ ∃ r, y = 46 :: r) (h : t ++ x = u ++ y) : t = u ∧ x = y := by
  have h46 : isdigit 46 = false := by decide
  induction t generalizing u with
  | nil =>
    cases u with
    | nil => exact ⟨rfl, by simpa using h⟩
    | cons d u2 =>
      exfalso
      simp only [List.nil_append, List.cons_append] at h
      rcases hx with hx | ⟨r, hx⟩
      · rw [hx] at h; simp at h
      · rw [hx] at h
        injection h with h1 _
        have := hu d (by simp)
        rw [← h1, h46] at this
        exact Bool.false_ne_true this
  | cons c t2 ih =>
    cases u with
    | nil =>
      exfalso
      simp only [List.nil_append, List.cons_append] at h
      rcases hy with hy | ⟨r, hy⟩
      · rw [hy] at h; simp at h
      · rw [hy] at h
        injection h with h1 _
        have := ht c (by simp)
        rw [h1, h46] at this
        exact Bool.false_ne_true this
    | cons d u2 =>
      simp only [List.cons_append] at h
      injection h with h1 h2
      obtain ⟨e1, e2⟩ := ih u2 (fun c hc => ht c (by simp [hc])) (fun c hc => hu c (by simp [hc])) h2
      exact ⟨by rw [h1, e1], e2⟩

theorem dotted_injective (tvs : List (List Nat)) :
    ∀ tls : List (List Nat), tvs ≠ [] → tls ≠ [] →
      (∀ t ∈ tvs, ∀ c ∈ t, isdigit c = true) → (∀ t ∈ tls, ∀ c ∈ t, isdigit c = true) →
      dotted tvs = dotted tls → tvs = tls := by
  induction tvs with
  | nil => intro tls h; exact absurd rfl h
  | cons t ts ih =>
    intro tls _ htls hv hl heq
    obtain ⟨u, us, rfl⟩ := List.exists_cons_of_ne_nil htls
    rw [dotted_cons, dotted_cons] at heq
    have hx : (if ts = [] then ([] : List Nat) else 46 :: dotted ts) = [] ∨
        ∃ r, (if ts = [] then ([] : List Nat) else 46 :: dotted ts) = 46 :: r := by
      by_cases h : ts = []
      · simp [h]
      · simp [h]
    have hy : (if us = [] then ([] : List Nat) else 46 :: dotted us) = [] ∨
        ∃ r, (if us = [] then ([] : List Nat) else 46 :: dotted us) = 46 :: r := by
      by_cases h : us = []
      · simp [h]
      · simp [h]
    have heq2 : t ++ (if ts = [] then ([] : List Nat) else 46 :: dotted ts) =
        u ++ (if us = [] then ([] : List Nat) else 46 :: dotted us) := by
      by_cases h1 : ts = [] <;> by_cases h2 : us = [] <;> simpa [h1, h2] using heq
    obtain ⟨e1, e2⟩ := digits_split_unique t u _ _ (hv t (by simp)) (hl u (by simp)) hx hy heq2
    subst e1
    by_cases h1 : ts = []
    · by_cases h2 : us = []
      · rw [h1, h2]
      · simp [h1, h2] at e2
    · by_cases h2 : us = []
      · simp [h1, h2] at e2
      · simp only [h1, h2, if_false, List.cons.injEq, true_and] at e2
        rw [ih us h1 h2 (fun x hx => hv x (by simp [hx])) (fun x hx => hl x (by simp [hx])) e2]

theorem lexLt_irrefl (l : List Nat) : lexLt l l = false := by
  induction l with
  | nil => rfl
  | cons a as ih => simp [lexLt, ih]

/-- Lines 153-290 on two buffers that hold dotted sequences of decimal numbers,
with equal epochs. -/
theorem compareFrom_dotted (K : Consts) (att0 : Int) (pv pl jv jl : List Nat)
    (tvs tls : List (List Nat)) (e : Int) (hv : tvs ≠ []) (hl : tls ≠ [])
    (htv : ∀ t ∈ tvs, (∀ c ∈ t, isdigit c = true) ∧
      (t.length : Int) + 2 ≤ K.VU_MAX_VERSION_ATTEMPS ∧ decimal t < 2147483648)
    (htl : ∀ t ∈ tls, (∀ c ∈ t, isdigit c = true) ∧
      (t.length : Int) + 2 ≤ K.VU_MAX_VERSION_ATTEMPS ∧ decimal t < 2147483648)
    (hlen : (dotted tvs).length < K.KEY_SIZE) :
    compareFrom K att0 (pv ++ dotted tvs ++ 0 :: jv) (pl ++ dotted tls ++ 0 :: jl)
        pv.length pl.length e e =
      Outcome.ret (if lexLt (tvs.map decimal) (tls.map decimal) = true then 1 else 0) := by
  have hcv := dotted_chars tvs (fun t ht => (htv t ht).1)
  have hcl := dotted_chars tls (fun t ht => (htl t ht).1)
  unfold compareFrom
  rw [splitRelease_absent pv _ jv (fun c hc => (hcv c hc).1) (fun c hc => (hcv c hc).2.2),
    splitRelease_absent pl _ jl (fun c hc => (hcl c hc).1) (fun c hc => (hcl c hc).2.2)]
  simp only [gt_iff_lt, lt_self_iff_false, if_false]
  rw [cstrAt_shape pv _ jv (fun c hc => (hcv c hc).1),
    cstrAt_shape pl _ jl (fun c hc => (hcl c hc).1)]
  by_cases heq : dotted tvs = dotted tls
  · have hsame := dotted_injective tvs tls hv hl (fun t ht => (htv t ht).1)
      (fun t ht => (htl t ht).1) heq
    subst hsame
    simp only [ne_eq, not_true_eq_false, if_false, lexLt_irrefl, Bool.false_eq_true]
    by_cases ha : att0 = K.VU_MAX_VERSION_ATTEMPS
    · simp [ha]
    · simp [ha]
  · have hfuel : tvs.length * K.VU_MAX_VERSION_ATTEMPS.toNat ≤ upFuel K := by
      have h1 := length_le_dotted tvs
      unfold upFuel
      have h2 : tvs.length ≤ K.KEY_SIZE + 1 := by omega
      calc tvs.length * K.VU_MAX_VERSION_ATTEMPS.toNat
          ≤ (K.KEY_SIZE + 1) * K.VU_MAX_VERSION_ATTEMPS.toNat := Nat.mul_le_mul_right _ h2
        _ ≤ (K.KEY_SIZE + 1) * (K.VU_MAX_VERSION_ATTEMPS.toNat + 1) :=
            Nat.mul_le_mul_left _ (Nat.le_succ _)
    obtain ⟨h1, h2⟩ := upstreamLoop_dotted K.VU_MAX_VERSION_ATTEMPS tvs tls pv pl jv jl 0
      (upFuel K) hv hl htv htl (Or.inl rfl) hfuel
    simp only [ne_eq, heq, not_false_eq_true, if_true]
    by_cases hlex : lexLt (tvs.map decimal) (tls.map decimal) = true
    · rw [h1 hlex]
      simp [hlex]
    · have hlex2 : lexLt (tvs.map decimal) (tls.map decimal) = false := by
        simpa using hlex
      rcases h2 hlex2 with h3 | ⟨b1, b2, a, h3, ha⟩
      · rw [h3]
        simp [hlex2]
      · rw [h3]
        have hne : a ≠ K.VU_MAX_VERSION_ATTEMPS := ne_of_lt ha
        simp [hne, hlex2]

/-- C3 (as amended): for operation "less than" and every pair of versions with
no epoch and no release suffix whose upstream parts are dot-separated sequences
of non-empty decimal numbers, each number below 2^31 and written with at most
`VU_MAX_VERSION_ATTEMPS - 2` digits, both versions fitting the copy buffers, the
comparator returns 1 exactly when the installed number sequence is strictly
smaller than the operand's in lexicographic order by integer value, a proper
initial part counting as smaller, and 0 otherwise. -/
theorem upstream_numeric_order (K : Consts) (fr : Frame) (package : List Nat)
    (tvs tls : List (List Nat)) (hv : tvs ≠ []) (hl : tls ≠ [])
    (htv : ∀ t ∈ tvs, t ≠ [] ∧ (∀ c ∈ t, isdigit c = true) ∧
      (t.length : Int) + 2 ≤ K.VU_MAX_VERSION_ATTEMPS ∧ decimal t < 2147483648)
    (htl : ∀ t ∈ tls, t ≠ [] ∧ (∀ c ∈ t, isdigit c = true) ∧
      (t.length : Int) + 2 ≤ K.VU_MAX_VERSION_ATTEMPS ∧ decimal t < 2147483648)
    (hlenv : (dotted tvs).length < K.KEY_SIZE) (hlenl : (dotted tls).length < K.KEY_SIZE) :
    wm_checks_package_vulnerability K fr package (dotted tvs) (some (cstr "less than"))
        (some (dotted tls)) =
      Outcome.ret (if lexLt (tvs.map decimal) (tls.map decimal) = true then 1 else 0) := by
  have htv2 := fun t ht => (htv t ht).2
  have htl2 := fun t ht => (htl t ht).2
  have hcv := dotted_chars tvs (fun t ht => (htv2 t ht).1)
  have hcl := dotted_chars tls (fun t ht => (htl2 t ht).1)
  have hv58 : 58 ∉ dotted tvs := fun h => (hcv 58 h).2.1 rfl
  have hl58 : 58 ∉ dotted tls := fun h => (hcl 58 h).2.1 rfl
  have hv0 : ∀ c ∈ dotted tvs, c ≠ 0 := fun c hc => (hcv c hc).1
  have hl0 : ∀ c ∈ dotted tls, c ≠ 0 := fun c hc => (hcl c hc).1
  obtain ⟨pv, jv, hsv⟩ := splitEpoch_fit K fr.version_cl (dotted tvs) hv0 hlenv
  obtain ⟨pl, jl, hsl⟩ := splitEpoch_fit K fr.limit_cl (dotted tls) hl0 hlenl
  have hev : epochOf K (dotted tvs) = 0 := by
    rw [epochOf_fit K _ hv0 hlenv]; simp [hv58]
  have hel : epochOf K (dotted tls) = 0 := by
    rw [epochOf_fit K _ hl0 hlenl]; simp [hl58]
  have hav : afterEpoch (dotted tvs) = dotted tvs := by simp [afterEpoch, hv58]
  have hal : afterEpoch (dotted tls) = dotted tls := by simp [afterEpoch, hl58]
  have hc : cstrOf (cstr "less than") = cstr "less than" := by decide
  simp only [wm_checks_package_vulnerability, hc, ne_eq, not_true_eq_false, if_false, hsv,
    hsl, hev, hel, hav, hal]
  exact compareFrom_dotted K fr.attemps pv pl jv jl tvs tls 0 hv hl htv2 htl2 hlenv

/-- C3, scenario 2 of the specification: installed "2.10" against operand
"2.9" is not vulnerable, 10 being larger than 9. -/
theorem upstream_numeric_order_witness :
    dotted [cstr "2", cstr "10"] = cstr "2.10" ∧ dotted [cstr "2", cstr "9"] = cstr "2.9" ∧
    wm_checks_package_vulnerability sampleConsts zeroFrame (cstr "pkg")
      (dotted [cstr "2", cstr "10"]) (some (cstr "less than"))
      (some (dotted [cstr "2", cstr "9"])) = Outcome.ret 0 :=
  ⟨by decide, by decide,
   (upstream_numeric_order sampleConsts zeroFrame (cstr "pkg") [cstr "2", cstr "10"]
      [cstr "2", cstr "9"] (by decide) (by decide) (by decide) (by decide) (by decide)
      (by decide)).trans (by decide)⟩

/-- C3 as stated fails for a number beyond the range of `int`: with the bound
15 the ten digits of 4294967296 do not reach the attempt bound, the number is
read as 0, and installed "4294967296" compares as less than operand "1". -/
theorem upstream_beyond_int_misordered :
    lexLt [decimal (cstr "4294967296")] [decimal (cstr "1")] = false ∧
    ((cstr "4294967296").length : Int) + 2 ≤ sampleConsts.VU_MAX_VERSION_ATTEMPS ∧
    wm_checks_package_vulnerability sampleConsts zeroFrame (cstr "pkg") (cstr "4294967296")
      (some (cstr "less than")) (some (cstr "1")) = Outcome.ret 1 := by
  decide

/-! ## Facts about the insert -/

theorem runStmts_some (ok : Nat → Bool) (ss : List Stmt) :
    ∀ (n : Nat) (c c2 : Catalog), runStmts ok n ss c = some c2 → c2 = ss.foldl exec c := by
  induction ss with
  | nil => intro n c c2 h; simp [runStmts] at h; simp [h]
  | cons s ss ih =>
    intro n c c2 h
    unfold runStmts at h
    split at h
    · simpa using ih _ _ _ h
    · simp at h

theorem runStmts_all_ok (ss : List Stmt) :
    ∀ (n : Nat) (c : Catalog), runStmts (fun _ => true) n ss c = some (ss.foldl exec c) := by
  induction ss with
  | nil => intro n c; simp [runStmts]
  | cons s ss ih => intro n c; simp [runStmts, ih]

theorem foldl_insertVuln (rows : List VulnRow) (c : Catalog) :
    (rows.map Stmt.insertVuln).foldl exec c =
      { c with vulnerabilities := c.vulnerabilities ++ rows } := by
  induction rows generalizing c with
  | nil => simp
  | cons v vs ih => simp [ih, exec]

theorem foldl_testStmts (tests : List InfoTest) (c : Catalog) :
    (tests.map (fun t => Stmt.updateState (testState t) t.id)).foldl exec c =
      { c with vulnerabilities := c.vulnerabilities.map (testRewrite tests) } := by
  induction tests generalizing c with
  | nil =>
    have : testRewrite [] = id := by funext r; rfl
    simp [this]
  | cons t ts ih =>
    simp only [List.map_cons, List.foldl_cons, ih, exec, List.map_map]
    congr 1

theorem foldl_stateStmts (states : List InfoState) (c : Catalog) :
    (states.map (fun s => Stmt.updateOperation s.operation s.operation_value s.id)).foldl
        exec c =
      { c with vulnerabilities := c.vulnerabilities.map (stateRewrite states) } := by
  induction states generalizing c with
  | nil =>
    have : stateRewrite [] = id := by funext r; rfl
    simp [this]
  | cons t ts ih =>
    simp only [List.map_cons, List.foldl_cons, ih, exec, List.map_map]
    congr 1

theorem foldl_insertInfo (rows : List InfoRow) (c : Catalog) :
    (rows.map Stmt.insertInfo).foldl exec c = { c with cve_info := c.cve_info ++ rows } := by
  induction rows generalizing c with
  | nil => simp
  | cons i is ih => simp [ih, exec]

/-- The statements of the transaction, all run, give `afterTransaction`. -/
theorem foldl_transactionStmts (p : ParsedOval) (c : Catalog) :
    (transactionStmts p).foldl exec c = afterTransaction p c := by
  unfold transactionStmts afterTransaction
  simp only [List.foldl_append, vulnStmts, foldl_insertVuln, testStmts, foldl_testStmts,
    stateStmts, foldl_stateStmts, infoStmts, foldl_insertInfo, metaStmt, List.foldl_cons,
    List.foldl_nil, exec, List.map_map]
  rfl

/-- A call that returns 0 has committed `afterTransaction` of the content left
by the three DELETE statements. -/
theorem insert_success (openOk : Bool) (ok : Nat → Bool) (cat : Catalog) (p : ParsedOval)
    (h : (wm_vulnerability_detector_insert openOk ok cat p).1 = 0) :
    (wm_vulnerability_detector_insert openOk ok cat p).2 =
      afterTransaction p (afterDeletes p cat) := by
  unfold wm_vulnerability_detector_insert at h ⊢
  have hinv : OS_INVALID ≠ 0 := by decide
  split at h
  · exact absurd h hinv
  · split at h
    · exact absurd h hinv
    · split at h
      · exact absurd h hinv
      · split at h
        · exact absurd h hinv
        · rename_i h0 h1 h2 h3
          simp only [h0, h1, h2, h3, if_false]
          split at h
          · exact absurd h hinv
          · rename_i c hc
            have := runStmts_some ok _ _ _ _ hc
            rw [foldl_transactionStmts] at this
            simp only [hc, this]
            rfl

/-- A call in which nothing fails returns 0. -/
theorem insert_all_ok (cat : Catalog) (p : ParsedOval) :
    wm_vulnerability_detector_insert true (fun _ => true) cat p =
      (0, afterTransaction p (afterDeletes p cat)) := by
  unfold wm_vulnerability_detector_insert
  simp only [runStmts_all_ok, foldl_transactionStmts]
  rfl

theorem rewriteState_keeps (state id : Option (List Nat)) (r : VulnRow) :
    (rewriteState state id r).os = r.os ∧ vulnKey (rewriteState state id r) = vulnKey r := by
  unfold rewriteState
  split <;> simp [vulnKey]

theorem rewriteOperation_keeps (op opv id : Option (List Nat)) (r : VulnRow) :
    (rewriteOperation op opv id r).os = r.os ∧
      vulnKey (rewriteOperation op opv id r) = vulnKey r := by
  unfold rewriteOperation
  split <;> simp [vulnKey]

theorem testRewrite_keeps (tests : List InfoTest) :
    ∀ r : VulnRow, (testRewrite tests r).os = r.os ∧ vulnKey (testRewrite tests r) = vulnKey r := by
  induction tests with
  | nil => intro r; exact ⟨rfl, rfl⟩
  | cons t ts ih =>
    intro r
    have h1 := rewriteState_keeps (testState t) t.id r
    have h2 := ih (rewriteState (testState t) t.id r)
    simp only [testRewrite, List.foldl_cons] at h2 ⊢
    exact ⟨h2.1.trans h1.1, h2.2.trans h1.2⟩

theorem stateRewrite_keeps (states : List InfoState) :
    ∀ r : VulnRow, (stateRewrite states r).os = r.os ∧
      vulnKey (stateRewrite states r) = vulnKey r := by
  induction states with
  | nil => intro r; exact ⟨rfl, rfl⟩
  | cons t ts ih =>
    intro r
    have h1 := rewriteOperation_keeps t.operation t.operation_value t.id r
    have h2 := ih (rewriteOperation t.operation t.operation_value t.id r)
    simp only [stateRewrite, List.foldl_cons] at h2 ⊢
    exact ⟨h2.1.trans h1.1, h2.2.trans h1.2⟩

/-- The two passes of UPDATE statements keep the OS tag and the key values. -/
theorem rewrites_keep (p : ParsedOval) (r : VulnRow) :
    (stateRewrite p.info_states (testRewrite p.info_tests r)).os = r.os ∧
      vulnKey (stateRewrite p.info_states (testRewrite p.info_tests r)) = vulnKey r :=
  ⟨((stateRewrite_keeps _ _).1).trans (testRewrite_keeps _ _).1,
   ((stateRewrite_keeps _ _).2).trans (testRewrite_keeps _ _).2⟩

theorem mem_newVulnRows (p : ParsedOval) (r : VulnRow) :
    r ∈ newVulnRows p ↔ ∃ v ∈ p.vulnerabilities, ∃ s, v.state_id = some s ∧
      r = { cve_id := v.cve_id, os := p.OS, package_name := v.package_name,
            pending := v.pending, state_id := some s, operation_value := none } := by
  unfold newVulnRows
  rw [List.mem_filterMap]
  constructor
  · rintro ⟨v, hv, h⟩
    refine ⟨v, hv, ?_⟩
    cases hs : v.state_id with
    | none => simp [hs] at h
    | some s => simp only [hs, Option.some.injEq] at h; exact ⟨s, rfl, h.symm⟩
  · rintro ⟨v, hv, s, hs, rfl⟩
    exact ⟨v, hv, by simp [hs]⟩

theorem newVulnRows_os (p : ParsedOval) : ∀ r ∈ newVulnRows p, r.os = p.OS := by
  intro r hr
  obtain ⟨v, _, s, _, rfl⟩ := (mem_newVulnRows p r).1 hr
  rfl

theorem newVulnRows_keys (p : ParsedOval) :
    (newVulnRows p).map vulnKey =
      (p.vulnerabilities.filter (fun v => v.state_id.isSome)).map
        (fun v => (v.cve_id, v.package_name, v.pending)) := by
  unfold newVulnRows
  induction p.vulnerabilities with
  | nil => rfl
  | cons v vs ih =>
    cases hs : v.state_id with
    | none => simp [List.filterMap_cons, List.filter_cons, hs, ih]
    | some s => simp [List.filterMap_cons, List.filter_cons, hs, ih, vulnKey]

theorem insertVuln_mem_transaction (p : ParsedOval) (r : VulnRow) :
    Stmt.insertVuln r ∈ transactionStmts p ↔ r ∈ newVulnRows p := by
  simp [transactionStmts, vulnStmts, testStmts, stateStmts, infoStmts, metaStmt]

/-- The rows of the OS of the feed after a refresh that returns 0. -/
theorem own_rows_after (p : ParsedOval) (cat : Catalog) :
    (afterTransaction p (afterDeletes p cat)).vulnerabilities.filter
        (fun r => decide (r.os = p.OS)) =
      (newVulnRows p).map
        (fun r => stateRewrite p.info_states (testRewrite p.info_tests r)) := by
  simp only [afterTransaction, afterDeletes, deleteInfoOS, deleteMetaOS, deleteVulnOS,
    List.map_append, List.filter_append]
  have h1 : (List.map (fun r => stateRewrite p.info_states (testRewrite p.info_tests r))
      (cat.vulnerabilities.filter (fun r => decide (r.os ≠ p.OS)))).filter
        (fun r => decide (r.os = p.OS)) = [] := by
    rw [List.filter_eq_nil_iff]
    intro r hr
    obtain ⟨r0, hr0, rfl⟩ := List.mem_map.1 hr
    have := (List.mem_filter.1 hr0).2
    simp only [decide_eq_true_eq] at this
    simp [(rewrites_keep p r0).1, this]
  have h2 : (List.map (fun r => stateRewrite p.info_states (testRewrite p.info_tests r))
      (newVulnRows p)).filter (fun r => decide (r.os = p.OS)) =
      List.map (fun r => stateRewrite p.info_states (testRewrite p.info_tests r))
        (newVulnRows p) := by
    rw [List.filter_eq_self]
    intro r hr
    obtain ⟨r0, hr0, rfl⟩ := List.mem_map.1 hr
    simp [(rewrites_keep p r0).1, newVulnRows_os p r0 hr0]
  rw [h1, h2, List.nil_append]

/-- The metadata table after a refresh that returns 0. -/
theorem metadata_after (p : ParsedOval) (cat : Catalog) :
    (afterTransaction p (afterDeletes p cat)).metadata =
      cat.metadata.filter (fun r => decide (r.os ≠ p.OS)) ++ [newMetaRow p] := rfl

/-- Claim C15: if every OS tag has at most one metadata row before the insert,
then after an insert that returns 0 every OS tag has at most one metadata row,
and the OS of the feed has exactly one, which carries the product name, the
product version, the schema version and the timestamp of the feed. -/
theorem metadata_unique (openOk : Bool) (ok : Nat → Bool) (cat : Catalog) (p : ParsedOval)
    (hcat : ∀ os : List Nat, (cat.metadata.filter (fun r => decide (r.os = os))).length ≤ 1)
    (h : (wm_vulnerability_detector_insert openOk ok cat p).1 = 0) :
    (∀ os : List Nat, ((wm_vulnerability_detector_insert openOk ok cat p).2.metadata.filter
        (fun r => decide (r.os = os))).length ≤ 1) ∧
    (wm_vulnerability_detector_insert openOk ok cat p).2.metadata.filter
        (fun r => decide (r.os = p.OS)) =
      [{ os := p.OS, product_name := p.metadata.product_name,
         product_version := p.metadata.product_version,
         schema_version := p.metadata.schema_version,
         timestamp := p.metadata.timestamp }] := by
  rw [insert_success openOk ok cat p h, metadata_after]
  have hown : (cat.metadata.filter (fun r => decide (r.os ≠ p.OS))).filter
      (fun r => decide (r.os = p.OS)) = [] := by
    rw [List.filter_eq_nil_iff]
    intro r hr
    have := (List.mem_filter.1 hr).2
    simp only [decide_eq_true_eq] at this
    simp [this]
  have hnew : (newMetaRow p).os = p.OS := rfl
  constructor
  · intro os
    by_cases hos : os = p.OS
    · subst hos
      simp [List.filter_append, hown, List.filter_cons, hnew]
    · have hne : ¬ (newMetaRow p).os = os := by rw [hnew]; exact fun e => hos e.symm
      simp only [List.filter_append, List.filter_cons, hne, decide_False, List.filter_nil,
        List.append_nil, Bool.false_eq_true, if_false]
      rw [List.filter_filter]
      refine le_trans ?_ (hcat os)
      apply List.Sublist.length_le
      apply List.monotone_filter_right
      intro r hr
      simp only [Bool.and_eq_true] at hr
      exact hr.1
  · simp [List.filter_append, hown, List.filter_cons, hnew, newMetaRow]

theorem metadata_unique_witness :
    (∀ os : List Nat, ((wm_vulnerability_detector_insert true (fun _ => true) filledCatalog
        xenialFeed).2.metadata.filter (fun r => decide (r.os = os))).length ≤ 1) ∧
    (wm_vulnerability_detector_insert true (fun _ => true) filledCatalog
        xenialFeed).2.metadata.filter (fun r => decide (r.os = xenialFeed.OS)) =
      [{ os := xenialFeed.OS, product_name := xenialFeed.metadata.product_name,
         product_version := xenialFeed.metadata.product_version,
         schema_version := xenialFeed.metadata.schema_version,
         timestamp := xenialFeed.metadata.timestamp }] :=
  metadata_unique true (fun _ => true) filledCatalog xenialFeed
    (by
      intro os
      by_cases h1 : cstr "XENIAL" = os
      · subst h1; decide
      · by_cases h2 : cstr "RHEL7" = os
        · subst h2; decide
        · simp [filledCatalog, List.filter_cons, h1, h2])
    (by decide)

/-- Claim C13: a call whose first statement after `BEGIN_T` fails returns
`OS_INVALID`, and the rows of the OS of the feed that the three tables held
before the call are gone: the DELETE statements ran before the transaction
began. -/
theorem failed_insert_loses_rows :
    wm_vulnerability_detector_insert true (fun k => decide (k ≠ 3)) filledCatalog xenialFeed =
      (OS_INVALID,
       { vulnerabilities :=
           filledCatalog.vulnerabilities.filter (fun r => decide (r.os ≠ cstr "XENIAL")),
         cve_info := [],
         metadata := filledCatalog.metadata.filter (fun r => decide (r.os ≠ cstr "XENIAL")),
         agents := [] }) ∧
    filledCatalog.vulnerabilities.filter (fun r => decide (r.os = cstr "XENIAL")) ≠ [] ∧
    filledCatalog.cve_info.filter (fun r => decide (r.os = cstr "XENIAL")) ≠ [] ∧
    filledCatalog.metadata.filter (fun r => decide (r.os = cstr "XENIAL")) ≠ [] := by
  decide

theorem testRewrite_foreign (tests : List InfoTest) (r : VulnRow)
    (h : ∀ t ∈ tests, matchesId r.state_id t.id = false) : testRewrite tests r = r := by
  induction tests with
  | nil => rfl
  | cons t ts ih =>
    have h1 : rewriteState (testState t) t.id r = r := by
      simp [rewriteState, h t (List.mem_cons_self _ _)]
    simp only [testRewrite, List.foldl_cons, h1]
    exact ih (fun t ht => h t (List.mem_cons_of_mem _ ht))

theorem stateRewrite_foreign (states : List InfoState) (r : VulnRow)
    (h : ∀ s ∈ states, matchesId r.state_id s.id = false) : stateRewrite states r = r := by
  induction states with
  | nil => rfl
  | cons t ts ih =>
    have h1 : rewriteOperation t.operation t.operation_value t.id r = r := by
      simp [rewriteOperation, h t (List.mem_cons_self _ _)]
    simp only [stateRewrite, List.foldl_cons, h1]
    exact ih (fun t ht => h t (List.mem_cons_of_mem _ ht))

theorem rewrites_foreign (p : ParsedOval) (r : VulnRow) (h : foreignTo p r) :
    stateRewrite p.info_states (testRewrite p.info_tests r) = r := by
  rw [testRewrite_foreign _ _ h.1, stateRewrite_foreign _ _ h.2]

/-- The rows of the other OS tags after the three DELETE statements. -/
theorem other_rows_deleted (p : ParsedOval) (cat : Catalog) :
    (afterDeletes p cat).vulnerabilities = cat.vulnerabilities.filter
        (fun r => decide (r.os ≠ p.OS)) ∧
    (afterDeletes p cat).cve_info = cat.cve_info.filter (fun r => decide (r.os ≠ p.OS)) ∧
    (afterDeletes p cat).metadata = cat.metadata.filter (fun r => decide (r.os ≠ p.OS)) :=
  ⟨rfl, rfl, rfl⟩

/-- The rows of the other OS tags after a refresh that returns 0, when they hold
no identifier of the feed. -/
theorem other_rows_after (p : ParsedOval) (cat : Catalog)
    (hf : ∀ r ∈ cat.vulnerabilities, r.os ≠ p.OS → foreignTo p r) :
    (afterTransaction p (afterDeletes p cat)).vulnerabilities.filter
        (fun r => decide (r.os ≠ p.OS)) =
      cat.vulnerabilities.filter (fun r => decide (r.os ≠ p.OS)) := by
  simp only [afterTransaction, afterDeletes, deleteInfoOS, deleteMetaOS, deleteVulnOS,
    List.map_append, List.filter_append]
  have h1 : List.map (fun r => stateRewrite p.info_states (testRewrite p.info_tests r))
      (cat.vulnerabilities.filter (fun r => decide (r.os ≠ p.OS))) =
        cat.vulnerabilities.filter (fun r => decide (r.os ≠ p.OS)) := by
    conv_rhs => rw [← List.map_id (cat.vulnerabilities.filter (fun r => decide (r.os ≠ p.OS)))]
    apply List.map_congr_left
    intro r hr
    have hr2 := List.mem_filter.1 hr
    simp only [decide_eq_true_eq] at hr2
    exact rewrites_foreign p r (hf r hr2.1 hr2.2)
  have h2 : (List.map (fun r => stateRewrite p.info_states (testRewrite p.info_tests r))
      (newVulnRows p)).filter (fun r => decide (r.os ≠ p.OS)) = [] := by
    rw [List.filter_eq_nil_iff]
    intro r hr
    obtain ⟨r0, hr0, rfl⟩ := List.mem_map.1 hr
    simp [(rewrites_keep p r0).1, newVulnRows_os p r0 hr0]
  rw [h1, h2, List.append_nil, List.filter_filter]
  simp

theorem other_info_after (p : ParsedOval) (cat : Catalog) :
    (afterTransaction p (afterDeletes p cat)).cve_info.filter
        (fun r => decide (r.os ≠ p.OS)) =
      cat.cve_info.filter (fun r => decide (r.os ≠ p.OS)) := by
  simp only [afterTransaction, afterDeletes, deleteInfoOS, deleteMetaOS, deleteVulnOS,
    List.filter_append, List.filter_filter]
  have h2 : (newInfoRows p).filter (fun r => decide (r.os ≠ p.OS)) = [] := by
    rw [List.filter_eq_nil_iff]
    intro r hr
    obtain ⟨i, _, rfl⟩ := List.mem_map.1 hr
    simp
  rw [h2]
  simp

theorem other_meta_after (p : ParsedOval) (cat : Catalog) :
    (afterTransaction p (afterDeletes p cat)).metadata.filter
        (fun r => decide (r.os ≠ p.OS)) =
      cat.metadata.filter (fun r => decide (r.os ≠ p.OS)) := by
  simp [afterTransaction, afterDeletes, deleteInfoOS, deleteMetaOS, deleteVulnOS,
    List.filter_append, List.filter_filter, List.filter_cons, newMetaRow]

/-- The committed content of every outcome of the insert. -/
theorem insert_outcomes (openOk : Bool) (ok : Nat → Bool) (cat : Catalog) (p : ParsedOval) :
    (wm_vulnerability_detector_insert openOk ok cat p).2 = cat ∨
    (wm_vulnerability_detector_insert openOk ok cat p).2 = deleteVulnOS p.OS cat ∨
    (wm_vulnerability_detector_insert openOk ok cat p).2 =
      deleteMetaOS p.OS (deleteVulnOS p.OS cat) ∨
    (wm_vulnerability_detector_insert openOk ok cat p).2 = afterDeletes p cat ∨
    (wm_vulnerability_detector_insert openOk ok cat p).2 =
      afterTransaction p (afterDeletes p cat) := by
  by_cases h : (wm_vulnerability_detector_insert openOk ok cat p).1 = 0
  · exact Or.inr (Or.inr (Or.inr (Or.inr (insert_success openOk ok cat p h))))
  · unfold wm_vulnerability_detector_insert at h ⊢
    split
    · exact Or.inl rfl
    · split
      · exact Or.inl rfl
      · split
        · exact Or.inr (Or.inl rfl)
        · split
          · exact Or.inr (Or.inr (Or.inl rfl))
          · rename_i h0 h1 h2 h3
            simp only [h0, h1, h2, h3, if_false] at h
            split
            · exact Or.inr (Or.inr (Or.inr (Or.inl rfl)))
            · rename_i c hc
              simp [hc] at h

/-- Claim C14 (counterexample): a row of Red Hat 7 that holds the identifier
of a test of the Xenial feed is rewritten by the refresh of Xenial. -/
theorem other_os_row_rewritten :
    (wm_vulnerability_detector_insert true (fun _ => true) clashCatalog
        xenialFeed).2.vulnerabilities.filter (fun r => decide (r.os ≠ xenialFeed.OS)) =
      [{ cve_id := some (cstr "CVE-2016-0002"), os := cstr "RHEL7",
         package_name := some (cstr "openssl"), pending := 0,
         state_id := some (cstr "less than"),
         operation_value := some (cstr "4.3-14ubuntu1.2") }] ∧
    (wm_vulnerability_detector_insert true (fun _ => true) clashCatalog
        xenialFeed).2.vulnerabilities.filter (fun r => decide (r.os ≠ xenialFeed.OS)) ≠
      clashCatalog.vulnerabilities.filter (fun r => decide (r.os ≠ xenialFeed.OS)) := by
  decide

/-- Claim C14 (amended): whatever fails or succeeds, the insert leaves the rows
of `cve_info` and of `metadata` whose OS differs from the OS of the feed
unchanged, and it leaves those of `vulnerabilities` unchanged when none of them
holds a `state_id` equal to the id of a test or of a state of the feed. -/
theorem other_os_rows_unchanged (openOk : Bool) (ok : Nat → Bool) (cat : Catalog)
    (p : ParsedOval)
    (hf : ∀ r ∈ cat.vulnerabilities, r.os ≠ p.OS →
      (∀ t ∈ p.info_tests, matchesId r.state_id t.id = false) ∧
      (∀ s ∈ p.info_states, matchesId r.state_id s.id = false)) :
    (wm_vulnerability_detector_insert openOk ok cat p).2.vulnerabilities.filter
        (fun r => decide (r.os ≠ p.OS)) =
      cat.vulnerabilities.filter (fun r => decide (r.os ≠ p.OS)) ∧
    (wm_vulnerability_detector_insert openOk ok cat p).2.cve_info.filter
        (fun r => decide (r.os ≠ p.OS)) =
      cat.cve_info.filter (fun r => decide (r.os ≠ p.OS)) ∧
    (wm_vulnerability_detector_insert openOk ok cat p).2.metadata.filter
        (fun r => decide (r.os ≠ p.OS)) =
      cat.metadata.filter (fun r => decide (r.os ≠ p.OS)) := by
  rcases insert_outcomes openOk ok cat p with h | h | h | h | h <;> rw [h]
  · exact ⟨rfl, rfl, rfl⟩
  · simp [deleteVulnOS, List.filter_filter]
  · simp [deleteVulnOS, deleteMetaOS, List.filter_filter]
  · simp [afterDeletes, deleteVulnOS, deleteMetaOS, deleteInfoOS, List.filter_filter]
  · exact ⟨other_rows_after p cat hf, other_info_after p cat, other_meta_after p cat⟩

theorem other_os_rows_unchanged_witness :
    (wm_vulnerability_detector_insert true (fun _ => true) filledCatalog
        xenialFeed).2.vulnerabilities.filter (fun r => decide (r.os ≠ xenialFeed.OS)) =
      filledCatalog.vulnerabilities.filter (fun r => decide (r.os ≠ xenialFeed.OS)) ∧
    (wm_vulnerability_detector_insert true (fun _ => true) filledCatalog
        xenialFeed).2.cve_info.filter (fun r => decide (r.os ≠ xenialFeed.OS)) =
      filledCatalog.cve_info.filter (fun r => decide (r.os ≠ xenialFeed.OS)) ∧
    (wm_vulnerability_detector_insert true (fun _ => true) filledCatalog
        xenialFeed).2.metadata.filter (fun r => decide (r.os ≠ xenialFeed.OS)) =
      filledCatalog.metadata.filter (fun r => decide (r.os ≠ xenialFeed.OS)) :=
  other_os_rows_unchanged true (fun _ => true) filledCatalog xenialFeed (by decide)

/-- Claim C16 (counterexample): with a row of another OS that holds the id
of a test whose state is again the id of a test, the second run rewrites
the row once more. -/
theorem second_run_differs :
    (wm_vulnerability_detector_insert true (fun _ => true) clashCatalog chainFeed).1 = 0 ∧
    (wm_vulnerability_detector_insert true (fun _ => true)
        (wm_vulnerability_detector_insert true (fun _ => true) clashCatalog chainFeed).2
        chainFeed).1 = 0 ∧
    (wm_vulnerability_detector_insert true (fun _ => true)
        (wm_vulnerability_detector_insert true (fun _ => true) clashCatalog chainFeed).2
        chainFeed).2 ≠
      (wm_vulnerability_detector_insert true (fun _ => true) clashCatalog chainFeed).2 := by
  decide

/-- Claim C16 (amended): when no row of another OS holds a `state_id` equal
to the id of a test or of a state of the feed, two runs of the insert with
the same parsed content that both return 0 leave the same catalog content as
the first one alone. -/
theorem insert_twice (ok1 ok2 : Nat → Bool) (open1 open2 : Bool) (cat : Catalog)
    (p : ParsedOval)
    (hf : ∀ r ∈ cat.vulnerabilities, r.os ≠ p.OS →
      (∀ t ∈ p.info_tests, matchesId r.state_id t.id = false) ∧
      (∀ s ∈ p.info_states, matchesId r.state_id s.id = false))
    (h1 : (wm_vulnerability_detector_insert open1 ok1 cat p).1 = 0)
    (h2 : (wm_vulnerability_detector_insert open2 ok2
      (wm_vulnerability_detector_insert open1 ok1 cat p).2 p).1 = 0) :
    (wm_vulnerability_detector_insert open2 ok2
      (wm_vulnerability_detector_insert open1 ok1 cat p).2 p).2 =
    (wm_vulnerability_detector_insert open1 ok1 cat p).2 := by
  rw [insert_success open2 ok2 _ p h2]
  rw [insert_success open1 ok1 cat p h1] at *
  have hd : afterDeletes p (afterTransaction p (afterDeletes p cat)) = afterDeletes p cat := by
    have e1 := other_rows_after p cat hf
    have e2 := other_info_after p cat
    have e3 := other_meta_after p cat
    have d := other_rows_deleted p cat
    have d2 := other_rows_deleted p (afterTransaction p (afterDeletes p cat))
    have ha : (afterDeletes p (afterTransaction p (afterDeletes p cat))).agents =
        (afterDeletes p cat).agents := rfl
    cases hx : afterDeletes p (afterTransaction p (afterDeletes p cat)) with
    | mk v i m a =>
      cases hy : afterDeletes p cat with
      | mk v2 i2 m2 a2 =>
        rw [hx] at d2 ha
        rw [hy] at d ha
        simp only at d d2 ha
        rw [e1] at d2
        rw [e2, e3] at d2
        simp only [Catalog.mk.injEq]
        exact ⟨d2.1.trans d.1.symm, d2.2.1.trans d.2.1.symm, d2.2.2.trans d.2.2.symm, ha⟩
  rw [hd]

theorem insert_twice_witness :
    (wm_vulnerability_detector_insert true (fun _ => true)
      (wm_vulnerability_detector_insert true (fun _ => true) filledCatalog xenialFeed).2
      xenialFeed).2 =
    (wm_vulnerability_detector_insert true (fun _ => true) filledCatalog xenialFeed).2 :=
  insert_twice (fun _ => true) (fun _ => true) true true filledCatalog xenialFeed
    (by decide) (by decide) (by decide)

theorem matchesId_some (a : List Nat) (id : Option (List Nat)) :
    matchesId (some a) id = true ↔ id = some a := by
  cases id with
  | none => simp [matchesId]
  | some b => simp [matchesId, eq_comm]

/-- The pass of the tests on a row that holds the id of a test. -/
theorem testRewrite_resolve (t s : List Nat) (tests : List InfoTest) (r : VulnRow)
    (hr : r.state_id = some t)
    (hT : ∃ T ∈ tests, T.id = some t)
    (hTs : ∀ T ∈ tests, T.id = some t → T.state = some s)
    (hTn : ∀ T ∈ tests, matchesId (some s) T.id = false) :
    testRewrite tests r = { r with state_id := some s } := by
  induction tests with
  | nil => obtain ⟨T, hmem, _⟩ := hT; cases hmem
  | cons T ts ih =>
    by_cases hid : T.id = some t
    · have h1 : rewriteState (testState T) T.id r = { r with state_id := some s } := by
        have hm : matchesId r.state_id T.id = true := by rw [hr, matchesId_some]; exact hid
        simp [rewriteState, hm, testState, hTs T (List.mem_cons_self _ _) hid]
      simp only [testRewrite, List.foldl_cons, h1]
      exact testRewrite_foreign ts _ (fun T2 h2 => hTn T2 (List.mem_cons_of_mem _ h2))
    · have hm : matchesId r.state_id T.id = false := by
        rw [hr]
        cases hb : matchesId (some t) T.id with
        | false => rfl
        | true => exact absurd ((matchesId_some t T.id).1 hb) hid
      have h1 : rewriteState (testState T) T.id r = r := by simp [rewriteState, hm]
      simp only [testRewrite, List.foldl_cons, h1]
      apply ih
      · obtain ⟨T2, hmem, h2⟩ := hT
        rcases List.mem_cons.1 hmem with e | e
        · subst e; exact absurd h2 hid
        · exact ⟨T2, e, h2⟩
      · exact fun T2 h2 => hTs T2 (List.mem_cons_of_mem _ h2)
      · exact fun T2 h2 => hTn T2 (List.mem_cons_of_mem _ h2)

/-- The pass of the states on a row that holds the id of a state. -/
theorem stateRewrite_resolve (s : List Nat) (op opv : Option (List Nat))
    (states : List InfoState) (r : VulnRow)
    (hr : r.state_id = some s)
    (hS : ∃ S ∈ states, S.id = some s)
    (hSs : ∀ S ∈ states, S.id = some s → S.operation = op ∧ S.operation_value = opv)
    (hSn : ∀ S ∈ states, matchesId op S.id = false) :
    stateRewrite states r = { r with state_id := op, operation_value := opv } := by
  induction states with
  | nil => obtain ⟨S, hmem, _⟩ := hS; cases hmem
  | cons S ss ih =>
    by_cases hid : S.id = some s
    · have h1 : rewriteOperation S.operation S.operation_value S.id r =
          { r with state_id := op, operation_value := opv } := by
        have hm : matchesId r.state_id S.id = true := by rw [hr, matchesId_some]; exact hid
        have := hSs S (List.mem_cons_self _ _) hid
        simp [rewriteOperation, hm, this.1, this.2]
      simp only [stateRewrite, List.foldl_cons, h1]
      exact stateRewrite_foreign ss _ (fun S2 h2 => hSn S2 (List.mem_cons_of_mem _ h2))
    · have hm : matchesId r.state_id S.id = false := by
        rw [hr]
        cases hb : matchesId (some s) S.id with
        | false => rfl
        | true => exact absurd ((matchesId_some s S.id).1 hb) hid
      have h1 : rewriteOperation S.operation S.operation_value S.id r = r := by
        simp [rewriteOperation, hm]
      simp only [stateRewrite, List.foldl_cons, h1]
      apply ih
      · obtain ⟨S2, hmem, h2⟩ := hS
        rcases List.mem_cons.1 hmem with e | e
        · subst e; exact absurd h2 hid
        · exact ⟨S2, e, h2⟩
      · exact fun S2 h2 => hSs S2 (List.mem_cons_of_mem _ h2)
      · exact fun S2 h2 => hSn S2 (List.mem_cons_of_mem _ h2)

/-- Claim C12 (counterexample): the feed has the test `tst:10` with the state
`ste:10` and the state `ste:10` with ("less than", "4.3-14ubuntu1.2"); after
the insert the row of the vulnerability that referenced `tst:10` holds
"less than" in its `state_id` column, and no row holds `ste:10`. -/
theorem state_id_overwritten :
    (wm_vulnerability_detector_insert true (fun _ => true) filledCatalog xenialFeed).1 = 0 ∧
    (wm_vulnerability_detector_insert true (fun _ => true) filledCatalog
        xenialFeed).2.vulnerabilities.filter (fun r => decide (r.os = cstr "XENIAL")) =
      [{ cve_id := some (cstr "CVE-2017-1000"), os := cstr "XENIAL",
         package_name := some (cstr "bash"), pending := 0,
         state_id := some (cstr "less than"),
         operation_value := some (cstr "4.3-14ubuntu1.2") }] ∧
    ∀ r ∈ (wm_vulnerability_detector_insert true (fun _ => true) filledCatalog
        xenialFeed).2.vulnerabilities, r.state_id ≠ some (cstr "ste:10") := by
  decide

/-- Claim C12 (amended): let the feed have a test with id `t`, all tests
with id `t` refer to the state `s`, and no test have the id `s`; let it have
a state with id `s`, all states with id `s` carry (`op`, `opv`), and no state
have an id equal to `op`. After an insert that returns 0, every vulnerability
of the feed that referenced `t` is stored with `op` in its `state_id` column and
`opv` in its `operation_value` column. -/
theorem test_state_resolution (openOk : Bool) (ok : Nat → Bool) (cat : Catalog)
    (p : ParsedOval) (t s : List Nat) (op opv : Option (List Nat))
    (hT : ∃ T ∈ p.info_tests, T.id = some t)
    (hTs : ∀ T ∈ p.info_tests, T.id = some t → T.state = some s)
    (hTn : ∀ T ∈ p.info_tests, matchesId (some s) T.id = false)
    (hS : ∃ S ∈ p.info_states, S.id = some s)
    (hSs : ∀ S ∈ p.info_states, S.id = some s → S.operation = op ∧ S.operation_value = opv)
    (hSn : ∀ S ∈ p.info_states, matchesId op S.id = false)
    (h : (wm_vulnerability_detector_insert openOk ok cat p).1 = 0) :
    ∀ v ∈ p.vulnerabilities, v.state_id = some t →
      { cve_id := v.cve_id, os := p.OS, package_name := v.package_name,
        pending := v.pending, state_id := op, operation_value := opv } ∈
        (wm_vulnerability_detector_insert openOk ok cat p).2.vulnerabilities := by
  intro v hv hvt
  rw [insert_success openOk ok cat p h]
  simp only [afterTransaction, List.map_append, List.mem_append]
  right
  rw [List.mem_map]
  refine ⟨{ cve_id := v.cve_id, os := p.OS, package_name := v.package_name,
            pending := v.pending, state_id := some t, operation_value := none },
          (mem_newVulnRows p _).2 ⟨v, hv, t, hvt, rfl⟩, ?_⟩
  rw [testRewrite_resolve t s p.info_tests _ rfl hT hTs hTn,
    stateRewrite_resolve s op opv p.info_states _ rfl hS hSs hSn]

theorem test_state_resolution_witness :
    ({ cve_id := some (cstr "CVE-2017-1000"), os := cstr "XENIAL",
       package_name := some (cstr "bash"), pending := 0,
       state_id := some (cstr "less than"),
       operation_value := some (cstr "4.3-14ubuntu1.2") } : VulnRow) ∈
      (wm_vulnerability_detector_insert true (fun _ => true) filledCatalog
        xenialFeed).2.vulnerabilities :=
  test_state_resolution true (fun _ => true) filledCatalog xenialFeed (cstr "tst:10")
    (cstr "ste:10") (some (cstr "less than")) (some (cstr "4.3-14ubuntu1.2"))
    (by decide) (by decide) (by decide) (by decide) (by decide) (by decide) (by decide)
    { cve_id := some (cstr "CVE-2017-1000"), state_id := some (cstr "tst:10"),
      package_name := some (cstr "bash"), pending := 0 }
    (by decide) rfl

/-! ## Facts about the refresh -/

/-- Claim C17: when the parser returns an error for the document, or the
preparser gives no file, `wm_vulnerability_update_oval` returns `OS_INVALID`
and the catalog holds exactly the rows it held before, in every table. -/
theorem rejected_feed_keeps_catalog (T : OsTags) (version : cve_db) (env : FeedSteps)
    (cat : Catalog) (h : env.parsed = none ∨ env.preparsed = false) :
    wm_vulnerability_update_oval T version env cat = (OS_INVALID, cat) := by
  unfold wm_vulnerability_update_oval
  cases versionTag T version with
  | none => rfl
  | some tv =>
    obtain ⟨tag, d⟩ := tv
    simp only
    rcases h with h | h
    · simp [h]
    · simp [h]

theorem rejected_feed_keeps_catalog_witness :
    wm_vulnerability_update_oval sampleTags cve_db.XENIAL rejectedSteps filledCatalog =
      (OS_INVALID, filledCatalog) :=
  rejected_feed_keeps_catalog sampleTags cve_db.XENIAL rejectedSteps filledCatalog
    (Or.inl rfl)

/-! ## Facts about the fetcher -/

/-- The loop over a stored timestamp that equals the text read from the buffer
up to the separators leaves `update` at 1. -/
theorem timestampLoop_same (timst : List Nat) :
    ∀ (s f : List Nat) (i : Nat), sameUpToSep s f = true →
      (∀ k, k < f.length → timst.get? (i + k) = f.get? k) →
      timestampLoop timst s i = some true := by
  intro s
  induction s with
  | nil => intro f i _ _; rfl
  | cons a as ih =>
    intro f i hs hrd
    cases f with
    | nil => simp [sameUpToSep] at hs
    | cons b bs =>
      simp only [sameUpToSep, Bool.and_eq_true, Bool.or_eq_true, beq_iff_eq] at hs
      have hrest : timestampLoop timst as (i + 1) = some true := by
        apply ih bs (i + 1) hs.2
        intro k hk
        have := hrd (k + 1) (by simp only [List.length_cons]; omega)
        simpa [Nat.add_assoc, Nat.add_comm 1 k] using this
      unfold timestampLoop
      by_cases hsep : isTimeSep a = true
      · simp only [hsep, if_true]
        exact hrest
      · have hab : a = b := by
          rcases hs.1 with h | h
          · exact absurd h.1 hsep
          · exact h
        subst hab
        have h0 := hrd 0 (by simp)
        simp only [Nat.add_zero, List.get?_cons_zero] at h0
        simp only [hsep, h0, lt_irrefl, if_false]
        exact hrest

/-- The bytes before the closing tag are not touched by `*close_tag = 0`. -/
theorem get_set_take (timst : List Nat) (close k : Nat) (hk : k < (timst.take close).length) :
    (timst.set close 0).get? (0 + k) = (timst.take close).get? k := by
  have h1 : k < close := by
    have := List.length_take_le close timst
    omega
  simp only [Nat.zero_add, List.get?_eq_getElem?]
  rw [List.getElem?_set_ne (by omega), List.getElem?_take_of_lt h1]

/-- The chunks without the tag only count up `attemps`. -/
theorem fetchLoop_skip (K : Consts) (B : FetchConsts) (env : FetchSteps) (cat : Catalog)
    (os : List Nat) (rest : List (List Nat)) :
    ∀ (pre : List (List Nat)) (a : Int),
      (∀ c ∈ pre, strstr (readBuffer B c) (cstr "timestamp>") = none) →
      0 ≤ a → a + pre.length < B.VU_MAX_TIMESTAMP_ATTEMPS →
      fetchLoop K B env cat os (pre ++ rest) false a =
        fetchLoop K B env cat os rest false (a + pre.length) := by
  intro pre
  induction pre with
  | nil => intro a _ _ _; simp
  | cons c cs ih =>
    intro a hpre ha hlt
    simp only [List.length_cons, Nat.cast_add, Nat.cast_one] at hlt
    have hne : ¬ a + 1 = B.VU_MAX_TIMESTAMP_ATTEMPS := by
      have : (0 : Int) ≤ (cs.length : Int) := Int.natCast_nonneg _
      omega
    simp only [List.cons_append, fetchLoop, Bool.false_eq_true, if_false,
      hpre c (List.mem_cons_self _ _), hne, List.append_eq]
    rw [ih (a + 1) (fun c2 h2 => hpre c2 (List.mem_cons_of_mem _ h2)) (by omega) (by omega)]
    simp only [List.length_cons, Nat.cast_add, Nat.cast_one]
    congr 1
    omega

/-- Claim C18: the stored timestamp is the first of February 2018, that of
the feed the ninth of January 2018, in the same layout. The stored one is not
strictly older, yet the fetcher returns with `need_update` at 1: the loop goes
on after the month and stops at the day, where the stored digit is the
smaller one. -/
theorem newer_stored_timestamp_is_refetched :
    wm_vulnerability_fetch_oval sampleConsts sampleFetchConsts sampleTags cve_db.XENIAL
        (goodFetch [cstr "<oval:timestamp>2018-01-09T00:00:00</oval:timestamp>"])
        (stampedCatalog (cstr "2018-02-01T00:00:00")) = Fetched.ret 0 1 ∧
    strictlyOlder (cstr "2018-02-01T00:00:00") (cstr "2018-01-09T00:00:00") = false := by
  decide

/-- Claim C19 (counterexample): the feed carries the stored timestamp itself,
but the read that delivers the tag ends before the closing `<`. The fetcher
leaves `need_update` at 1 and the update of the catalog runs. -/
theorem split_timestamp_is_refetched :
    wm_vulnerability_fetch_oval sampleConsts sampleFetchConsts sampleTags cve_db.XENIAL
        (goodFetch [cstr "<oval:timestamp>2018-01-09T0", cstr "0:00:00</oval:timestamp>"])
        (stampedCatalog (cstr "2018-01-09T00:00:00")) = Fetched.ret 0 1 ∧
    refreshFails sampleConsts sampleFetchConsts sampleTags cve_db.XENIAL
        (goodFetch [cstr "<oval:timestamp>2018-01-09T0", cstr "0:00:00</oval:timestamp>"])
        (goodSteps xenialFeed) (stampedCatalog (cstr "2018-01-09T00:00:00")) =
      some (false, (wm_vulnerability_update_oval sampleTags cve_db.XENIAL (goodSteps xenialFeed)
        (stampedCatalog (cstr "2018-01-09T00:00:00"))).2) ∧
    (wm_vulnerability_update_oval sampleTags cve_db.XENIAL (goodSteps xenialFeed)
        (stampedCatalog (cstr "2018-01-09T00:00:00"))).2 ≠
      stampedCatalog (cstr "2018-01-09T00:00:00") := by
  decide

/-- Claim C19 (amended): let the connection, the opening of the catalog and
the query succeed, let the tag `timestamp>` show up in one of the first
`VU_MAX_TIMESTAMP_ATTEMPS` chunks and that chunk also hold the closing `<`, and
let the stored timestamp of the OS, as copied into the `KEY_SIZE` array, have the
layout of the text between them and equal it up to the separators. Then the
fetcher returns 0 with `need_update` at 0, and the condition of the update is
false with the catalog unchanged, whatever `wm_vulnerability_update_oval`
would do. -/
theorem equal_timestamp_no_write (K : Consts) (B : FetchConsts) (T : OsTags) (version d : cve_db)
    (os : List Nat) (fe : FetchSteps) (cat : Catalog) (pre rest : List (List Nat))
    (chunk timst stored : List Nat) (tag close : Nat)
    (hv : versionTag T version = some (os, d))
    (hc : fe.connected = true) (hdb : fe.dbOpen = true) (hp : fe.prepared = true)
    (hchunks : fe.chunks = pre ++ chunk :: rest)
    (hpre : ∀ c ∈ pre, strstr (readBuffer B c) (cstr "timestamp>") = none)
    (hatt : (pre.length : Int) < B.VU_MAX_TIMESTAMP_ATTEMPS)
    (htag : strstr (readBuffer B chunk) (cstr "timestamp>") = some tag)
    (htxt : timestampText (readBuffer B chunk) tag = (timst, some close))
    (hrow : storedTimestamp cat os = some (some stored))
    (heq : sameUpToSep (copied K stored) (timst.take close) = true) :
    wm_vulnerability_fetch_oval K B T version fe cat = Fetched.ret 0 0 ∧
    ∀ ue : FeedSteps, refreshFails K B T version fe ue cat = some (false, cat) := by
  have hloop : timestampLoop (timst.set close 0) (copied K stored) 0 = some true :=
    timestampLoop_same _ _ _ 0 heq (fun k hk => get_set_take timst close k hk)
  have hchk : checkTimestamp K fe cat os (readBuffer B chunk) tag = Checked.update true := by
    simp [checkTimestamp, hdb, hp, hrow, htxt, hloop]
  have hfetch : wm_vulnerability_fetch_oval K B T version fe cat = Fetched.ret 0 0 := by
    unfold wm_vulnerability_fetch_oval
    simp only [hv, hc, hchunks, Bool.true_eq_false, if_false]
    rw [fetchLoop_skip K B fe cat os (chunk :: rest) pre 0 hpre (le_refl 0) (by simpa using hatt)]
    simp [fetchLoop, htag, hchk]
  refine ⟨hfetch, fun ue => ?_⟩
  simp [refreshFails, hfetch]

theorem equal_timestamp_no_write_witness :
    wm_vulnerability_fetch_oval sampleConsts sampleFetchConsts sampleTags cve_db.XENIAL
        (goodFetch [cstr "HTTP/1.1 200 OK",
          cstr "<oval:timestamp>2018-01-09T00:00:00</oval:timestamp>"])
        (stampedCatalog (cstr "2018-01-09 00:00:00")) = Fetched.ret 0 0 ∧
    ∀ ue : FeedSteps, refreshFails sampleConsts sampleFetchConsts sampleTags cve_db.XENIAL
        (goodFetch [cstr "HTTP/1.1 200 OK",
          cstr "<oval:timestamp>2018-01-09T00:00:00</oval:timestamp>"])
        ue (stampedCatalog (cstr "2018-01-09 00:00:00")) =
      some (false, stampedCatalog (cstr "2018-01-09 00:00:00")) :=
  equal_timestamp_no_write sampleConsts sampleFetchConsts sampleTags cve_db.XENIAL cve_db.UBUNTU
    (cstr "XENIAL")
    (goodFetch [cstr "HTTP/1.1 200 OK",
      cstr "<oval:timestamp>2018-01-09T00:00:00</oval:timestamp>"])
    (stampedCatalog (cstr "2018-01-09 00:00:00"))
    [cstr "HTTP/1.1 200 OK"] []
    (cstr "<oval:timestamp>2018-01-09T00:00:00</oval:timestamp>")
    ((readBuffer sampleFetchConsts
      (cstr "<oval:timestamp>2018-01-09T00:00:00</oval:timestamp>")).drop 16)
    (cstr "2018-01-09 00:00:00") 6 19
    (by decide) (by decide) (by decide) (by decide) (by decide) (by decide) (by decide)
    (by decide) (by decide) (by decide) (by decide)

/-! ## Facts about the preparser -/

theorem filterLines_append (step : parser_state → List Nat → parser_state × Bool) :
    ∀ (a b : List (List Nat)) (s : parser_state),
      filterLines step s (a ++ b) =
        ((filterLines step s a).1 ++ (filterLines step (filterLines step s a).2 b).1,
         (filterLines step (filterLines step s a).2 b).2) := by
  intro a
  induction a with
  | nil => intro b s; simp [filterLines]
  | cons l ls ih =>
    intro b s
    simp only [List.cons_append, filterLines]
    split
    · simp [ih]
    · simp [ih]

/-- Inside the objects block of the Ubuntu branch nothing is written as long
as no line holds the closing tag. -/
theorem ubuntu_inside_objects :
    ∀ mid : List (List Nat), (∀ l ∈ mid, found l "</objects>" = false) →
      filterLines ubuntuStep parser_state.V_OBJECTS mid = ([], parser_state.V_OBJECTS) := by
  intro mid
  induction mid with
  | nil => intro _; rfl
  | cons l ls ih =>
    intro h
    have h1 : ubuntuStep parser_state.V_OBJECTS l = (parser_state.V_OBJECTS, false) := by
      simp [ubuntuStep, h l (List.mem_cons_self _ _)]
    simp only [filterLines, h1, Bool.false_eq_true, if_false]
    exact ih (fun l2 h2 => h l2 (List.mem_cons_of_mem _ h2))

/-- Claim C20 (counterexample): a line with `<objects>` that is read inside
the definitions section is written to the output, and so are the lines after it
up to the line with `</objects>`. -/
theorem objects_inside_definitions_kept :
    wm_vulnerability_detector_preparser cve_db.UBUNTU
        (some [cstr "<definitions>\n", cstr "<objects>\n", cstr "<foo/>\n",
               cstr "</objects>\n", cstr "</definitions>\n"]) true =
      Prepared.file [cstr "<definitions>\n", cstr "<objects>\n", cstr "<foo/>\n",
                     cstr "</objects>\n", cstr "</definitions>\n"] := by
  decide

/-- Claim C20 (amended): when the Ubuntu preparser reads a line containing
`<objects>` in its initial state (outside the definitions section and outside
an open objects block), neither that line nor any line up to and including
the next line containing `</objects>` is written; the output is that of the
lines before followed by that of the lines after. -/
theorem ubuntu_objects_block_dropped (pre mid post : List (List Nat)) (o c : List Nat)
    (hst : (filterLines ubuntuStep parser_state.V_OVALDEFINITIONS pre).2 =
      parser_state.V_OVALDEFINITIONS)
    (ho : found o "<objects>" = true)
    (hmid : ∀ l ∈ mid, found l "</objects>" = false)
    (hc : found c "</objects>" = true) :
    wm_vulnerability_detector_preparser cve_db.UBUNTU (some (pre ++ o :: (mid ++ c :: post)))
        true =
      Prepared.file ((filterLines ubuntuStep parser_state.V_OVALDEFINITIONS pre).1 ++
        (filterLines ubuntuStep parser_state.V_OVALDEFINITIONS post).1) := by
  have h1 : ubuntuStep parser_state.V_OVALDEFINITIONS o = (parser_state.V_OBJECTS, false) := by
    simp [ubuntuStep, ho]
  have h2 : ubuntuStep parser_state.V_OBJECTS c = (parser_state.V_OVALDEFINITIONS, false) := by
    simp [ubuntuStep, hc]
  simp only [wm_vulnerability_detector_preparser, Bool.true_eq_false, if_false, if_true]
  rw [filterLines_append, hst]
  simp only [filterLines, h1, Bool.false_eq_true, if_false]
  rw [filterLines_append, ubuntu_inside_objects mid hmid]
  simp only [filterLines, h2, Bool.false_eq_true, if_false, List.nil_append]

theorem ubuntu_objects_block_dropped_witness :
    wm_vulnerability_detector_preparser cve_db.UBUNTU
        (some ([cstr "<generator>\n"] ++ cstr "<objects>\n" ::
          ([cstr "<foo/>\n"] ++ cstr "</objects>\n" ::
            [cstr "<definitions>\n", cstr "</definitions>\n"]))) true =
      Prepared.file ((filterLines ubuntuStep parser_state.V_OVALDEFINITIONS
          [cstr "<generator>\n"]).1 ++
        (filterLines ubuntuStep parser_state.V_OVALDEFINITIONS
          [cstr "<definitions>\n", cstr "</definitions>\n"]).1) :=
  ubuntu_objects_block_dropped [cstr "<generator>\n"] [cstr "<foo/>\n"]
    [cstr "<definitions>\n", cstr "</definitions>\n"] (cstr "<objects>\n") (cstr "</objects>\n")
    (by decide) (by decide) (by decide) (by decide)

/-! ## The split of the release -/

theorem strchr_index (pre s t : List Nat) (c : Nat) (hs : ∀ d ∈ s, d ≠ 0) (hc : c ∈ s) :
    strchr (pre ++ s ++ 0 :: t) pre.length c = some (pre.length + s.indexOf c) := by
  unfold strchr
  simp only [cstrAt_shape pre s t hs]
  simp [List.indexOf_lt_length.mpr hc]

theorem splitChar_mem (s : List Nat) (h : s.any isSep = true) : splitChar s ∈ s := by
  unfold splitChar
  by_cases h1 : 126 ∈ s
  · simp [h1]
  · by_cases h2 : 45 ∈ s
    · simp [h1, h2]
    · simp only [h1, h2, if_false]
      rw [List.any_eq_true] at h
      obtain ⟨c, hc, hsep⟩ := h
      simp only [isSep, Bool.or_eq_true, beq_iff_eq] at hsep
      rcases hsep with (h3 | h3) | h3
      · exact absurd (h3 ▸ hc) h1
      · exact absurd (h3 ▸ hc) h2
      · exact h3 ▸ hc

theorem findSep_index (pre s t : List Nat) (hs : ∀ d ∈ s, d ≠ 0) (h : s.any isSep = true) :
    findSep (pre ++ s ++ 0 :: t) pre.length = some (pre.length + s.indexOf (splitChar s)) := by
  unfold findSep splitChar
  by_cases h1 : 126 ∈ s
  · rw [strchr_index pre s t 126 hs h1]
    simp [h1]
  · rw [strchr_absent pre s t 126 hs h1]
    by_cases h2 : 45 ∈ s
    · rw [strchr_index pre s t 45 hs h2]
      simp [h1, h2]
    · rw [strchr_absent pre s t 45 hs h2]
      have h3 : 43 ∈ s := by
        have := splitChar_mem s h
        simpa [splitChar, h1, h2] using this
      rw [strchr_index pre s t 43 hs h3]
      simp [h1, h2]

theorem findSep_none (pre s t : List Nat) (hs : ∀ d ∈ s, d ≠ 0) (h : s.any isSep = false) :
    findSep (pre ++ s ++ 0 :: t) pre.length = none := by
  apply findSep_absent pre s t hs
  intro c hc
  rw [List.any_eq_false] at h
  simpa using h c hc

/-- Lines 159-177 on a buffer that holds the text `s` at `version_it`: the
buffer and `version_it2` they leave. -/
theorem splitRelease_parts (pre s t : List Nat) (hs : ∀ d ∈ s, d ≠ 0) :
    ∃ t2, splitRelease (pre ++ s ++ 0 :: t) pre.length =
      some (pre ++ upstreamOf s ++ 0 :: t2,
        if releaseOf s = [] then none else some (pre.length + (upstreamOf s).length + 1)) ∧
      (releaseOf s ≠ [] → ∃ t3, t2 = releaseOf s ++ 0 :: t3) := by
  by_cases h : s.any isSep = true
  · have hk : s.indexOf (splitChar s) < s.length := List.indexOf_lt_length.mpr (splitChar_mem s h)
    refine ⟨s.drop (s.indexOf (splitChar s) + 1) ++ 0 :: t, ?_, ?_⟩
    · unfold splitRelease
      rw [findSep_index pre s t hs h]
      have hset : (pre ++ s ++ 0 :: t).set (pre.length + s.indexOf (splitChar s)) 0 =
          pre ++ s.take (s.indexOf (splitChar s)) ++
            0 :: (s.drop (s.indexOf (splitChar s) + 1) ++ 0 :: t) := by
        rw [List.append_assoc, List.set_append_right _ _ (Nat.le_add_right _ _)]
        simp only [Nat.add_sub_cancel_left]
        rw [List.set_append_left _ _ hk, List.set_eq_take_append_cons_drop]
        simp [hk]
      simp only [hset, upstreamOf, releaseOf, h, if_true]
      have hlen : (s.take (s.indexOf (splitChar s))).length = s.indexOf (splitChar s) := by
        rw [List.length_take]; omega
      have hget : (pre ++ s.take (s.indexOf (splitChar s)) ++
          0 :: (s.drop (s.indexOf (splitChar s) + 1) ++ 0 :: t))[pre.length +
            s.indexOf (splitChar s) + 1]? =
          (s.drop (s.indexOf (splitChar s) + 1) ++ 0 :: t)[0]? := by
        have e : pre.length + s.indexOf (splitChar s) + 1 =
            (pre ++ s.take (s.indexOf (splitChar s)) ++ [0]).length + 0 := by
          simp only [List.length_append, List.length_singleton, hlen, Nat.add_zero]
        have e2 : pre ++ s.take (s.indexOf (splitChar s)) ++
            0 :: (s.drop (s.indexOf (splitChar s) + 1) ++ 0 :: t) =
            (pre ++ s.take (s.indexOf (splitChar s)) ++ [0]) ++
              (s.drop (s.indexOf (splitChar s) + 1) ++ 0 :: t) := by simp
        rw [e2, e, List.getElem?_append_right (Nat.le_add_right _ _)]
        simp
      rw [hget]
      cases hd : s.drop (s.indexOf (splitChar s) + 1) with
      | nil => simp
      | cons r rs =>
        have hr : r ≠ 0 := hs r (List.mem_of_mem_drop (by rw [hd]; simp))
        simp [hr, hlen]
    · intro _
      simp only [releaseOf, h, if_true]
      exact ⟨t, rfl⟩
  · have h2 : s.any isSep = false := by simpa using h
    refine ⟨t, ?_, ?_⟩
    · unfold splitRelease
      rw [findSep_none pre s t hs h2]
      simp [upstreamOf, releaseOf, h2]
    · intro hne
      simp [releaseOf, h2] at hne

theorem upstreamOf_ne_zero (s : List Nat) (hs : ∀ d ∈ s, d ≠ 0) : ∀ d ∈ upstreamOf s, d ≠ 0 := by
  intro d hd
  unfold upstreamOf at hd
  split at hd
  · exact hs d (List.mem_of_mem_take hd)
  · exact hs d hd

/-- Claim C25 (counterexample): "1.0-2~beta" is cut at the tilde, not at the
minus that comes first: the upstream part is "1.0-2" and the release "beta",
where the claim has "1.0" and "2~beta". -/
theorem tilde_is_cut_before_minus :
    splitRelease (cstr "1.0-2~beta" ++ [0]) 0 =
      some (cstr "1.0-2" ++ 0 :: (cstr "beta" ++ [0]), some 6) ∧
    (cstr "1.0-2~beta").takeWhile (fun c => !isSep c) = cstr "1.0" ∧
    cstrAt (cstr "1.0-2" ++ 0 :: (cstr "beta" ++ [0])) 0 = cstr "1.0-2" ∧
    cstrAt (cstr "1.0-2" ++ 0 :: (cstr "beta" ++ [0])) 6 = cstr "beta" := by
  decide

/-- Claim C25 (amended): for every version text `s` (after the epoch) that
holds at least one of the three separators, lines 159-177 cut it at the first
tilde when it has a tilde, else at the first minus when it has a minus, else at
the first plus: the upstream part is the text before that character, and the
release is the text after it (`version_it2` is `NULL` when nothing follows). -/
theorem release_split_point (pre s t : List Nat) (hs : ∀ d ∈ s, d ≠ 0)
    (hsep : s.any isSep = true) :
    ∃ buf q, splitRelease (pre ++ s ++ 0 :: t) pre.length = some (buf, q) ∧
      cstrAt buf pre.length = s.take (s.indexOf (splitChar s)) ∧
      (s.drop (s.indexOf (splitChar s) + 1) = [] → q = none) ∧
      (s.drop (s.indexOf (splitChar s) + 1) ≠ [] →
        ∃ r, q = some r ∧ cstrAt buf r = s.drop (s.indexOf (splitChar s) + 1)) := by
  obtain ⟨t2, h1, h2⟩ := splitRelease_parts pre s t hs
  have hu : upstreamOf s = s.take (s.indexOf (splitChar s)) := by simp [upstreamOf, hsep]
  have hr : releaseOf s = s.drop (s.indexOf (splitChar s) + 1) := by simp [releaseOf, hsep]
  rw [hu, hr] at h1
  rw [hr] at h2
  have hu0 : ∀ d ∈ s.take (s.indexOf (splitChar s)), d ≠ 0 :=
    fun d hd => hs d (List.mem_of_mem_take hd)
  refine ⟨_, _, h1, cstrAt_shape pre _ t2 hu0, ?_, ?_⟩
  · intro he; simp [he]
  · intro hne
    obtain ⟨t3, ht3⟩ := h2 hne
    refine ⟨pre.length + (s.take (s.indexOf (splitChar s))).length + 1, by simp [hne], ?_⟩
    rw [ht3]
    have e : pre ++ s.take (s.indexOf (splitChar s)) ++
        0 :: (s.drop (s.indexOf (splitChar s) + 1) ++ 0 :: t3) =
        (pre ++ s.take (s.indexOf (splitChar s)) ++ [0]) ++
          s.drop (s.indexOf (splitChar s) + 1) ++ 0 :: t3 := by simp
    have e2 : pre.length + (s.take (s.indexOf (splitChar s))).length + 1 =
        (pre ++ s.take (s.indexOf (splitChar s)) ++ [0]).length := by
      simp only [List.length_append, List.length_singleton]
    rw [e, e2]
    exact cstrAt_shape _ _ t3 (fun d hd => hs d (List.mem_of_mem_drop hd))

theorem release_split_point_witness :
    ∃ buf q, splitRelease ([] ++ cstr "1.0-2~beta" ++ 0 :: []) ([] : List Nat).length =
        some (buf, q) ∧
      cstrAt buf ([] : List Nat).length =
        (cstr "1.0-2~beta").take ((cstr "1.0-2~beta").indexOf (splitChar (cstr "1.0-2~beta"))) ∧
      ((cstr "1.0-2~beta").drop
          ((cstr "1.0-2~beta").indexOf (splitChar (cstr "1.0-2~beta")) + 1) = [] → q = none) ∧
      ((cstr "1.0-2~beta").drop
          ((cstr "1.0-2~beta").indexOf (splitChar (cstr "1.0-2~beta")) + 1) ≠ [] →
        ∃ r, q = some r ∧ cstrAt buf r = (cstr "1.0-2~beta").drop
          ((cstr "1.0-2~beta").indexOf (splitChar (cstr "1.0-2~beta")) + 1)) :=
  release_split_point [] (cstr "1.0-2~beta") [] (by decide) (by decide)

/-- Claim C26: the two examples of the claim. Installed "1.0-a1.5" against
operand "1.0-a1.7" and installed "2.4.7-1ubuntu4.1" against operand
"2.4.7-1ubuntu4.18" both return 0, although the digit runs of the installed
release come first in the lexicographic order: after the first equal numbers
the loop moves on by `i + 1` with an `i` that was not reset when `version_it`
was moved to the first digit, and lands on or past the terminator. -/
theorem multi_token_release_not_compared :
    lessThanOn zeroFrame "1.0-a1.5" "1.0-a1.7" = Outcome.ret 0 ∧
    lexLt (digitRuns "a1.5") (digitRuns "a1.7") = true ∧
    lessThanOn zeroFrame "2.4.7-1ubuntu4.1" "2.4.7-1ubuntu4.18" = Outcome.ret 0 ∧
    lexLt (digitRuns "1ubuntu4.1") (digitRuns "1ubuntu4.18") = true := by
  decide

/-- Claim C27: installed "1.0-beta" against operand "1.0-1". The release
"beta" holds no digit, the release loop has no bound and never tests the
terminator on that side, and the index runs out of `version_cl`. -/
theorem release_without_digit_leaves_array :
    lessThanOn zeroFrame "1.0-beta" "1.0-1" = Outcome.undef := by
  decide

/-! ## The comparator without a release, and the bound of the upstream loop -/

theorem upSide_terminated (buf : List Nat) (p i found : Nat) (h : Terminated buf p i found) :
    ∃ buf1 i1 f1, upSide buf p i found = some (buf1, i1, f1) ∧ Terminated buf1 p i1 f1 := by
  unfold upSide
  by_cases hf : found ≠ 0
  · exact ⟨buf, i, found, by simp [hf], h⟩
  · rcases h with h | ⟨m, hm, hz⟩
    · exact absurd h hf
    · have hlt : p + m < buf.length := by
        by_contra hcon
        rw [List.getElem?_eq_none (by omega)] at hz
        cases hz
      have hi : p + i < buf.length := by omega
      simp only [hf, if_false, List.getElem?_eq_getElem hi]
      by_cases h1 : buf[p + i] = 46 ∨ isalpha buf[p + i] = true
      · exact ⟨buf.set (p + i) 0, i, 1, by rw [if_pos h1], Or.inl (by decide)⟩
      · by_cases h2 : buf[p + i] = 0
        · exact ⟨buf, i, 2, by rw [if_neg h1, if_pos h2], Or.inl (by decide)⟩
        · refine ⟨buf, i + 1, 0, by rw [if_neg h1, if_neg h2], Or.inr ⟨m, ?_, hz⟩⟩
          rcases Nat.lt_or_ge i m with h3 | h3
          · exact h3
          · have : i = m := by omega
            subst this
            rw [List.getElem?_eq_getElem hi] at hz
            exact absurd (Option.some.inj hz) h2

theorem upSide_ordinary (pre tok rest : List Nat) (i : Nat) (hi : i < tok.length)
    (hord : ∀ c ∈ tok, c ≠ 0 ∧ c ≠ 46 ∧ isalpha c = false) :
    upSide (pre ++ tok ++ rest) pre.length i 0 = some (pre ++ tok ++ rest, i + 1, 0) := by
  have hget : (pre ++ tok ++ rest)[pre.length + i]? = some tok[i] := by
    rw [List.append_assoc, List.getElem?_append_right (Nat.le_add_right _ _)]
    simp only [Nat.add_sub_cancel_left]
    rw [List.getElem?_append_left hi, List.getElem?_eq_getElem hi]
  have h := hord tok[i] (List.getElem_mem _)
  unfold upSide
  simp only [ne_eq, not_true_eq_false, if_false]
  rw [hget]
  simp [h.1, h.2.1, h.2.2]

/-- The upstream loop on an installed token that goes on for the passes left:
the loop ends by its condition. -/
theorem upstreamLoop_long_installed (maxAtt : Int) (pre tok rest : List Nat) (lp : Nat)
    (hord : ∀ c ∈ tok, c ≠ 0 ∧ c ≠ 46 ∧ isalpha c = false) :
    ∀ (n fuel i j lf : Nat) (lbuf : List Nat) (att : Int),
      att + n = maxAtt → i + n ≤ tok.length → n < fuel → Terminated lbuf lp j lf →
      ∃ b1 b2, upstreamLoop maxAtt fuel (pre ++ tok ++ rest) lbuf pre.length lp i j att 0 lf =
        UpResult.done b1 b2 maxAtt := by
  intro n
  induction n with
  | zero =>
    intro fuel i j lf lbuf att hatt _ hfuel _
    obtain ⟨k, rfl⟩ := Nat.exists_eq_succ_of_ne_zero (by omega : fuel ≠ 0)
    have : att = maxAtt := by simpa using hatt
    subst this
    exact ⟨pre ++ tok ++ rest, lbuf, by simp [upstreamLoop]⟩
  | succ n ih =>
    intro fuel i j lf lbuf att hatt hi hfuel hl
    obtain ⟨k, rfl⟩ := Nat.exists_eq_succ_of_ne_zero (by omega : fuel ≠ 0)
    have hlt : att < maxAtt := by
      have : (0 : Int) ≤ (n : Int) := Int.natCast_nonneg _
      simp only [Nat.cast_add, Nat.cast_one] at hatt
      omega
    obtain ⟨lbuf1, j1, lf1, hside, hl1⟩ := upSide_terminated lbuf lp j lf hl
    unfold upstreamLoop
    simp only [hlt, not_true_eq_false, if_false,
      upSide_ordinary pre tok rest i (by omega) hord, hside, ne_eq, not_true_eq_false,
      false_and]
    apply ih k (i + 1) j1 lf1 lbuf1 (att + 1) _ (by omega) (by omega) hl1
    simp only [Nat.cast_add, Nat.cast_one] at hatt
    omega

/-- The upstream loop on an operand token that goes on for the passes left. -/
theorem upstreamLoop_long_operand (maxAtt : Int) (pre tok rest : List Nat) (vp : Nat)
    (hord : ∀ c ∈ tok, c ≠ 0 ∧ c ≠ 46 ∧ isalpha c = false) :
    ∀ (n fuel i j vf : Nat) (vbuf : List Nat) (att : Int),
      att + n = maxAtt → j + n ≤ tok.length → n < fuel → Terminated vbuf vp i vf →
      ∃ b1 b2, upstreamLoop maxAtt fuel vbuf (pre ++ tok ++ rest) vp pre.length i j att vf 0 =
        UpResult.done b1 b2 maxAtt := by
  intro n
  induction n with
  | zero =>
    intro fuel i j vf vbuf att hatt _ hfuel _
    obtain ⟨k, rfl⟩ := Nat.exists_eq_succ_of_ne_zero (by omega : fuel ≠ 0)
    have : att = maxAtt := by simpa using hatt
    subst this
    exact ⟨vbuf, pre ++ tok ++ rest, by simp [upstreamLoop]⟩
  | succ n ih =>
    intro fuel i j vf vbuf att hatt hj hfuel hv
    obtain ⟨k, rfl⟩ := Nat.exists_eq_succ_of_ne_zero (by omega : fuel ≠ 0)
    have hlt : att < maxAtt := by
      have : (0 : Int) ≤ (n : Int) := Int.natCast_nonneg _
      simp only [Nat.cast_add, Nat.cast_one] at hatt
      omega
    obtain ⟨vbuf1, i1, vf1, hside, hv1⟩ := upSide_terminated vbuf vp i vf hv
    unfold upstreamLoop
    simp only [hlt, not_true_eq_false, if_false,
      upSide_ordinary pre tok rest j (by omega) hord, hside, ne_eq, not_true_eq_false,
      and_false]
    apply ih k i1 (j + 1) vf1 vbuf1 (att + 1) _ (by omega) (by omega) hv1
    simp only [Nat.cast_add, Nat.cast_one] at hatt
    omega

theorem terminated_start (pre s t : List Nat) : Terminated (pre ++ s ++ 0 :: t) pre.length 0 0 := by
  refine Or.inr ⟨s.length, Nat.zero_le _, ?_⟩
  rw [← List.length_append, List.getElem?_append_right (le_refl _)]
  simp

/-- Lines 153-290 when a first token has at least `VU_MAX_VERSION_ATTEMPS`
characters and the upstream texts differ. -/
theorem compareFrom_long_token (K : Consts) (att0 : Int) (pv pl tv tl sv sl tok rest : List Nat)
    (e : Int) (hsv : ∀ c ∈ sv, c ≠ 0) (hsl : ∀ c ∈ sl, c ≠ 0)
    (hmax : (tok.length : Int) = K.VU_MAX_VERSION_ATTEMPS)
    (hne : upstreamOf sv ≠ upstreamOf sl)
    (hlong : upstreamOf sv = tok ++ rest ∨ upstreamOf sl = tok ++ rest)
    (hord : ∀ c ∈ tok, c ≠ 46 ∧ isalpha c = false) :
    compareFrom K att0 (pv ++ sv ++ 0 :: tv) (pl ++ sl ++ 0 :: tl) pv.length pl.length e e =
      Outcome.ret 0 := by
  obtain ⟨t2, hs1, _⟩ := splitRelease_parts pv sv tv hsv
  obtain ⟨t3, hs2, _⟩ := splitRelease_parts pl sl tl hsl
  have huv := upstreamOf_ne_zero sv hsv
  have hul := upstreamOf_ne_zero sl hsl
  unfold compareFrom
  simp only [gt_iff_lt, lt_self_iff_false, if_false, hs1, hs2,
    cstrAt_shape pv _ t2 huv, cstrAt_shape pl _ t3 hul, ne_eq, hne, not_false_eq_true, if_true]
  have hfuel : tok.length < upFuel K := by
    unfold upFuel
    have h1 : tok.length = K.VU_MAX_VERSION_ATTEMPS.toNat := by
      rw [← hmax]; simp
    rw [h1]
    have : K.VU_MAX_VERSION_ATTEMPS.toNat + 1 ≤
        (K.KEY_SIZE + 1) * (K.VU_MAX_VERSION_ATTEMPS.toNat + 1) :=
      Nat.le_mul_of_pos_left _ (Nat.succ_pos _)
    omega
  have hdone : ∃ b1 b2, upstreamLoop K.VU_MAX_VERSION_ATTEMPS (upFuel K)
      (pv ++ upstreamOf sv ++ 0 :: t2) (pl ++ upstreamOf sl ++ 0 :: t3) pv.length pl.length
      0 0 0 0 0 = UpResult.done b1 b2 K.VU_MAX_VERSION_ATTEMPS := by
    rcases hlong with h | h
    · have hord2 : ∀ c ∈ tok, c ≠ 0 ∧ c ≠ 46 ∧ isalpha c = false := by
        intro c hc
        exact ⟨huv c (by rw [h]; simp [hc]), hord c hc⟩
      have e1 : pv ++ upstreamOf sv ++ 0 :: t2 = pv ++ tok ++ (rest ++ 0 :: t2) := by
        rw [h]; simp
      rw [e1]
      exact upstreamLoop_long_installed K.VU_MAX_VERSION_ATTEMPS pv tok _ pl.length hord2
        tok.length (upFuel K) 0 0 0 _ 0 (by simpa using hmax) (by omega) hfuel
        (terminated_start pl _ t3)
    · have hord2 : ∀ c ∈ tok, c ≠ 0 ∧ c ≠ 46 ∧ isalpha c = false := by
        intro c hc
        exact ⟨hul c (by rw [h]; simp [hc]), hord c hc⟩
      have e1 : pl ++ upstreamOf sl ++ 0 :: t3 = pl ++ tok ++ (rest ++ 0 :: t3) := by
        rw [h]; simp
      rw [e1]
      exact upstreamLoop_long_operand K.VU_MAX_VERSION_ATTEMPS pl tok _ pv.length hord2
        tok.length (upFuel K) 0 0 0 _ 0 (by simpa using hmax) (by omega) hfuel
        (terminated_start pv _ t2)
  obtain ⟨b1, b2, hd⟩ := hdone
  rw [hd]
  simp

/-- Lines 153-290 when the upstream parts compare equal and one side has no
release. -/
theorem compareFrom_no_release (K : Consts) (att0 : Int) (pv pl tv tl sv sl : List Nat)
    (tvs tls : List (List Nat)) (e : Int) (hsv : ∀ c ∈ sv, c ≠ 0) (hsl : ∀ c ∈ sl, c ≠ 0)
    (hlen : sv.length < K.KEY_SIZE)
    (hup : upstreamOf sv = upstreamOf sl ∨
      (upstreamOf sv = dotted tvs ∧ upstreamOf sl = dotted tls ∧ tvs ≠ [] ∧ tls ≠ [] ∧
        (∀ t ∈ tvs, (∀ c ∈ t, isdigit c = true) ∧
          (t.length : Int) + 2 ≤ K.VU_MAX_VERSION_ATTEMPS ∧ decimal t < 2147483648) ∧
        (∀ t ∈ tls, (∀ c ∈ t, isdigit c = true) ∧
          (t.length : Int) + 2 ≤ K.VU_MAX_VERSION_ATTEMPS ∧ decimal t < 2147483648) ∧
        tvs.map decimal = tls.map decimal))
    (hrel : releaseOf sv = [] ∨ releaseOf sl = []) :
    compareFrom K att0 (pv ++ sv ++ 0 :: tv) (pl ++ sl ++ 0 :: tl) pv.length pl.length e e =
      Outcome.ret 0 := by
  obtain ⟨t2, hs1, _⟩ := splitRelease_parts pv sv tv hsv
  obtain ⟨t3, hs2, _⟩ := splitRelease_parts pl sl tl hsl
  have huv := upstreamOf_ne_zero sv hsv
  have hul := upstreamOf_ne_zero sl hsl
  have hfin : ∀ (b1 b2 : List Nat) (a : Int) (x y : Nat),
      (match UpResult.done b1 b2 a with
        | UpResult.ret n => Outcome.ret n
        | UpResult.undef => Outcome.undef
        | UpResult.nofuel => Outcome.nofuel
        | UpResult.done vbuf2 lbuf2 att =>
          if att = K.VU_MAX_VERSION_ATTEMPS then Outcome.ret 0
          else
            match (if releaseOf sv = [] then none else some x),
              (if releaseOf sl = [] then none else some y) with
            | some a, some b => releaseLoop (relFuel K) vbuf2 lbuf2 a b 0 0 0 0
            | _, _ => Outcome.ret 0) = Outcome.ret 0 := by
    intro b1 b2 a x y
    by_cases ha : a = K.VU_MAX_VERSION_ATTEMPS
    · simp [ha]
    · rcases hrel with h | h
      · simp [ha, h]
      · simp only [ha, if_false, h, if_true]
        split <;> simp_all
  unfold compareFrom
  simp only [gt_iff_lt, lt_self_iff_false, if_false, hs1, hs2,
    cstrAt_shape pv _ t2 huv, cstrAt_shape pl _ t3 hul]
  by_cases heq : upstreamOf sv = upstreamOf sl
  · simp only [heq, ne_eq, not_true_eq_false, if_false]
    exact hfin _ _ _ _ _
  · rcases hup with h | ⟨hdv, hdl, hv, hl, htv, htl, hmap⟩
    · exact absurd h heq
    · simp only [ne_eq, heq, not_false_eq_true, if_true]
      have hlenu : (dotted tvs).length < K.KEY_SIZE := by
        rw [← hdv]
        unfold upstreamOf
        split
        · rw [List.length_take]; omega
        · exact hlen
      have hfuel : tvs.length * K.VU_MAX_VERSION_ATTEMPS.toNat ≤ upFuel K := by
        have h1 := length_le_dotted tvs
        unfold upFuel
        have h2 : tvs.length ≤ K.KEY_SIZE + 1 := by omega
        calc tvs.length * K.VU_MAX_VERSION_ATTEMPS.toNat
            ≤ (K.KEY_SIZE + 1) * K.VU_MAX_VERSION_ATTEMPS.toNat := Nat.mul_le_mul_right _ h2
          _ ≤ (K.KEY_SIZE + 1) * (K.VU_MAX_VERSION_ATTEMPS.toNat + 1) :=
              Nat.mul_le_mul_left _ (Nat.le_succ _)
      obtain ⟨_, h2⟩ := upstreamLoop_dotted K.VU_MAX_VERSION_ATTEMPS tvs tls pv pl t2 t3 0
        (upFuel K) hv hl htv htl (Or.inl rfl) hfuel
      have hlex : lexLt (tvs.map decimal) (tls.map decimal) = false := by
        rw [hmap]; exact lexLt_irrefl _
      rw [hdv, hdl] at *
      rcases h2 hlex with h3 | ⟨b1, b2, a, h3, _⟩
      · rw [h3]
      · rw [h3]
        exact hfin b1 b2 a _ _

/-- Claim C28 (amended): for operation "less than" and every pair of versions
that fit the copy buffers (each shorter than `KEY_SIZE`), with equal epochs,
whose upstream parts are the same text or are dotted sequences of decimal
numbers with the same values (each number below 2^31 and short enough for the
attempt bound), when at least one of the two has no release (no separator, or
nothing after it) the comparator returns 0. -/
theorem missing_release_means_equal (K : Consts) (fr : Frame) (package v l : List Nat)
    (tvs tls : List (List Nat))
    (hv0 : ∀ c ∈ v, c ≠ 0) (hl0 : ∀ c ∈ l, c ≠ 0)
    (hvlen : v.length < K.KEY_SIZE) (hllen : l.length < K.KEY_SIZE)
    (hepoch : epochOf K v = epochOf K l)
    (hup : upstreamOf (afterEpoch v) = upstreamOf (afterEpoch l) ∨
      (upstreamOf (afterEpoch v) = dotted tvs ∧ upstreamOf (afterEpoch l) = dotted tls ∧
        tvs ≠ [] ∧ tls ≠ [] ∧
        (∀ t ∈ tvs, (∀ c ∈ t, isdigit c = true) ∧
          (t.length : Int) + 2 ≤ K.VU_MAX_VERSION_ATTEMPS ∧ decimal t < 2147483648) ∧
        (∀ t ∈ tls, (∀ c ∈ t, isdigit c = true) ∧
          (t.length : Int) + 2 ≤ K.VU_MAX_VERSION_ATTEMPS ∧ decimal t < 2147483648) ∧
        tvs.map decimal = tls.map decimal))
    (hrel : releaseOf (afterEpoch v) = [] ∨ releaseOf (afterEpoch l) = []) :
    wm_checks_package_vulnerability K fr package v (some (cstr "less than")) (some l) =
      Outcome.ret 0 := by
  obtain ⟨pv, tv, hsv2⟩ := splitEpoch_fit K fr.version_cl v hv0 hvlen
  obtain ⟨pl, tl, hsl2⟩ := splitEpoch_fit K fr.limit_cl l hl0 hllen
  have hc : cstrOf (cstr "less than") = cstr "less than" := by decide
  have hlen : (afterEpoch v).length < K.KEY_SIZE := by
    unfold afterEpoch
    split
    · rw [List.length_drop]; omega
    · exact hvlen
  simp only [wm_checks_package_vulnerability, hc, ne_eq, not_true_eq_false, if_false, hsv2,
    hsl2, hepoch]
  exact compareFrom_no_release K fr.attemps pv pl tv tl _ _ tvs tls (epochOf K l)
    (afterEpoch_ne_zero v hv0) (afterEpoch_ne_zero l hl0) hlen hup hrel

theorem missing_release_means_equal_witness :
    wm_checks_package_vulnerability sampleConsts staleFrame (cstr "pkg") (cstr "1.0")
        (some (cstr "less than")) (some (cstr "1.00-5")) = Outcome.ret 0 :=
  missing_release_means_equal sampleConsts staleFrame (cstr "pkg") (cstr "1.0") (cstr "1.00-5")
    [cstr "1", cstr "0"] [cstr "1", cstr "00"]
    (by decide) (by decide) (by decide) (by decide) (by decide)
    (Or.inr (by decide)) (Or.inl (by decide))

/-- Claim C29 (counterexample): with the bound 15, two versions of sixteen
tokens that agree on the first fifteen are compared on the sixteenth: the
comparator returns 1, it does not give up. -/
theorem sixteenth_token_is_compared :
    sampleConsts.VU_MAX_VERSION_ATTEMPS = 15 ∧
    wm_checks_package_vulnerability sampleConsts zeroFrame (cstr "pkg")
        (dotted (List.replicate 15 (cstr "1") ++ [cstr "1"])) (some (cstr "less than"))
        (some (dotted (List.replicate 15 (cstr "1") ++ [cstr "2"]))) = Outcome.ret 1 := by
  decide

/-! ## Facts about the overflow of the package list -/

/-- Claim C30: the agent has two vulnerable rows of CVE-2018-1 whose entries
overflow the package list, then a vulnerable row of CVE-2018-2. The `break` of
line 364 leaves the walk over the rows: one alert is sent, for CVE-2018-1, and
the row of CVE-2018-2 is never read. -/
theorem overflow_drops_later_cves :
    overflowRows.map (rowResult sampleConsts) =
      [Outcome.ret 1, Outcome.ret 1, Outcome.ret 1] ∧
    (report_agent sampleConsts sampleAgent emptyAcc overflowRows).status =
      RunStatus.overflow ∧
    (wm_vulnerability_detector_report_agent_vulnerabilities sampleConsts
        [(sampleAgent, some overflowRows)] emptyAcc).map (fun a => a.cve) =
      [cstr "CVE-2018-1"] := by
  decide

/-! ## Facts about the timers -/

theorem countDown_eq (timer : Nat) (t : Int) :
    ((countDown timer t : Nat) : Int) = max 0 ((timer : Int) - t) := by
  unfold countDown
  split
  · rw [Int.toNat_of_nonneg (by omega), max_eq_right (by omega)]
  · rw [max_eq_left (by omega)]
    rfl

/-- Claim C21: for every timer triple and every elapsed time `t ≥ 0`,
`wm_vulnerability_update_intervals` leaves in each timer the maximum of 0 and
the timer minus `t`; each new value depends on its own timer and on `t`
only. -/
theorem update_intervals_saturates (remaining : time_intervals) (t : Int) (_ht : 0 ≤ t) :
    (((wm_vulnerability_update_intervals remaining t).detect : Nat) : Int) =
      max 0 ((remaining.detect : Int) - t) ∧
    (((wm_vulnerability_update_intervals remaining t).ubuntu : Nat) : Int) =
      max 0 ((remaining.ubuntu : Int) - t) ∧
    (((wm_vulnerability_update_intervals remaining t).redhat : Nat) : Int) =
      max 0 ((remaining.redhat : Int) - t) :=
  ⟨countDown_eq _ t, countDown_eq _ t, countDown_eq _ t⟩

theorem update_intervals_saturates_witness :
    (((wm_vulnerability_update_intervals { detect := 60, ubuntu := 5, redhat := 0 } 7).detect :
        Nat) : Int) = max 0 (((60 : Nat) : Int) - 7) ∧
    (((wm_vulnerability_update_intervals { detect := 60, ubuntu := 5, redhat := 0 } 7).ubuntu :
        Nat) : Int) = max 0 (((5 : Nat) : Int) - 7) ∧
    (((wm_vulnerability_update_intervals { detect := 60, ubuntu := 5, redhat := 0 } 7).redhat :
        Nat) : Int) = max 0 (((0 : Nat) : Int) - 7) :=
  update_intervals_saturates { detect := 60, ubuntu := 5, redhat := 0 } 7 (by decide)

theorem sleepTime_eq (flags : update_flags) (remaining : time_intervals) :
    sleepTime flags remaining = ((enabledMin flags remaining : Nat) : Int) := by
  unfold sleepTime enabledMin
  cases hu : flags.update_ubuntu <;> cases hr : flags.update_redhat <;>
    simp only [Bool.false_eq_true, false_and, true_and, if_false, if_true, List.nil_append,
      List.append_nil, List.foldl_nil, List.foldl_cons, List.singleton_append, gt_iff_lt,
      Nat.cast_lt, Nat.cast_min]
  · split
    · rw [min_eq_right (by omega)]
    · rw [min_eq_left (by omega)]
  · split
    · rw [min_eq_right (by omega)]
    · rw [min_eq_left (by omega)]
  · split <;> split <;> omega

/-- Claim C22 (counterexample): with a detect timer of 4294967296 seconds and
no family enabled the minimum is 4294967296, and `sleep` is asked for 0
seconds. -/
theorem long_sleep_is_cut :
    enabledMin { update := true, update_ubuntu := false, update_redhat := false,
                 xenial := true, trusty := false, precise := false, rh5 := false,
                 rh6 := false, rh7 := false }
        { detect := 4294967296, ubuntu := 10, redhat := 20 } = 4294967296 ∧
    sleepSeconds { update := true, update_ubuntu := false, update_redhat := false,
                   xenial := true, trusty := false, precise := false, rh5 := false,
                   rh6 := false, rh7 := false }
        { detect := 4294967296, ubuntu := 10, redhat := 20 } = 0 := by
  constructor
  · rfl
  · simp [sleepSeconds, sleepTime]

/-- Claim C22 (amended): in every iteration `time_sleep` is the minimum of
the detect timer and the timers of the enabled families, the timer of a
family whose flag is not set has no influence on it, and `sleep` is asked for
that minimum whenever it is below 2^32, the range of its parameter. -/
theorem sleep_is_enabled_minimum (flags : update_flags) (remaining : time_intervals) :
    sleepTime flags remaining = ((enabledMin flags remaining : Nat) : Int) ∧
    (flags.update_ubuntu = false →
      ∀ u : Nat, sleepTime flags { remaining with ubuntu := u } = sleepTime flags remaining) ∧
    (flags.update_redhat = false →
      ∀ r : Nat, sleepTime flags { remaining with redhat := r } = sleepTime flags remaining) ∧
    (enabledMin flags remaining < 4294967296 →
      sleepSeconds flags remaining = enabledMin flags remaining) := by
  refine ⟨sleepTime_eq flags remaining, ?_, ?_, ?_⟩
  · intro h u
    simp [sleepTime, h]
  · intro h r
    simp [sleepTime, h]
  · intro h
    unfold sleepSeconds
    rw [sleepTime_eq]
    have h2 : ((enabledMin flags remaining : Nat) : Int) % 4294967296 =
        ((enabledMin flags remaining : Nat) : Int) := by
      apply Int.emod_eq_of_lt (Int.natCast_nonneg _)
      omega
    rw [h2]
    simp

/-! ## Facts about the scan of the agents -/

/-- Claim C23: a list of two agents is passed by its head. The inventories of
both agents are loaded (the walk by `next`), and the reporter, which walks by
`prev` from the same node, reports on the first agent only. -/
theorem second_agent_is_never_reported :
    wm_vulnerability_detector_check_agent_vulnerabilities sampleConsts twoAgents (some 0)
        goodScan =
      Scan.ret 0 [0, 1] [0]
        (wm_vulnerability_detector_report_agent_vulnerabilities sampleConsts
          [(sampleAgent, some twoPackages)] emptyAcc) ∧
    (wm_vulnerability_detector_report_agent_vulnerabilities sampleConsts
        [(sampleAgent, some twoPackages)] emptyAcc).map (fun a => a.agent_id) =
      [cstr "001"] := by
  decide

/-! ## Facts about the parser -/

theorem attrLoop_filter (body : ParsedOval → List Nat → List Nat → Parsed)
    (keep : List Nat × List Nat → Bool)
    (h : ∀ q a, keep a = false → body q a.1 a.2 = Parsed.ok q) :
    ∀ (attrs : List (List Nat × List Nat)) (p : ParsedOval),
      attrLoop body attrs p = attrLoop body (attrs.filter keep) p := by
  intro attrs
  induction attrs with
  | nil => intro p; rfl
  | cons a rest ih =>
    intro p
    obtain ⟨n, v⟩ := a
    cases hk : keep (n, v) with
    | false =>
      have := h p (n, v) hk
      simp only at this
      simp only [attrLoop, this, List.filter_cons, hk, Bool.false_eq_true, if_false]
      exact ih p
    | true =>
      simp only [attrLoop, List.filter_cons, hk, if_true]
      cases body p n v <;> simp [ih]

theorem parseList_append (step : XmlNode → ParsedOval → Parsed) :
    ∀ (a b : List XmlNode) (p : ParsedOval),
      parseList step (a ++ b) p =
        match parseList step a p with
        | Parsed.ok q => parseList step b q
        | e => e := by
  intro a
  induction a with
  | nil => intro b p; rfl
  | cons n rest ih =>
    intro b p
    simp only [List.cons_append, parseList]
    cases step n p <;> simp [ih]

theorem stepNode_criterion (dist : cve_db) (rec : List XmlNode → ParsedOval → Parsed)
    (content : Option (List Nat)) (attributes : Option (List (List Nat × List Nat)))
    (children : List XmlNode) (p : ParsedOval) :
    stepNode dist rec (XmlNode.mk (some (cstr "criterion")) content attributes children) p =
      match attributes with
      | none => Parsed.undef
      | some attrs => attrLoop (criterionAttr dist) attrs p := by
  cases dist <;> rfl

theorem stepNode_criteria (dist : cve_db) (rec : List XmlNode → ParsedOval → Parsed)
    (content : Option (List Nat)) (attributes : Option (List (List Nat × List Nat)))
    (children : List XmlNode) (p : ParsedOval) :
    stepNode dist rec (XmlNode.mk (some (cstr "criteria")) content attributes children) p =
      match attributes with
      | none => if children.isEmpty = true then Parsed.invalid else rec children p
      | some attrs =>
        attrLoop (fun q name value =>
          if name = cstr "operator" then
            if value = cstr "OR" ∨ value = cstr "AND" then
              if children.isEmpty = true then Parsed.ok q else rec children q
            else Parsed.invalid
          else Parsed.ok q) attrs p := by
  cases dist <;> rfl

theorem oval_eta (p : ParsedOval) : { p with vulnerabilities := p.vulnerabilities } = p := by
  cases p; rfl

theorem criteriaOfList_nil_of_ne (f : XmlNode → Option (List (List Nat × List Nat)))
    (forest : List XmlNode) (ks : List (List Nat × List Nat))
    (h : criteriaOfList f forest = some ks) (hks : ks ≠ []) : forest.isEmpty = false := by
  cases forest with
  | nil =>
    simp only [criteriaOfList, Option.some.injEq] at h
    exact absurd h.symm hks
  | cons n rest => rfl

theorem sleep_is_enabled_minimum_witness :
    sleepSeconds ubuntuOnly { detect := 60, ubuntu := 5, redhat := 1 } = 5 :=
  ((sleep_is_enabled_minimum ubuntuOnly { detect := 60, ubuntu := 5, redhat := 1 }).2.2.2
    (by decide)).trans (by decide)

/-! ## Facts about a failed inventory -/

/-- The loading loop stops at the first agent whose inventory loader returns
`OS_INVALID`. -/
theorem loadAgents_invalid (env : ScanSteps) (a : Nat) (post : List Nat)
    (ha : env.info a = Loaded.invalid) :
    ∀ pre : List Nat, (∀ x ∈ pre, env.info x = Loaded.ok) →
      loadAgents env (pre ++ a :: post) = (pre, Loaded.invalid) := by
  intro pre
  induction pre with
  | nil => intro _; simp [loadAgents, ha]
  | cons x xs ih =>
    intro h
    have hx := h x (List.mem_cons_self _ _)
    have hr := ih (fun y hy => h y (List.mem_cons_of_mem _ hy))
    simp [loadAgents, hx, hr]

/-- Claim C31 (counterexample): a list of two agents whose first inventory
cannot be parsed. The scan returns `OS_INVALID` at the first agent: the
inventory of the second agent is not loaded and no agent is reported on. -/
theorem bad_inventory_aborts_scan :
    wm_vulnerability_detector_check_agent_vulnerabilities sampleConsts twoAgents (some 0)
        (badInventory 0) = Scan.ret OS_INVALID [] [] [] := by
  decide

/-- Claim C31 (amended): when the inventory loader returns `OS_INVALID` for an
agent, the scan returns `OS_INVALID` at once: the agents before it in the walk
by `next` have been loaded, no agent after it is loaded, and no agent is
reported on. -/
theorem failed_inventory_ends_scan (K : Consts) (heap : List AgentNode) (start : Nat)
    (env : ScanSteps) (pre post : List Nat) (a : Nat)
    (hdb : env.checkDb = true) (hopen : env.openOk = true)
    (hwalk : follow heap (fun n => n.next) (heap.length + 1) (some start) =
      some (pre ++ a :: post))
    (hpre : ∀ x ∈ pre, env.info x = Loaded.ok)
    (ha : env.info a = Loaded.invalid) :
    wm_vulnerability_detector_check_agent_vulnerabilities K heap (some start) env =
      Scan.ret OS_INVALID pre [] [] := by
  simp only [wm_vulnerability_detector_check_agent_vulnerabilities, hdb, hopen, hwalk,
    loadAgents_invalid env a post ha pre hpre, Bool.true_eq_false, if_false]

theorem failed_inventory_ends_scan_witness :
    wm_vulnerability_detector_check_agent_vulnerabilities sampleConsts twoAgents (some 0)
        (badInventory 1) = Scan.ret OS_INVALID [0] [] [] :=
  failed_inventory_ends_scan sampleConsts twoAgents 0 (badInventory 1) [0] [] 1 rfl rfl
    (by decide) (by decide) (by decide)

/-! ## Facts about the sentinel of a test without a state -/

/-- The pass of the tests on a row that holds the id of a test without a
state. -/
theorem testRewrite_sentinel (t : List Nat) (tests : List InfoTest) (r : VulnRow)
    (hr : r.state_id = some t)
    (hT : ∃ T ∈ tests, T.id = some t)
    (hTs : ∀ T ∈ tests, T.id = some t → T.state = none)
    (hTn : ∀ T ∈ tests, matchesId (some (cstr "exists")) T.id = false) :
    testRewrite tests r = { r with state_id := some (cstr "exists") } := by
  induction tests with
  | nil => obtain ⟨T, hmem, _⟩ := hT; cases hmem
  | cons T ts ih =>
    by_cases hid : T.id = some t
    · have h1 : rewriteState (testState T) T.id r =
          { r with state_id := some (cstr "exists") } := by
        have hm : matchesId r.state_id T.id = true := by rw [hr, matchesId_some]; exact hid
        simp [rewriteState, hm, testState, hTs T (List.mem_cons_self _ _) hid]
      simp only [testRewrite, List.foldl_cons, h1]
      exact testRewrite_foreign ts _ (fun T2 h2 => hTn T2 (List.mem_cons_of_mem _ h2))
    · have hm : matchesId r.state_id T.id = false := by
        rw [hr]
        cases hb : matchesId (some t) T.id with
        | false => rfl
        | true => exact absurd ((matchesId_some t T.id).1 hb) hid
      have h1 : rewriteState (testState T) T.id r = r := by simp [rewriteState, hm]
      simp only [testRewrite, List.foldl_cons, h1]
      apply ih
      · obtain ⟨T2, hmem, h2⟩ := hT
        rcases List.mem_cons.1 hmem with e | e
        · subst e; exact absurd h2 hid
        · exact ⟨T2, e, h2⟩
      · exact fun T2 h2 => hTs T2 (List.mem_cons_of_mem _ h2)
      · exact fun T2 h2 => hTn T2 (List.mem_cons_of_mem _ h2)

/-- Claim C32 (counterexample): no state of the feed has the id "exists" and
the test `tst:30` of the vulnerability has no state, but a test named "exists"
comes later in the walk: the row is rewritten a second time and is stored with
the operation and the operand of the state of that test. -/
theorem sentinel_rewritten_by_test :
    (∀ S ∈ sentinelClashFeed.info_states, S.id ≠ some (cstr "exists")) ∧
    wm_vulnerability_detector_insert true (fun _ => true) emptyCatalog sentinelClashFeed =
      (0, { vulnerabilities :=
              [{ cve_id := some (cstr "CVE-2017-3000"), os := cstr "XENIAL",
                 package_name := some (cstr "vim"), pending := 0,
                 state_id := some (cstr "less than"),
                 operation_value := some (cstr "1.0") }],
            cve_info := [],
            metadata := [newMetaRow sentinelClashFeed],
            agents := [] }) := by
  decide

/-- Claim C32 (amended): let the feed have a test with id `t`, all tests with
id `t` have no state, and neither a test nor a state have the id "exists".
After an insert that returns 0, every vulnerability of the feed that referenced
`t` is stored with "exists" in its `state_id` column and a null
`operation_value`; for every row of the join that carries this null operand the
comparator returns 2 and the text formatted for the package list ends in
"(unfixed)". -/
theorem sentinel_for_stateless_test (openOk : Bool) (ok : Nat → Bool) (cat : Catalog)
    (p : ParsedOval) (t : List Nat)
    (hT : ∃ T ∈ p.info_tests, T.id = some t)
    (hTs : ∀ T ∈ p.info_tests, T.id = some t → T.state = none)
    (hTn : ∀ T ∈ p.info_tests, matchesId (some (cstr "exists")) T.id = false)
    (hSn : ∀ S ∈ p.info_states, matchesId (some (cstr "exists")) S.id = false)
    (h : (wm_vulnerability_detector_insert openOk ok cat p).1 = 0) :
    (∀ v ∈ p.vulnerabilities, v.state_id = some t →
      ({ cve_id := v.cve_id, os := p.OS, package_name := v.package_name,
         pending := v.pending, state_id := some (cstr "exists"),
         operation_value := none } : VulnRow) ∈
        (wm_vulnerability_detector_insert openOk ok cat p).2.vulnerabilities) ∧
    (∀ (K : Consts) (fr : Frame) (r : Row) (a : Acc), r.operation_value = none →
      wm_checks_package_vulnerability K fr r.package r.version r.operation
          r.operation_value = Outcome.ret 2 ∧
      entryText a r 2 = (if a.package_list ≠ [] then cstr ", " else []) ++ cstrOf r.package ++
        cstr " (unfixed)") := by
  refine ⟨?_, ?_⟩
  · intro v hv hvt
    rw [insert_success openOk ok cat p h]
    simp only [afterTransaction, List.map_append, List.mem_append]
    right
    rw [List.mem_map]
    refine ⟨{ cve_id := v.cve_id, os := p.OS, package_name := v.package_name,
              pending := v.pending, state_id := some t, operation_value := none },
            (mem_newVulnRows p _).2 ⟨v, hv, t, hvt, rfl⟩, ?_⟩
    rw [testRewrite_sentinel t p.info_tests _ rfl hT hTs hTn,
      stateRewrite_foreign p.info_states _ hSn]
  · intro K fr r a hr
    refine ⟨?_, ?_⟩
    · rw [hr]; rfl
    · have h9 : cstr "(unfixed)" = [40, 117, 110, 102, 105, 120, 101, 100, 41] := by decide
      have h10 : cstr " (unfixed)" = 32 :: [40, 117, 110, 102, 105, 120, 101, 100, 41] := by
        decide
      have h1 : cstr " " = [32] := by decide
      simp [entryText, h9, h10, h1]

theorem sentinel_for_stateless_test_witness :
    ({ cve_id := some (cstr "CVE-2017-3000"), os := cstr "XENIAL",
       package_name := some (cstr "vim"), pending := 0,
       state_id := some (cstr "exists"), operation_value := none } : VulnRow) ∈
      (wm_vulnerability_detector_insert true (fun _ => true) filledCatalog
        sentinelFeed).2.vulnerabilities ∧
    wm_checks_package_vulnerability sampleConsts zeroFrame (cstr "vim") (cstr "8.0")
        (some (cstr "exists")) none = Outcome.ret 2 ∧
    entryText emptyAcc (nullOperandRow "CVE-2017-3000" "vim" "8.0").2 2 =
      cstr "vim (unfixed)" :=
  ⟨(sentinel_for_stateless_test true (fun _ => true) filledCatalog sentinelFeed
      (cstr "tst:30") (by decide) (by decide) (by decide) (by decide) (by decide)).1
      { cve_id := some (cstr "CVE-2017-3000"), state_id := some (cstr "tst:30"),
        package_name := some (cstr "vim"), pending := 0 } (by decide) rfl,
   by decide, by decide⟩

/-! ## Facts about the search of a text in a line -/

theorem findSub_isSome (n : List Nat) :
    ∀ (h : List Nat) (i : Nat), (findSub n h i).isSome = true ↔ n <:+: h := by
  intro h
  induction h with
  | nil =>
    intro i
    by_cases hn : n = []
    · simp [findSub, hn]
    · simp [findSub, hn]
  | cons c cs ih =>
    intro i
    by_cases hp : n.isPrefixOf (c :: cs) = true
    · simp only [findSub, hp, if_true, Option.isSome_some, true_iff]
      exact (List.isPrefixOf_iff_prefix.1 hp).isInfix
    · simp only [findSub, hp, Bool.false_eq_true, if_false]
      rw [ih (i + 1), List.infix_cons_iff]
      constructor
      · intro h1; exact Or.inr h1
      · rintro (h1 | h1)
        · exact absurd (List.isPrefixOf_iff_prefix.2 h1) hp
        · exact h1

theorem findSub_some (n : List Nat) :
    ∀ (h : List Nat) (i j : Nat), findSub n h i = some j →
      ∃ a b, h = a ++ n ++ b ∧ j = i + a.length := by
  intro h
  induction h with
  | nil =>
    intro i j hj
    by_cases hn : n = []
    · simp only [findSub, hn, if_true, Option.some.injEq] at hj
      exact ⟨[], [], by simp [hn], by simp [hj]⟩
    · simp [findSub, hn] at hj
  | cons c cs ih =>
    intro i j hj
    by_cases hp : n.isPrefixOf (c :: cs) = true
    · simp only [findSub, hp, if_true, Option.some.injEq] at hj
      obtain ⟨b, hb⟩ := List.isPrefixOf_iff_prefix.1 hp
      exact ⟨[], b, by simp [hb], by simp [hj]⟩
    · simp only [findSub, hp, Bool.false_eq_true, if_false] at hj
      obtain ⟨a, b, hab, hja⟩ := ih (i + 1) j hj
      exact ⟨c :: a, b, by simp [hab], by simp [hja]; omega⟩

theorem findSub_first (n b : List Nat) :
    ∀ (a : List Nat) (i : Nat), ∃ k, findSub n (a ++ n ++ b) i = some (i + k) ∧ k ≤ a.length := by
  intro a
  induction a with
  | nil =>
    intro i
    refine ⟨0, ?_, Nat.le_refl _⟩
    cases hnb : n ++ b with
    | nil =>
      have hn : n = [] := (List.append_eq_nil.1 hnb).1
      have hb : b = [] := (List.append_eq_nil.1 hnb).2
      simp [findSub, hn, hb]
    | cons c cs =>
      have hp : n.isPrefixOf (c :: cs) = true := by
        rw [List.isPrefixOf_iff_prefix, ← hnb]; exact List.prefix_append _ _
      simp [findSub, hnb, hp]
  | cons x xs ih =>
    intro i
    have hcons : (x :: xs) ++ n ++ b = x :: (xs ++ n ++ b) := rfl
    rw [hcons]
    by_cases hp : n.isPrefixOf (x :: (xs ++ n ++ b)) = true
    · refine ⟨0, ?_, Nat.zero_le _⟩
      simp only [findSub, hp, if_true, Nat.add_zero]
    · obtain ⟨k, hk, hle⟩ := ih (i + 1)
      refine ⟨k + 1, ?_, Nat.succ_le_succ hle⟩
      simp only [findSub, hp, Bool.false_eq_true, if_false]
      rw [hk, Nat.add_assoc, Nat.add_comm 1 k]

theorem cstrOf_of_no_zero (s : List Nat) (h : ∀ c ∈ s, c ≠ 0) : cstrOf s = s := by
  unfold cstrOf
  rw [List.takeWhile_eq_self_iff]
  intro c hc
  simp [h c hc]

theorem cstrOf_drop (s : List Nat) (k : Nat) : cstrOf ((cstrOf s).drop k) = (cstrOf s).drop k :=
  cstrOf_of_no_zero _ (fun c hc => cstrOf_ne_zero s c (List.mem_of_mem_drop hc))

/-- The test `strstr(buffer, text)` of the preparser finds the text exactly
when the line contains it. -/
theorem found_iff (line : List Nat) (text : String) :
    found line text = true ↔ Contains line text := by
  unfold found strstr Contains
  exact findSub_isSome _ _ 0

theorem found_false_iff (line : List Nat) (text : String) :
    found line text = false ↔ ¬ Contains line text := by
  rw [← found_iff]
  simp

/-- The test `(found = strstr(buffer, first)) && strstr(found + skip, second)`
holds when the second text occurs after an occurrence of the first. -/
theorem foundAfter_of_later (line : List Nat) (first second : String) (skip : Nat)
    (hskip : skip ≤ (cstr first).length) (h : Later line first second) :
    foundAfter line first skip second = true := by
  obtain ⟨a, b, hab, hs⟩ := h
  unfold foundAfter strstr
  obtain ⟨k, hk, hle⟩ := findSub_first (cstr first) b a 0
  rw [hab, hk]
  simp only [Nat.zero_add]
  rw [← hab, cstrOf_drop, findSub_isSome, hab]
  have hlen : k + skip ≤ (a ++ cstr first).length := by
    rw [List.length_append]; omega
  rw [List.drop_append_of_le_length hlen]
  exact hs.trans (List.suffix_append _ _).isInfix

/-- The converse, for two texts such that the second cannot start inside the
part of the first that the search passes over again. -/
theorem later_of_foundAfter (line : List Nat) (first second : String) (skip : Nat)
    (hover : ∀ b : List Nat, cstr second <:+: (cstr first ++ b).drop skip →
      cstr second <:+: b)
    (h : foundAfter line first skip second = true) :
    Later line first second := by
  unfold foundAfter strstr at h
  cases hk : findSub (cstr first) (cstrOf line) 0 with
  | none => simp [hk] at h
  | some k =>
    simp only [hk] at h
    obtain ⟨a, b, hab, hka⟩ := findSub_some _ _ 0 k hk
    refine ⟨a, b, hab, hover b ?_⟩
    rw [cstrOf_drop, findSub_isSome, hab] at h
    have hk2 : k = a.length := by omega
    rw [hk2, List.append_assoc, List.drop_append] at h
    exact h
theorem true_after_negate (b : List Nat)
    (h : cstr "true" <:+: (cstr "negate" ++ b).drop 0) : cstr "true" <:+: b := by
  have h1 : cstr "true" = [116, 114, 117, 101] := by decide
  have h2 : cstr "negate" = [110, 101, 103, 97, 116, 101] := by decide
  rw [h1, h2, ← findSub_isSome _ _ 0] at h
  rw [h1]
  simp only [List.drop, List.cons_append, List.nil_append, findSub, List.isPrefixOf,
    Nat.reduceBEq, Bool.false_and, Bool.true_and, Bool.false_eq_true, if_false, beq_self_eq_true] at h
  exact (findSub_isSome _ b _).1 h

theorem installed_after_redhat (b : List Nat)
    (h : cstr "is installed" <:+: (cstr "Red Hat Enterprise Linux" ++ b).drop 1) :
    cstr "is installed" <:+: b := by
  have h1 : cstr "is installed" = [105, 115, 32, 105, 110, 115, 116, 97, 108, 108, 101, 100] := by
    decide
  have h2 : cstr "Red Hat Enterprise Linux" =
      [82, 101, 100, 32, 72, 97, 116, 32, 69, 110, 116, 101, 114, 112, 114, 105, 115, 101, 32,
       76, 105, 110, 117, 120] := by decide
  rw [h1, h2, ← findSub_isSome _ _ 0] at h
  rw [h1]
  simp only [List.drop, List.cons_append, List.nil_append, findSub, List.isPrefixOf,
    Nat.reduceBEq, Bool.false_and, Bool.true_and, Bool.false_eq_true, if_false, beq_self_eq_true] at h
  exact (findSub_isSome _ b _).1 h

/-! ## Facts about the lines that the preparser keeps -/

theorem preparser_ubuntu (lines : List (List Nat)) :
    wm_vulnerability_detector_preparser cve_db.UBUNTU (some lines) true =
      Prepared.file (filterLines ubuntuStep parser_state.V_OVALDEFINITIONS lines).1 := by
  simp [wm_vulnerability_detector_preparser]

theorem preparser_redhat (lines : List (List Nat)) :
    wm_vulnerability_detector_preparser cve_db.REDHAT (some lines) true =
      Prepared.file (filterLines redhatStep parser_state.V_OVALDEFINITIONS lines).1 := by
  simp [wm_vulnerability_detector_preparser]

/-- What the loop does with one line of the input: the lines before it decide
the state in which it is read. -/
theorem filterLines_line (step : parser_state → List Nat → parser_state × Bool)
    (s : parser_state) (pre post : List (List Nat)) (l : List Nat) :
    (filterLines step s (pre ++ l :: post)).1 =
      (filterLines step s pre).1 ++
        ((if (step (filterLines step s pre).2 l).2 = true then [l] else []) ++
          (filterLines step (step (filterLines step s pre).2 l).1 post).1) := by
  rw [filterLines_append]
  simp only [filterLines]
  split <;> simp

theorem filterLines_state_snoc (step : parser_state → List Nat → parser_state × Bool)
    (s : parser_state) (pre : List (List Nat)) (l : List Nat) :
    (filterLines step s (pre ++ [l])).2 = (step (filterLines step s pre).2 l).1 := by
  rw [filterLines_append]
  simp only [filterLines]
  split <;> rfl

theorem filterLines_sublist (step : parser_state → List Nat → parser_state × Bool) :
    ∀ (lines : List (List Nat)) (s : parser_state),
      List.Sublist (filterLines step s lines).1 lines := by
  intro lines
  induction lines with
  | nil => intro s; exact List.Sublist.slnil
  | cons l rest ih =>
    intro s
    simp only [filterLines]
    split
    · exact (ih _).cons₂ l
    · exact (ih _).cons l

/-- The test of lines 727-731 holds exactly for the lines that the drop rule
of the specification describes. -/
theorem ubuntu_drop_iff (l : List Nat) :
    ((found l "is not affected" && foundAfter l "negate" 0 "true") = true ∨
      found l "a decision has been made to ignore it" = true) ↔ UbuntuDropRule l := by
  unfold UbuntuDropRule
  rw [Bool.and_eq_true, found_iff, found_iff]
  have h : foundAfter l "negate" 0 "true" = true ↔ Later l "negate" "true" :=
    ⟨later_of_foundAfter l "negate" "true" 0 true_after_negate,
     foundAfter_of_later l "negate" "true" 0 (Nat.zero_le _)⟩
  rw [h]

/-- The test of lines 768-770. -/
theorem redhat_drop_iff (l : List Nat) :
    (foundAfter l "Red Hat Enterprise Linux" 1 "is installed" = true ∨
      found l "is signed with" = true) ↔ RedhatDropRule l := by
  unfold RedhatDropRule
  rw [found_iff]
  have h : foundAfter l "Red Hat Enterprise Linux" 1 "is installed" = true ↔
      Later l "Red Hat Enterprise Linux" "is installed" :=
    ⟨later_of_foundAfter l "Red Hat Enterprise Linux" "is installed" 1 installed_after_redhat,
     foundAfter_of_later l "Red Hat Enterprise Linux" "is installed" 1 (by decide)⟩
  rw [h]

/-- Lines 726-737 on one line. -/
theorem ubuntuStep_definitions (l : List Nat) :
    (UbuntuDropRule l →
      ubuntuStep parser_state.V_DEFINITIONS l = (parser_state.V_DEFINITIONS, false)) ∧
    (¬ UbuntuDropRule l → Contains l "</definitions>" →
      ubuntuStep parser_state.V_DEFINITIONS l = (parser_state.V_OVALDEFINITIONS, true)) ∧
    (¬ UbuntuDropRule l → ¬ Contains l "</definitions>" →
      ubuntuStep parser_state.V_DEFINITIONS l = (parser_state.V_DEFINITIONS, true)) := by
  rw [← ubuntu_drop_iff, ← found_iff]
  simp only [ubuntuStep]
  refine ⟨?_, ?_, ?_⟩
  · rintro (h | h)
    · simp [h]
    · by_cases h1 : (found l "is not affected" && foundAfter l "negate" 0 "true") = true
      · simp [h1]
      · simp [h1, h]
  · intro h hc
    rw [not_or] at h
    simp [h.1, h.2, hc]
  · intro h hc
    rw [not_or] at h
    simp [h.1, h.2, hc]

/-- Lines 767-775 on one line. -/
theorem redhatStep_definitions (l : List Nat) (h : ¬ RedhatDropRule l) :
    (redhatStep parser_state.V_DEFINITIONS l).2 = true := by
  rw [← redhat_drop_iff, not_or] at h
  simp only [redhatStep]
  by_cases hc : found l "</definitions>" = true
  · simp [h.1, h.2, hc]
  · simp [h.1, h.2, hc]

/-- Lines 738-745 on one line that does not open an objects block. -/
theorem ubuntuStep_outside (s : parser_state) (l : List Nat)
    (hs1 : s ≠ parser_state.V_OBJECTS) (hs2 : s ≠ parser_state.V_DEFINITIONS)
    (h : ¬ Contains l "<objects>") : (ubuntuStep s l).2 = true := by
  rw [← found_iff] at h
  cases s <;> first | exact absurd rfl hs1 | exact absurd rfl hs2 | skip
  all_goals
    simp only [ubuntuStep]
    by_cases hc : found l "<definitions>" = true
    · simp [h, hc]
    · simp [h, hc]

/-- The Ubuntu branch goes to the state of the objects block from that state,
on a line without the closing tag, or from outside the definitions section, on
a line with the opening tag. -/
theorem ubuntuStep_to_objects (s : parser_state) (l : List Nat) :
    (ubuntuStep s l).1 = parser_state.V_OBJECTS ↔
      (s = parser_state.V_OBJECTS ∧ ¬ Contains l "</objects>") ∨
      (s ≠ parser_state.V_OBJECTS ∧ s ≠ parser_state.V_DEFINITIONS ∧
        Contains l "<objects>") := by
  rw [← found_iff, ← found_iff]
  cases s <;> simp only [ubuntuStep] <;> (repeat' split) <;> simp_all

/-- The state of the objects block, told from the lines read: an objects
block is open when a line with the opening tag was read outside the
definitions section and outside an open block, and no line after it held the
closing tag. -/
theorem ubuntuState_objects (pre : List (List Nat)) :
    ubuntuState pre = parser_state.V_OBJECTS ↔
      ∃ a o m, pre = a ++ o :: m ∧ ubuntuState a ≠ parser_state.V_OBJECTS ∧
        ubuntuState a ≠ parser_state.V_DEFINITIONS ∧ Contains o "<objects>" ∧
        ∀ x ∈ m, ¬ Contains x "</objects>" := by
  induction pre using List.reverseRecOn with
  | nil =>
    constructor
    · intro h; exact absurd h (by decide)
    · rintro ⟨a, o, m, h, _⟩
      exact absurd h (by simp)
  | append_singleton xs x ih =>
    have hsnoc : ubuntuState (xs ++ [x]) = (ubuntuStep (ubuntuState xs) x).1 :=
      filterLines_state_snoc ubuntuStep parser_state.V_OVALDEFINITIONS xs x
    rw [hsnoc, ubuntuStep_to_objects]
    constructor
    · rintro (⟨h1, h2⟩ | ⟨h1, h2, h3⟩)
      · obtain ⟨a, o, m, hx, ha1, ha2, ho, hm⟩ := ih.1 h1
        refine ⟨a, o, m ++ [x], by simp [hx], ha1, ha2, ho, ?_⟩
        intro y hy
        rcases List.mem_append.1 hy with h | h
        · exact hm y h
        · rw [List.mem_singleton.1 h]; exact h2
      · exact ⟨xs, x, [], rfl, h1, h2, h3, by simp⟩
    · rintro ⟨a, o, m, hx, ha1, ha2, ho, hm⟩
      rcases List.eq_nil_or_concat m with hm0 | ⟨m1, y, hm1⟩
      · subst hm0
        have h2 := List.append_inj' hx rfl
        obtain ⟨e1, e2⟩ := h2
        have e3 : x = o := by simpa using e2
        subst e1; subst e3
        exact Or.inr ⟨ha1, ha2, ho⟩
      · subst hm1
        have hx2 : xs ++ [x] = (a ++ o :: m1) ++ [y] := by simp [hx]
        obtain ⟨e1, e2⟩ := List.append_inj' hx2 rfl
        have e3 : x = y := by simpa using e2
        subst e1; subst e3
        refine Or.inl ⟨ih.2 ⟨a, o, m1, rfl, ha1, ha2, ho, ?_⟩, ?_⟩
        · exact fun z hz => hm z (by simp [hz])
        · exact hm x (by simp)

/-- In the first state of the Red Hat branch the lines without the HTTP
status are written. -/
theorem redhat_before_status :
    ∀ pre : List (List Nat), (∀ x ∈ pre, ¬ Contains x "200 OK") →
      filterLines redhatStep parser_state.V_OVALDEFINITIONS pre =
        (pre, parser_state.V_OVALDEFINITIONS) := by
  intro pre
  induction pre with
  | nil => intro _; rfl
  | cons l ls ih =>
    intro h
    have h0 : found l "200 OK" = false := (found_false_iff _ _).2 (h l (List.mem_cons_self _ _))
    have h1 : redhatStep parser_state.V_OVALDEFINITIONS l =
        (parser_state.V_OVALDEFINITIONS, true) := by
      simp [redhatStep, h0]
    simp only [filterLines, h1, if_true]
    rw [ih (fun x hx => h x (List.mem_cons_of_mem _ hx))]

/-- In the state of the HTTP header nothing is written as long as no line
holds the end of the XML header. -/
theorem redhat_inside_header :
    ∀ mid : List (List Nat), (∀ x ∈ mid, ¬ Contains x "?>") →
      filterLines redhatStep parser_state.V_HEADER mid = ([], parser_state.V_HEADER) := by
  intro mid
  induction mid with
  | nil => intro _; rfl
  | cons l ls ih =>
    intro h
    have h0 : found l "?>" = false := (found_false_iff _ _).2 (h l (List.mem_cons_self _ _))
    have h1 : redhatStep parser_state.V_HEADER l = (parser_state.V_HEADER, false) := by
      simp [redhatStep, h0]
    simp only [filterLines, h1, Bool.false_eq_true, if_false]
    exact ih (fun x hx => h x (List.mem_cons_of_mem _ hx))

/-- No line takes the Red Hat branch into the state of the description
block. -/
theorem redhatStep_description (s : parser_state) (l : List Nat)
    (h : s ≠ parser_state.V_DESCRIPTION) :
    (redhatStep s l).1 ≠ parser_state.V_DESCRIPTION := by
  cases s <;> first | exact absurd rfl h | skip
  all_goals
    simp only [redhatStep]
    (repeat' split) <;> simp

theorem redhat_never_description :
    ∀ (lines : List (List Nat)) (s : parser_state), s ≠ parser_state.V_DESCRIPTION →
      (filterLines redhatStep s lines).2 ≠ parser_state.V_DESCRIPTION := by
  intro lines
  induction lines with
  | nil => intro s h; exact h
  | cons l rest ih =>
    intro s h
    simp only [filterLines]
    split
    · exact ih _ (redhatStep_description s l h)
    · exact ih _ (redhatStep_description s l h)

/-! ## The lines kept by the Ubuntu branch -/

/-- Claim C33 (counterexample): an objects block written on one line between
two definitions sections. The line opens the block and its closing tag is not
looked at, so the second definitions section is dropped with it. -/
theorem one_line_objects_block_drops_rest :
    wm_vulnerability_detector_preparser cve_db.UBUNTU
        (some [cstr "<definitions>\n", cstr "<definition id='a'/>\n", cstr "</definitions>\n",
               cstr "<objects><foo/></objects>\n",
               cstr "<definitions>\n", cstr "<definition id='b'/>\n",
               cstr "</definitions>\n"]) true =
      Prepared.file [cstr "<definitions>\n", cstr "<definition id='a'/>\n",
                     cstr "</definitions>\n"] := by
  decide

/-- Claim C33 (amended): the Ubuntu preparser writes lines unchanged and in
input order. A line read while no objects block is open is written, after what
is written of the lines before it and before what is written of the lines
after it, unless it is matched by the drop rule inside the definitions section
or holds the opening tag of an objects block outside it. A block is open from
its opening line to the next later line with the closing tag. -/
theorem ubuntu_keeps_outside (pre post : List (List Nat)) (l : List Nat)
    (hs : ¬ ObjectsOpen pre)
    (hdef : ubuntuState pre = parser_state.V_DEFINITIONS → ¬ UbuntuDropRule l)
    (hobj : ubuntuState pre ≠ parser_state.V_DEFINITIONS → ¬ Contains l "<objects>") :
    wm_vulnerability_detector_preparser cve_db.UBUNTU (some (pre ++ l :: post)) true =
      Prepared.file ((filterLines ubuntuStep parser_state.V_OVALDEFINITIONS pre).1 ++
        l :: (filterLines ubuntuStep (ubuntuStep (ubuntuState pre) l).1 post).1) ∧
    List.Sublist (filterLines ubuntuStep parser_state.V_OVALDEFINITIONS (pre ++ l :: post)).1
      (pre ++ l :: post) := by
  have hs1 : ubuntuState pre ≠ parser_state.V_OBJECTS :=
    fun h => hs ((ubuntuState_objects pre).1 h)
  have hkeep : (ubuntuStep (ubuntuState pre) l).2 = true := by
    by_cases hd : ubuntuState pre = parser_state.V_DEFINITIONS
    · rw [hd]
      by_cases hc : Contains l "</definitions>"
      · rw [(ubuntuStep_definitions l).2.1 (hdef hd) hc]
      · rw [(ubuntuStep_definitions l).2.2 (hdef hd) hc]
    · exact ubuntuStep_outside _ l hs1 hd (hobj hd)
  refine ⟨?_, filterLines_sublist _ _ _⟩
  rw [preparser_ubuntu, filterLines_line]
  unfold ubuntuState at hkeep ⊢
  rw [hkeep]
  simp

theorem ubuntu_keeps_outside_witness :
    wm_vulnerability_detector_preparser cve_db.UBUNTU
        (some ([cstr "<definitions>\n", cstr "<definition id='a'/>\n", cstr "</definitions>\n",
                cstr "<objects>\n", cstr "<foo/>\n", cstr "</objects>\n",
                cstr "<definitions>\n"] ++ cstr "<definition id='b'/>\n" ::
               [cstr "</definitions>\n"])) true =
      Prepared.file [cstr "<definitions>\n", cstr "<definition id='a'/>\n",
                     cstr "</definitions>\n", cstr "<definitions>\n",
                     cstr "<definition id='b'/>\n", cstr "</definitions>\n"] :=
  (ubuntu_keeps_outside
    [cstr "<definitions>\n", cstr "<definition id='a'/>\n", cstr "</definitions>\n",
     cstr "<objects>\n", cstr "<foo/>\n", cstr "</objects>\n", cstr "<definitions>\n"]
    [cstr "</definitions>\n"] (cstr "<definition id='b'/>\n")
    (fun h => absurd ((ubuntuState_objects _).2 h) (by decide))
    (fun _ h => absurd ((ubuntu_drop_iff _).2 h) (by decide))
    (fun h => absurd (by decide) h)).1

/-- Claim C34: a line read in the definitions section of the Ubuntu branch is
left out when the drop rule matches it, and the section goes on; any other
line is written at its place, and it ends the section when it holds the
closing tag of the section. -/
theorem ubuntu_definitions_drop_rule (pre post : List (List Nat)) (l : List Nat)
    (hst : ubuntuState pre = parser_state.V_DEFINITIONS) :
    (UbuntuDropRule l →
      wm_vulnerability_detector_preparser cve_db.UBUNTU (some (pre ++ l :: post)) true =
        Prepared.file ((filterLines ubuntuStep parser_state.V_OVALDEFINITIONS pre).1 ++
          (filterLines ubuntuStep parser_state.V_DEFINITIONS post).1)) ∧
    (¬ UbuntuDropRule l → Contains l "</definitions>" →
      wm_vulnerability_detector_preparser cve_db.UBUNTU (some (pre ++ l :: post)) true =
        Prepared.file ((filterLines ubuntuStep parser_state.V_OVALDEFINITIONS pre).1 ++
          l :: (filterLines ubuntuStep parser_state.V_OVALDEFINITIONS post).1)) ∧
    (¬ UbuntuDropRule l → ¬ Contains l "</definitions>" →
      wm_vulnerability_detector_preparser cve_db.UBUNTU (some (pre ++ l :: post)) true =
        Prepared.file ((filterLines ubuntuStep parser_state.V_OVALDEFINITIONS pre).1 ++
          l :: (filterLines ubuntuStep parser_state.V_DEFINITIONS post).1)) := by
  unfold ubuntuState at hst
  refine ⟨?_, ?_, ?_⟩
  · intro h
    rw [preparser_ubuntu, filterLines_line, hst, (ubuntuStep_definitions l).1 h]
    simp
  · intro h hc
    rw [preparser_ubuntu, filterLines_line, hst, (ubuntuStep_definitions l).2.1 h hc]
    simp
  · intro h hc
    rw [preparser_ubuntu, filterLines_line, hst, (ubuntuStep_definitions l).2.2 h hc]
    simp

theorem ubuntu_definitions_drop_rule_witness :
    wm_vulnerability_detector_preparser cve_db.UBUNTU
        (some ([cstr "<definitions>\n", cstr "<definition id='a'>\n"] ++
          cstr "<criterion comment='bash is not affected' negate='true'/>\n" ::
          [cstr "<criterion comment='vim is affected'/>\n", cstr "</definition>\n",
           cstr "</definitions>\n", cstr "<tests>\n"])) true =
      Prepared.file [cstr "<definitions>\n", cstr "<definition id='a'>\n",
                     cstr "<criterion comment='vim is affected'/>\n", cstr "</definition>\n",
                     cstr "</definitions>\n", cstr "<tests>\n"] :=
  (ubuntu_definitions_drop_rule
    [cstr "<definitions>\n", cstr "<definition id='a'>\n"]
    [cstr "<criterion comment='vim is affected'/>\n", cstr "</definition>\n",
     cstr "</definitions>\n", cstr "<tests>\n"]
    (cstr "<criterion comment='bash is not affected' negate='true'/>\n")
    (by decide)).1 ((ubuntu_drop_iff _).1 (by decide))

/-! ## The lines kept by the Red Hat branch -/

/-- Claim C35 (counterexample): a line read before the HTTP status line is
written to the output. -/
theorem line_before_status_is_kept :
    wm_vulnerability_detector_preparser cve_db.REDHAT
        (some [cstr "Connection established\n", cstr "HTTP/1.1 200 OK\n",
               cstr "Content-Type: text/xml\n", cstr "<?xml version='1.0'?>\n",
               cstr "<oval_definitions>\n"]) true =
      Prepared.file [cstr "Connection established\n", cstr "<oval_definitions>\n"] := by
  decide

/-- Claim C35 (amended): the Red Hat preparser leaves out every line from
the first line with the HTTP status "200 OK" to the next later line with the
end of the XML header, both included; the lines read before the status line
are written unchanged. -/
theorem redhat_header_dropped (pre mid post : List (List Nat)) (s e : List Nat)
    (hpre : ∀ x ∈ pre, ¬ Contains x "200 OK") (hs : Contains s "200 OK")
    (hmid : ∀ x ∈ mid, ¬ Contains x "?>") (he : Contains e "?>") :
    wm_vulnerability_detector_preparser cve_db.REDHAT
        (some (pre ++ s :: (mid ++ e :: post))) true =
      Prepared.file (pre ++ (filterLines redhatStep parser_state.V_STATES post).1) := by
  have h1 : redhatStep parser_state.V_OVALDEFINITIONS s = (parser_state.V_HEADER, false) := by
    simp [redhatStep, (found_iff _ _).2 hs]
  have h2 : redhatStep parser_state.V_HEADER e = (parser_state.V_STATES, false) := by
    simp [redhatStep, (found_iff _ _).2 he]
  rw [preparser_redhat, filterLines_line, redhat_before_status pre hpre, h1,
    filterLines_line, redhat_inside_header mid hmid, h2]
  simp

theorem redhat_header_dropped_witness :
    wm_vulnerability_detector_preparser cve_db.REDHAT
        (some ([] ++ cstr "HTTP/1.1 200 OK\n" ::
          ([cstr "Content-Type: text/xml\n", cstr "\n"] ++ cstr "<?xml version='1.0'?>\n" ::
            [cstr "<oval_definitions>\n", cstr "</oval_definitions>\n"]))) true =
      Prepared.file [cstr "<oval_definitions>\n", cstr "</oval_definitions>\n"] :=
  redhat_header_dropped [] [cstr "Content-Type: text/xml\n", cstr "\n"]
    [cstr "<oval_definitions>\n", cstr "</oval_definitions>\n"]
    (cstr "HTTP/1.1 200 OK\n") (cstr "<?xml version='1.0'?>\n")
    (by simp) ((found_iff _ _).1 (by decide))
    (fun x hx h => absurd ((found_iff _ _).2 h)
      (by
        have hx2 : x = cstr "Content-Type: text/xml\n" ∨ x = cstr "\n" := by simpa using hx
        rcases hx2 with e | e <;> subst e <;> decide))
    ((found_iff _ _).1 (by decide))

/-- Claim C36 (counterexample): a description block inside the definitions
section of a Red Hat feed is written to the output, line by line. -/
theorem description_block_is_kept :
    wm_vulnerability_detector_preparser cve_db.REDHAT
        (some [cstr "HTTP/1.1 200 OK\n", cstr "<?xml version='1.0'?>\n",
               cstr "<definitions>\n", cstr "<description>\n", cstr "A flaw was found.\n",
               cstr "</description>\n", cstr "</definitions>\n"]) true =
      Prepared.file [cstr "<definitions>\n", cstr "<description>\n",
                     cstr "A flaw was found.\n", cstr "</description>\n",
                     cstr "</definitions>\n"] := by
  decide

/-- Claim C36 (amended): the Red Hat preparser never reaches the state in
which it would leave out a description block, and it writes every line read in
the definitions section that the drop rule of the section does not match, the
lines of a description block included. -/
theorem redhat_description_kept (pre post : List (List Nat)) (l : List Nat)
    (hst : redhatState pre = parser_state.V_DEFINITIONS) (hkeep : ¬ RedhatDropRule l) :
    (∀ lines : List (List Nat), redhatState lines ≠ parser_state.V_DESCRIPTION) ∧
    wm_vulnerability_detector_preparser cve_db.REDHAT (some (pre ++ l :: post)) true =
      Prepared.file ((filterLines redhatStep parser_state.V_OVALDEFINITIONS pre).1 ++
        l :: (filterLines redhatStep (redhatStep parser_state.V_DEFINITIONS l).1 post).1) := by
  refine ⟨fun lines => redhat_never_description lines _ (by decide), ?_⟩
  unfold redhatState at hst
  rw [preparser_redhat, filterLines_line, hst, redhatStep_definitions l hkeep]
  simp

theorem redhat_description_kept_witness :
    (∀ lines : List (List Nat), redhatState lines ≠ parser_state.V_DESCRIPTION) ∧
    wm_vulnerability_detector_preparser cve_db.REDHAT
        (some ([cstr "HTTP/1.1 200 OK\n", cstr "<?xml version='1.0'?>\n",
                cstr "<definitions>\n"] ++ cstr "<description>A flaw was found.\n" ::
               [cstr "</description>\n", cstr "</definitions>\n"])) true =
      Prepared.file ((filterLines redhatStep parser_state.V_OVALDEFINITIONS
          [cstr "HTTP/1.1 200 OK\n", cstr "<?xml version='1.0'?>\n",
           cstr "<definitions>\n"]).1 ++
        cstr "<description>A flaw was found.\n" ::
          (filterLines redhatStep
            (redhatStep parser_state.V_DEFINITIONS (cstr "<description>A flaw was found.\n")).1
            [cstr "</description>\n", cstr "</definitions>\n"]).1) :=
  redhat_description_kept
    [cstr "HTTP/1.1 200 OK\n", cstr "<?xml version='1.0'?>\n", cstr "<definitions>\n"]
    [cstr "</description>\n", cstr "</definitions>\n"]
    (cstr "<description>A flaw was found.\n")
    (by decide) (fun h => absurd ((redhat_drop_iff _).2 h) (by decide))

/-! ## Facts about the title, the package name and the severity -/

theorem takeWhile_ne_append (x : Nat) (rest : List Nat) :
    ∀ a : List Nat, x ∉ a → (a ++ x :: rest).takeWhile (fun c => c != x) = a := by
  intro a
  induction a with
  | nil => intro _; simp [List.takeWhile]
  | cons y ys ih =>
    intro h
    have hy : y ≠ x := fun e => h (e ▸ List.mem_cons_self _ _)
    have hys : x ∉ ys := fun e => h (List.mem_cons_of_mem _ e)
    have hb : (y != x) = true := by simp [hy]
    simp [List.takeWhile, hb, ih hys]

theorem dropWhile_ne_append (x : Nat) (rest : List Nat) :
    ∀ a : List Nat, x ∉ a → (a ++ x :: rest).dropWhile (fun c => c != x) = x :: rest := by
  intro a
  induction a with
  | nil => intro _; simp [List.dropWhile]
  | cons y ys ih =>
    intro h
    have hy : y ≠ x := fun e => h (e ▸ List.mem_cons_self _ _)
    have hys : x ∉ ys := fun e => h (List.mem_cons_of_mem _ e)
    have hb : (y != x) = true := by simp [hy]
    simp [List.dropWhile, hb, ih hys]

/-- Lines 1055-1060 on a comment with two quotes. -/
theorem packageName_ubuntu (a b c : List Nat) (ha : 39 ∉ a) (hb : 39 ∉ b) :
    packageName cve_db.UBUNTU (a ++ 39 :: (b ++ 39 :: c)) = some (some b) := by
  unfold packageName
  rw [dropWhile_ne_append 39 _ a ha]
  simp only [List.drop_succ_cons, List.drop_zero]
  rw [takeWhile_ne_append 39 c b hb]
  simp

/-- Lines 1055-1060 on a comment with one quote: nothing is stored and the
function goes on. -/
theorem packageName_one_quote (a b : List Nat) (ha : 39 ∉ a) (hb : 39 ∉ b) :
    packageName cve_db.UBUNTU (a ++ 39 :: b) = some none := by
  unfold packageName
  rw [dropWhile_ne_append 39 _ a ha]
  simp [hb]

/-- Lines 1061-1063. -/
theorem packageName_redhat (a c : List Nat) (ha : 32 ∉ a) :
    packageName cve_db.REDHAT (a ++ 32 :: c) = some (some a) := by
  unfold packageName
  rw [takeWhile_ne_append 32 c a ha]
  simp

/-- Lines 1064-1067. -/
theorem packageName_none (dist : cve_db) (value : List Nat)
    (h1 : ¬ (dist = cve_db.UBUNTU ∧ 39 ∈ value))
    (h2 : ¬ (dist = cve_db.REDHAT ∧ 32 ∈ value)) : packageName dist value = none := by
  unfold packageName
  simp [h1, h2]

theorem criterionAttr_skip (dist : cve_db) (q : ParsedOval) (a : List Nat × List Nat)
    (ha : isCriterionAttr a = false) : criterionAttr dist q a.1 a.2 = Parsed.ok q := by
  simp only [isCriterionAttr, Bool.or_eq_false_iff, beq_eq_false_iff_ne, ne_eq] at ha
  simp [criterionAttr, ha.1, ha.2]

/-- The parser on a criterion whose only attribute of interest is a
comment. -/
theorem criterion_comment (dist : cve_db) (d : Nat) (content : Option (List Nat))
    (attrs : List (List Nat × List Nat)) (children : List XmlNode) (p : ParsedOval)
    (value : List Nat)
    (hattrs : attrs.filter isCriterionAttr = [(cstr "comment", value)]) :
    wm_vulnerability_detector_parser_run dist (d + 1)
        [XmlNode.mk (some (cstr "criterion")) content (some attrs) children] p =
      criterionAttr dist p (cstr "comment") value := by
  simp only [wm_vulnerability_detector_parser_run, parseList, stepNode_criterion]
  rw [attrLoop_filter (criterionAttr dist) isCriterionAttr (criterionAttr_skip dist) attrs p,
    hattrs]
  simp only [attrLoop]
  cases criterionAttr dist p (cstr "comment") value <;> rfl

/-- Lines 1044-1068 with the package name that lines 1055-1067 give. -/
theorem criterionAttr_comment (dist : cve_db) (p : ParsedOval) (v : Vulnerability)
    (vs : List Vulnerability) (value : List Nat)
    (hp : p.vulnerabilities = v :: vs) (hv : v.package_name ≠ none → v.cve_id ≠ none) :
    (packageName dist value = none →
      criterionAttr dist p (cstr "comment") value = Parsed.invalid) ∧
    (∀ pkg, packageName dist value = some pkg →
      ∃ p1 w ws, criterionAttr dist p (cstr "comment") value = Parsed.ok p1 ∧
        p1.vulnerabilities = w :: ws ∧ w.package_name = pkg) := by
  have hne : cstr "comment" ≠ cstr "test_ref" := by decide
  refine ⟨?_, ?_⟩
  · intro h
    simp only [criterionAttr, hne, if_false, if_true, hp, h]
    cases hpk : v.package_name with
    | none => simp
    | some n =>
      cases hc : v.cve_id with
      | none => exact absurd hc (hv (by simp [hpk]))
      | some c => simp
  · intro pkg h
    simp only [criterionAttr, hne, if_false, if_true, hp, h]
    cases hpk : v.package_name with
    | none =>
      cases pkg with
      | none => exact ⟨p, v, vs, by simp, hp, hpk⟩
      | some n =>
        exact ⟨{ p with vulnerabilities := { v with package_name := some n } :: vs },
          { v with package_name := some n }, vs, by simp, rfl, rfl⟩
    | some n =>
      cases hc : v.cve_id with
      | none => exact absurd hc (hv (by simp [hpk]))
      | some c =>
        exact ⟨{ p with vulnerabilities :=
            { cve_id := some c, state_id := none, package_name := pkg, pending := 0 } ::
              v :: vs },
          { cve_id := some c, state_id := none, package_name := pkg, pending := 0 }, v :: vs,
          by simp, rfl, rfl⟩

/-- Lines 989-991: a title without a space makes the function return
`OS_INVALID`. -/
theorem title_without_space (p : ParsedOval) (c : InfoCve) (cs : List InfoCve)
    (text : List Nat) (hc : p.info_cves = c :: cs) (h : 32 ∉ text) :
    titleStep p (some text) = Parsed.invalid := by
  simp [titleStep, hc, h]

/-! ## The title, the package name, the severity and the missing children -/

/-- Claim C37: the title of the definition starts with a space. Line 982
finds the space at the first byte of the content and line 984 reads the byte
before the content: the behaviour is undefined. -/
theorem title_with_leading_space_is_undefined :
    wm_vulnerability_detector_parser_run cve_db.REDHAT 3 [spaceTitleDefinition]
        (emptyOval (cstr "RHEL7")) = Parsed.undef := by
  decide

/-- Claim C38 (counterexample): the comment of the criterion has one quote
only. The parser returns 0 and the vulnerability is left without a package
name. -/
theorem one_quote_comment_is_accepted :
    wm_vulnerability_detector_parser_run cve_db.UBUNTU 4 [oneQuoteDefinition]
        (emptyOval (cstr "XENIAL")) =
      Parsed.ok { emptyOval (cstr "XENIAL") with
        vulnerabilities :=
          [{ cve_id := some (cstr "CVE-2017-1000"), state_id := some (cstr "oval:tst:20"),
             package_name := none, pending := 0 }],
        info_cves :=
          [{ cveid := some (cstr "CVE-2017-1000"),
             title := some (cstr "CVE-2017-1000 on Ubuntu 16.04 LTS (xenial) - medium."),
             severity := none, published := none, updated := none, reference := none,
             description := none }] } := by
  decide

/-- Claim C39: the severity element of the definition is empty. The parser
stores the text "Unknow", which is not the text "Unknown". -/
theorem empty_severity_is_unknow :
    wm_vulnerability_detector_parser_run cve_db.UBUNTU 4 [emptySeverityDefinition]
        (emptyOval (cstr "XENIAL")) =
      Parsed.ok { emptyOval (cstr "XENIAL") with
        vulnerabilities :=
          [{ cve_id := some (cstr "CVE-2017-1000"), state_id := none, package_name := none,
             pending := 0 }],
        info_cves :=
          [{ cveid := some (cstr "CVE-2017-1000"),
             title := some (cstr "CVE-2017-1000 on Ubuntu 16.04 LTS (xenial) - medium."),
             severity := some (cstr "Unknow"), published := none, updated := none,
             reference := none, description := none }] } ∧
    cstr "Unknow" ≠ cstr "Unknown" := by
  decide

/-- Lines 881-883, 899-901, 934-936, 967-969 and 1100-1102: an element that
the parser recurses into whatever its attributes are, without children. -/
theorem stepNode_needsChildren (dist : cve_db) (rec : List XmlNode → ParsedOval → Parsed)
    (el : List Nat) (content : Option (List Nat))
    (attributes : Option (List (List Nat × List Nat))) (p : ParsedOval)
    (hel : needsChildren dist el = true) :
    stepNode dist rec (XmlNode.mk (some el) content attributes []) p = Parsed.invalid := by
  simp only [needsChildren, Bool.or_eq_true, decide_eq_true_eq] at hel
  rcases hel with (((h | h) | h) | h) | h
  · rcases h with ⟨h1, h2⟩ | ⟨h1, h2⟩ <;> subst h1 <;> subst h2 <;> rfl
  · rcases h with ⟨h1, h2⟩ | ⟨h1, h2⟩ <;> subst h1 <;> subst h2 <;> rfl
  · subst h; cases dist <;> rfl
  · subst h; cases dist <;> rfl
  · rcases h with h | h | h | h | h | h <;> subst h <;> cases dist <;> rfl

theorem operator_skip (rec : List XmlNode → ParsedOval → Parsed) (children : List XmlNode)
    (q : ParsedOval) (a : List Nat × List Nat) (ha : isOperatorAttr a = false) :
    (fun (q : ParsedOval) (name value : List Nat) =>
      if name = cstr "operator" then
        if value = cstr "OR" ∨ value = cstr "AND" then
          if children.isEmpty = true then Parsed.ok q else rec children q
        else Parsed.invalid
      else Parsed.ok q) q a.1 a.2 = Parsed.ok q := by
  simp only [isOperatorAttr, beq_eq_false_iff_ne, ne_eq] at ha
  simp [ha]

/-- Claim C40 (counterexample): a `criteria` with the operator OR and no
children. The parser goes on to the next attribute and returns 0. -/
theorem childless_criteria_is_accepted :
    wm_vulnerability_detector_parser_run cve_db.UBUNTU 1
        [branch "criteria" [("operator", "OR")] []] (emptyOval (cstr "XENIAL")) =
      Parsed.ok (emptyOval (cstr "XENIAL")) := by
  decide

/-- Claim C40 (amended): a state or test of the family, a `definition`, a
`metadata` or a container without children makes the parser return
`OS_INVALID`, and so does a `criteria` without attributes and without
children, and a `criteria` whose first `operator` attribute is neither OR nor
AND. A `criteria` with the operator OR or AND and no children is passed over
without an error, and so is a `criteria` that has attributes but no
`operator`, with or without children. -/
theorem missing_children_are_errors (dist : cve_db) (d : Nat) (el : List Nat)
    (content : Option (List Nat)) (attributes : Option (List (List Nat × List Nat)))
    (rest : List XmlNode) (p : ParsedOval) (hel : needsChildren dist el = true) :
    wm_vulnerability_detector_parser_run dist (d + 1)
        (XmlNode.mk (some el) content attributes [] :: rest) p = Parsed.invalid ∧
    wm_vulnerability_detector_parser_run dist (d + 1)
        (XmlNode.mk (some (cstr "criteria")) content none [] :: rest) p = Parsed.invalid ∧
    (∀ (attrs more : List (List Nat × List Nat)) (v : List Nat) (children : List XmlNode),
      attrs.filter isOperatorAttr = (cstr "operator", v) :: more →
      v ≠ cstr "OR" → v ≠ cstr "AND" →
      wm_vulnerability_detector_parser_run dist (d + 1)
          (XmlNode.mk (some (cstr "criteria")) content (some attrs) children :: rest) p =
        Parsed.invalid) ∧
    (∀ (attrs : List (List Nat × List Nat)) (v : List Nat),
      attrs.filter isOperatorAttr = [(cstr "operator", v)] →
      v = cstr "OR" ∨ v = cstr "AND" →
      wm_vulnerability_detector_parser_run dist (d + 1)
          (XmlNode.mk (some (cstr "criteria")) content (some attrs) [] :: rest) p =
        wm_vulnerability_detector_parser_run dist (d + 1) rest p) ∧
    (∀ (attrs : List (List Nat × List Nat)) (children : List XmlNode),
      attrs.filter isOperatorAttr = [] →
      wm_vulnerability_detector_parser_run dist (d + 1)
          (XmlNode.mk (some (cstr "criteria")) content (some attrs) children :: rest) p =
        wm_vulnerability_detector_parser_run dist (d + 1) rest p) := by
  refine ⟨?_, ?_, ?_, ?_, ?_⟩
  · simp only [wm_vulnerability_detector_parser_run, parseList,
      stepNode_needsChildren dist _ el content attributes p hel]
  · simp only [wm_vulnerability_detector_parser_run, parseList, stepNode_criteria]
    rfl
  · intro attrs more v children hf h1 h2
    simp only [wm_vulnerability_detector_parser_run, parseList, stepNode_criteria]
    rw [attrLoop_filter _ isOperatorAttr (fun q a => operator_skip _ children q a) attrs p, hf]
    simp [attrLoop, h1, h2]
  · intro attrs v hf hv
    simp only [wm_vulnerability_detector_parser_run, parseList, stepNode_criteria]
    rw [attrLoop_filter _ isOperatorAttr (fun q a => operator_skip _ [] q a) attrs p, hf]
    simp [attrLoop, hv]
  · intro attrs children hf
    simp only [wm_vulnerability_detector_parser_run, parseList, stepNode_criteria]
    rw [attrLoop_filter _ isOperatorAttr (fun q a => operator_skip _ children q a) attrs p, hf]
    simp [attrLoop]

theorem missing_children_are_errors_witness :
    wm_vulnerability_detector_parser_run cve_db.REDHAT (2 + 1)
        (XmlNode.mk (some (cstr "metadata")) (some []) none [] ::
          [leaf "title" "RHSA-2017:1234: kernel update"])
        (pushDefinition (emptyOval (cstr "RHEL7"))) = Parsed.invalid :=
  (missing_children_are_errors cve_db.REDHAT 2 (cstr "metadata") (some []) none
    [leaf "title" "RHSA-2017:1234: kernel update"]
    (pushDefinition (emptyOval (cstr "RHEL7"))) (by decide)).1

theorem testRewrite_isSome (tests : List InfoTest) :
    ∀ r : VulnRow, r.state_id ≠ none → (testRewrite tests r).state_id ≠ none := by
  induction tests with
  | nil => intro r h; exact h
  | cons t ts ih =>
    intro r h
    simp only [testRewrite, List.foldl_cons]
    apply ih
    unfold rewriteState
    split
    · cases hs : t.state <;> simp [testState, hs]
    · exact h

theorem stateRewrite_isSome (states : List InfoState)
    (hop : ∀ S ∈ states, S.operation ≠ none) :
    ∀ r : VulnRow, r.state_id ≠ none → (stateRewrite states r).state_id ≠ none := by
  induction states with
  | nil => intro r h; exact h
  | cons t ts ih =>
    intro r h
    simp only [stateRewrite, List.foldl_cons]
    apply ih (fun S hS => hop S (List.mem_cons_of_mem _ hS))
    unfold rewriteOperation
    split
    · exact hop t (List.mem_cons_self _ _)
    · exact h

/-- Claim C11 (counterexample): the vulnerability of the feed has a test
reference, and the state that its test refers to has no operation. The insert
returns 0, and the row that it wrote for the vulnerability has a null
`state_id`: the UPDATE of the state (lines 597-606) bound its null operation to
that column. -/
theorem null_operation_nulls_state_id :
    wm_vulnerability_detector_insert true (fun _ => true) emptyCatalog nullOperationFeed =
      (0, { vulnerabilities :=
              [{ cve_id := some (cstr "CVE-2017-4000"), os := cstr "XENIAL",
                 package_name := some (cstr "nano"), pending := 0,
                 state_id := none, operation_value := none }],
            cve_info := [],
            metadata := [newMetaRow nullOperationFeed],
            agents := [] }) := by
  decide

/-- Claim C11 (amended): the insert writes a row of `vulnerabilities` only
for a vulnerability that has a `state_id`, and each INSERT binds a non-null
`state_id`. After a call that returns 0 the rows of the OS of the feed are, in
order, those of the vulnerabilities with a `state_id` (a vulnerability whose
`state_id` is null has no row), and each of them still has a non-null
`state_id` when every state of the feed has an operation. -/
theorem insert_skips_discarded (openOk : Bool) (ok : Nat → Bool) (cat : Catalog)
    (p : ParsedOval) (h : (wm_vulnerability_detector_insert openOk ok cat p).1 = 0) :
    (∀ r, Stmt.insertVuln r ∈ transactionStmts p →
      r.state_id ≠ none ∧ ∃ v ∈ p.vulnerabilities, v.state_id = r.state_id ∧
        v.cve_id = r.cve_id ∧ v.package_name = r.package_name ∧ v.pending = r.pending) ∧
    (((wm_vulnerability_detector_insert openOk ok cat p).2.vulnerabilities.filter
        (fun r => decide (r.os = p.OS))).map
          (fun r => (r.cve_id, r.package_name, r.pending)) =
      (p.vulnerabilities.filter (fun v => v.state_id.isSome)).map
        (fun v => (v.cve_id, v.package_name, v.pending))) ∧
    ((∀ S ∈ p.info_states, S.operation ≠ none) →
      ∀ r ∈ (wm_vulnerability_detector_insert openOk ok cat p).2.vulnerabilities,
        r.os = p.OS → r.state_id ≠ none) := by
  refine ⟨?_, ?_, ?_⟩
  · intro r hr
    obtain ⟨v, hv, s, hs, rfl⟩ := (mem_newVulnRows p r).1 ((insertVuln_mem_transaction p r).1 hr)
    exact ⟨by simp, v, hv, hs, rfl, rfl, rfl⟩
  · rw [insert_success openOk ok cat p h, own_rows_after, List.map_map, ← newVulnRows_keys]
    apply List.map_congr_left
    intro r _
    exact (rewrites_keep p r).2
  · intro hop r hr hos
    have hmem : r ∈ (wm_vulnerability_detector_insert openOk ok cat p).2.vulnerabilities.filter
        (fun r => decide (r.os = p.OS)) := by
      rw [List.mem_filter]
      exact ⟨hr, by simp [hos]⟩
    rw [insert_success openOk ok cat p h, own_rows_after, List.mem_map] at hmem
    obtain ⟨r0, hr0, rfl⟩ := hmem
    obtain ⟨v, _, s, _, hr0eq⟩ := (mem_newVulnRows p r0).1 hr0
    apply stateRewrite_isSome p.info_states hop
    apply testRewrite_isSome
    rw [hr0eq]
    simp

theorem insert_skips_discarded_witness :
    (wm_vulnerability_detector_insert true (fun _ => true) filledCatalog xenialFeed).1 = 0 ∧
    ((wm_vulnerability_detector_insert true (fun _ => true) filledCatalog
        xenialFeed).2.vulnerabilities.filter
        (fun r => decide (r.os = xenialFeed.OS))).map
          (fun r => (r.cve_id, r.package_name, r.pending)) =
      (xenialFeed.vulnerabilities.filter (fun v => v.state_id.isSome)).map
        (fun v => (v.cve_id, v.package_name, v.pending)) ∧
    (∀ r ∈ (wm_vulnerability_detector_insert true (fun _ => true) filledCatalog
        xenialFeed).2.vulnerabilities, r.os = xenialFeed.OS → r.state_id ≠ none) :=
  ⟨by decide,
   (insert_skips_discarded true (fun _ => true) filledCatalog xenialFeed (by decide)).2.1,
   (insert_skips_discarded true (fun _ => true) filledCatalog xenialFeed (by decide)).2.2
     (by decide)⟩

/-! ## Facts about versions longer than the copy buffer and about the bound -/

set_option maxRecDepth 8000 in
/-- Claim C28 (counterexample): an installed version of 65 bytes, twenty-two
tokens "01", against the operand of twenty-two tokens "1"; the epochs are
equal, neither has a release and the tokens have the same values. With
`KEY_SIZE` 64 the copy of line 132 keeps 63 bytes, that is twenty-one tokens of
the installed version, and the comparator returns 1. -/
theorem cut_version_compares_smaller :
    sampleConsts.KEY_SIZE = 64 ∧
    (dotted (List.replicate 22 (cstr "01"))).length = 65 ∧
    epochOf sampleConsts (dotted (List.replicate 22 (cstr "01"))) =
      epochOf sampleConsts (dotted (List.replicate 22 (cstr "1"))) ∧
    (List.replicate 22 (cstr "01")).map decimal = (List.replicate 22 (cstr "1")).map decimal ∧
    releaseOf (dotted (List.replicate 22 (cstr "01"))) = [] ∧
    releaseOf (dotted (List.replicate 22 (cstr "1"))) = [] ∧
    wm_checks_package_vulnerability sampleConsts zeroFrame (cstr "pkg")
        (dotted (List.replicate 22 (cstr "01"))) (some (cstr "less than"))
        (some (dotted (List.replicate 22 (cstr "1")))) = Outcome.ret 1 := by
  decide

/-- When the loop of lines 180-227 is left with `attemps` equal to the bound,
line 230 makes the comparator return 0. -/
theorem bound_returns_zero (K : Consts) (fr : Frame) (package v l b1 b2 : List Nat)
    (h : upstreamRun K fr v l = some (UpResult.done b1 b2 K.VU_MAX_VERSION_ATTEMPS)) :
    wm_checks_package_vulnerability K fr package v (some (cstr "less than")) (some l) =
      Outcome.ret 0 := by
  have hc : cstrOf (cstr "less than") = cstr "less than" := by decide
  unfold upstreamRun at h
  simp only [wm_checks_package_vulnerability, hc, ne_eq, not_true_eq_false, if_false]
  split at h
  · simp at h
  · rename_i vbuf vp vval hsv
    try rw [hsv]
    try simp only
    split at h
    · simp at h
    · rename_i lbuf lp lval hsl
      try rw [hsl]
      try simp only
      split at h
      · simp at h
      · rename_i hval
        have hval2 : vval = lval := by simpa using hval
        subst hval2
        unfold compareFrom
        simp only [gt_iff_lt, lt_self_iff_false, if_false]
        split at h
        · simp at h
        · rename_i vbuf1 v2 hs1
          try rw [hs1]
          try simp only
          split at h
          · simp at h
          · rename_i lbuf1 l2 hs2
            try rw [hs2]
            try simp only
            split at h
            · rename_i hne
              simp only [Option.some.injEq] at h
              rw [h, if_pos hne]
              simp
            · simp at h

/-- Claim C29 (amended): the bound counts the passes over one token and is
reset at every token. For every pair of versions that fit the copy buffers,
with equal epochs and different upstream texts, when the first token of one of
the two upstream parts has at least `VU_MAX_VERSION_ATTEMPS` characters (none a
dot or a letter), the upstream loop ends at its bound and the comparator
returns 0. And for every pair of versions whatever, whenever the loop of line
180 is left with `attemps` equal to `VU_MAX_VERSION_ATTEMPS`, at any token, the
comparator returns 0. -/
theorem long_token_gives_up (K : Consts) (fr : Frame) (package v l tok rest : List Nat)
    (hv0 : ∀ c ∈ v, c ≠ 0) (hl0 : ∀ c ∈ l, c ≠ 0)
    (hvlen : v.length < K.KEY_SIZE) (hllen : l.length < K.KEY_SIZE)
    (hepoch : epochOf K v = epochOf K l)
    (hne : upstreamOf (afterEpoch v) ≠ upstreamOf (afterEpoch l))
    (hlong : upstreamOf (afterEpoch v) = tok ++ rest ∨ upstreamOf (afterEpoch l) = tok ++ rest)
    (hmax : (tok.length : Int) = K.VU_MAX_VERSION_ATTEMPS)
    (hord : ∀ c ∈ tok, c ≠ 46 ∧ isalpha c = false) :
    wm_checks_package_vulnerability K fr package v (some (cstr "less than")) (some l) =
      Outcome.ret 0 ∧
    ∀ (fr2 : Frame) (package2 v2 l2 : List Nat),
      attempsAfterLoop K fr2 v2 l2 = some K.VU_MAX_VERSION_ATTEMPS →
      wm_checks_package_vulnerability K fr2 package2 v2 (some (cstr "less than")) (some l2) =
        Outcome.ret 0 := by
  constructor
  · obtain ⟨pv, tv, hsv2⟩ := splitEpoch_fit K fr.version_cl v hv0 hvlen
    obtain ⟨pl, tl, hsl2⟩ := splitEpoch_fit K fr.limit_cl l hl0 hllen
    have hc : cstrOf (cstr "less than") = cstr "less than" := by decide
    simp only [wm_checks_package_vulnerability, hc, ne_eq, not_true_eq_false, if_false, hsv2,
      hsl2, hepoch]
    exact compareFrom_long_token K fr.attemps pv pl tv tl _ _ tok rest (epochOf K l)
      (afterEpoch_ne_zero v hv0) (afterEpoch_ne_zero l hl0) hmax hne hlong hord
  · intro fr2 package2 v2 l2 h
    unfold attempsAfterLoop at h
    split at h
    · rename_i b1 b2 att hrun
      simp only [Option.some.injEq] at h
      subst h
      exact bound_returns_zero K fr2 package2 v2 l2 b1 b2 hrun
    · simp at h

theorem long_token_gives_up_witness :
    wm_checks_package_vulnerability sampleConsts zeroFrame (cstr "pkg")
        (cstr "123456789012345") (some (cstr "less than")) (some (cstr "123456789012346")) =
      Outcome.ret 0 ∧
    attempsAfterLoop sampleConsts zeroFrame (cstr "1.123456789012345")
        (cstr "1.123456789012346") = some 15 ∧
    wm_checks_package_vulnerability sampleConsts zeroFrame (cstr "pkg")
        (cstr "1.123456789012345") (some (cstr "less than"))
        (some (cstr "1.123456789012346")) = Outcome.ret 0 :=
  ⟨(long_token_gives_up sampleConsts zeroFrame (cstr "pkg") (cstr "123456789012345")
      (cstr "123456789012346") (cstr "123456789012345") []
      (by decide) (by decide) (by decide) (by decide) (by decide) (by decide)
      (Or.inl (by decide)) (by decide) (by decide)).1,
   by decide,
   (long_token_gives_up sampleConsts zeroFrame (cstr "pkg") (cstr "123456789012345")
      (cstr "123456789012346") (cstr "123456789012345") []
      (by decide) (by decide) (by decide) (by decide) (by decide) (by decide)
      (Or.inl (by decide)) (by decide) (by decide)).2 zeroFrame (cstr "pkg")
      (cstr "1.123456789012345") (cstr "1.123456789012346") (by decide)⟩

/-! ## Facts about the comment of a criterion -/

theorem attrLoop_append (body : ParsedOval → List Nat → List Nat → Parsed) :
    ∀ (a b : List (List Nat × List Nat)) (p : ParsedOval),
      attrLoop body (a ++ b) p =
        match attrLoop body a p with
        | Parsed.ok q => attrLoop body b q
        | e => e := by
  intro a
  induction a with
  | nil => intro b p; rfl
  | cons x xs ih =>
    intro b p
    obtain ⟨n, v⟩ := x
    simp only [List.cons_append, attrLoop]
    cases body p n v <;> simp [ih]

/-- Lines 1044-1068 on a comment, with the name that lines 1055-1067 take from
it. -/
theorem criterionAttr_comment_eq (dist : cve_db) (q : ParsedOval) (v : Vulnerability)
    (vs : List Vulnerability) (value : List Nat)
    (hq : q.vulnerabilities = v :: vs) (hv : v.package_name ≠ none → v.cve_id ≠ none) :
    criterionAttr dist q (cstr "comment") value =
      match packageName dist value with
      | none => Parsed.invalid
      | some name => Parsed.ok (withPackageName q name) := by
  have hne : cstr "comment" ≠ cstr "test_ref" := by decide
  simp only [criterionAttr, hne, if_false, if_true, hq, withPackageName]
  cases hpk : v.package_name with
  | none =>
    cases hn : packageName dist value with
    | none => rfl
    | some name =>
      cases name with
      | none => rfl
      | some n => rfl
  | some n0 =>
    cases hc : v.cve_id with
    | none => exact absurd hc (hv (by simp [hpk]))
    | some c =>
      cases hn : packageName dist value with
      | none => rfl
      | some name => rfl

/-- The parser on a criterion, up to and including a comment attribute. -/
theorem criterion_until_comment (dist : cve_db) (d : Nat) (content : Option (List Nat))
    (children : List XmlNode) (p q : ParsedOval) (pre post : List (List Nat × List Nat))
    (value : List Nat) (v : Vulnerability) (vs : List Vulnerability)
    (hpre : attrLoop (criterionAttr dist) pre p = Parsed.ok q)
    (hq : q.vulnerabilities = v :: vs) (hv : v.package_name ≠ none → v.cve_id ≠ none) :
    wm_vulnerability_detector_parser_run dist (d + 1)
        [XmlNode.mk (some (cstr "criterion")) content
          (some (pre ++ (cstr "comment", value) :: post)) children] p =
      match packageName dist value with
      | none => Parsed.invalid
      | some name => attrLoop (criterionAttr dist) post (withPackageName q name) := by
  simp only [wm_vulnerability_detector_parser_run, parseList, stepNode_criterion]
  rw [attrLoop_append, hpre]
  simp only [attrLoop, criterionAttr_comment_eq dist q v vs value hq hv]
  cases packageName dist value with
  | none => rfl
  | some name =>
    simp only
    cases attrLoop (criterionAttr dist) post (withPackageName q name) <;> rfl

/-- Claim C38 (amended): when the loop over the attributes of a criterion
reaches a comment, the attributes before it having been read without error,
the name taken from the comment is stored in the head of the list of
vulnerabilities when that head has no package name yet, and in a new entry put
in front of it otherwise (`withPackageName`); the loop goes on with the
attributes that follow. For Ubuntu a comment with two quotes gives the text
between the first and the second; for Red Hat a comment with a space gives the
text before the first space; an Ubuntu comment with exactly one quote is
accepted and gives no name; an Ubuntu comment without a quote and a Red Hat
comment without a space make the parser return `OS_INVALID`. -/
theorem package_name_from_comment (dist : cve_db) (d : Nat) (content : Option (List Nat))
    (children : List XmlNode) (p q : ParsedOval) (pre post : List (List Nat × List Nat))
    (value : List Nat) (v : Vulnerability) (vs : List Vulnerability)
    (hpre : attrLoop (criterionAttr dist) pre p = Parsed.ok q)
    (hq : q.vulnerabilities = v :: vs) (hv : v.package_name ≠ none → v.cve_id ≠ none) :
    (∀ a b c : List Nat, dist = cve_db.UBUNTU → value = a ++ 39 :: (b ++ 39 :: c) →
      39 ∉ a → 39 ∉ b →
      wm_vulnerability_detector_parser_run dist (d + 1)
          [XmlNode.mk (some (cstr "criterion")) content
            (some (pre ++ (cstr "comment", value) :: post)) children] p =
        attrLoop (criterionAttr dist) post (withPackageName q (some b))) ∧
    (∀ a c : List Nat, dist = cve_db.REDHAT → value = a ++ 32 :: c → 32 ∉ a →
      wm_vulnerability_detector_parser_run dist (d + 1)
          [XmlNode.mk (some (cstr "criterion")) content
            (some (pre ++ (cstr "comment", value) :: post)) children] p =
        attrLoop (criterionAttr dist) post (withPackageName q (some a))) ∧
    (∀ a b : List Nat, dist = cve_db.UBUNTU → value = a ++ 39 :: b → 39 ∉ a → 39 ∉ b →
      wm_vulnerability_detector_parser_run dist (d + 1)
          [XmlNode.mk (some (cstr "criterion")) content
            (some (pre ++ (cstr "comment", value) :: post)) children] p =
        attrLoop (criterionAttr dist) post (withPackageName q none)) ∧
    (¬ (dist = cve_db.UBUNTU ∧ 39 ∈ value) → ¬ (dist = cve_db.REDHAT ∧ 32 ∈ value) →
      wm_vulnerability_detector_parser_run dist (d + 1)
          [XmlNode.mk (some (cstr "criterion")) content
            (some (pre ++ (cstr "comment", value) :: post)) children] p =
        Parsed.invalid) := by
  rw [criterion_until_comment dist d content children p q pre post value v vs hpre hq hv]
  refine ⟨?_, ?_, ?_, ?_⟩
  · intro a b c hd hval ha hb
    subst hd; subst hval
    rw [packageName_ubuntu a b c ha hb]
  · intro a c hd hval ha
    subst hd; subst hval
    rw [packageName_redhat a c ha]
  · intro a b hd hval ha hb
    subst hd; subst hval
    rw [packageName_one_quote a b ha hb]
  · intro h1 h2
    rw [packageName_none dist value h1 h2]

theorem package_name_from_comment_witness :
    wm_vulnerability_detector_parser_run cve_db.UBUNTU (0 + 1)
        [XmlNode.mk (some (cstr "criterion")) none
          (some ([(cstr "test_ref", cstr "oval:tst:20")] ++
            (cstr "comment", cstr "The " ++ 39 :: (cstr "bash" ++ 39 ::
              cstr " package in xenial is affected.")) :: [])) []]
        titledOval =
      Parsed.ok { titledOval with
        vulnerabilities := [{ cve_id := some (cstr "CVE-2017-1000"),
                              state_id := some (cstr "oval:tst:20"),
                              package_name := some (cstr "bash"), pending := 0 }] } :=
  (package_name_from_comment cve_db.UBUNTU 0 none [] titledOval
    { titledOval with
      vulnerabilities := [{ cve_id := some (cstr "CVE-2017-1000"),
                            state_id := some (cstr "oval:tst:20"),
                            package_name := none, pending := 0 }] }
    [(cstr "test_ref", cstr "oval:tst:20")] []
    (cstr "The " ++ 39 :: (cstr "bash" ++ 39 :: cstr " package in xenial is affected."))
    { cve_id := some (cstr "CVE-2017-1000"), state_id := some (cstr "oval:tst:20"),
      package_name := none, pending := 0 } []
    (by decide) rfl (fun h => absurd rfl h)).1
    (cstr "The ") (cstr "bash") (cstr " package in xenial is affected.") rfl rfl
    (by decide) (by decide)

/-- A criterion with a test reference and no comment, followed by a criterion
whose comment comes before its test reference: the head of the list, filled by
the test reference of the first criterion, has no package name when the comment
is read, so the name goes to that entry; the test reference of the second
criterion then makes a new entry, which has no name. -/
theorem comment_first_names_previous_entry :
    wm_vulnerability_detector_parser_run cve_db.UBUNTU 1
        [XmlNode.mk (some (cstr "criterion")) none
           (some [(cstr "test_ref", cstr "oval:tst:20")]) [],
         XmlNode.mk (some (cstr "criterion")) none
           (some [(cstr "comment", cstr "The " ++ 39 :: (cstr "bash" ++ 39 ::
                    cstr " package in xenial is affected.")),
                  (cstr "test_ref", cstr "oval:tst:30")]) []]
        titledOval =
      Parsed.ok { titledOval with
        vulnerabilities :=
          [{ cve_id := some (cstr "CVE-2017-1000"), state_id := some (cstr "oval:tst:30"),
             package_name := none, pending := 0 },
           { cve_id := some (cstr "CVE-2017-1000"), state_id := some (cstr "oval:tst:20"),
             package_name := some (cstr "bash"), pending := 0 }] } := by
  decide

/-! ## The elements that leave the vulnerabilities alone -/

end VulnDetector
